import Mathlib

/-!
Verification of the simulation core of the containment-breach arena game.

The development shallowly embeds the TypeScript sources:
  * Game (the per-frame orchestrator, wave director and combat resolution),
  * TileMap (facility generation and circle-vs-grid collision),
  * Player, Enemy, Weapon, Bullet and the pickup entities.

Numbers: the JavaScript code computes with IEEE doubles.  Quantities that the
code only ever treats as integers (health, shield, ammo, wave counters, tile
coordinates, score) are embedded as integers; continuous quantities
(positions, distances, timers, durability) are embedded as real numbers, the
exact idealisation of the source arithmetic.  The special value Infinity
(katana ammo) is embedded as the `none` case of an `Option`.

Rendering-only state (sprites, particles colours, camera, bobbing phases) is
not part of the model; where the simulation pushes particles the model keeps
a bare count so that the control flow stays aligned with the source.
-/

namespace CB

open Classical

noncomputable section

/-- Tile types of the facility grid, from TileMap.ts. -/
inductive TileType where
  | empty
  | wall
  | glass
  | door
  | spawn
deriving DecidableEq, Repr

/-- Weapon kinds, from the WeaponType enum of the Weapon module. -/
inductive WeaponType where
  | pistol
  | rifle
  | shotgun
  | katana
  | shuriken
deriving DecidableEq, Repr

/-- Weapon state, from the Weapon class.  The katana stores ammo `Infinity`
in the source; that value is embedded as `none`. -/
structure Weapon where
  type : WeaponType
  ammo : Option ℤ
  maxAmmo : Option ℤ
  durability : ℝ
  maxDurability : ℝ
  damage : ℤ
  fireRate : ℝ
  range : ℝ
  spread : ℝ
  bulletsPerShot : ℕ
  isThrowable : Bool

namespace Weapon

/-- Weapon constructor: the stats table of the Weapon class constructor. -/
def make (t : WeaponType) : Weapon :=
  match t with
  | .shuriken =>
      { type := t, ammo := some 12, maxAmmo := some 12, durability := 60,
        maxDurability := 60, damage := 1, fireRate := 200, range := 450,
        spread := 0, bulletsPerShot := 0, isThrowable := true }
  | .pistol =>
      { type := t, ammo := some 8, maxAmmo := some 8, durability := 100,
        maxDurability := 100, damage := 1, fireRate := 300, range := 400,
        spread := 5, bulletsPerShot := 1, isThrowable := true }
  | .rifle =>
      { type := t, ammo := some 30, maxAmmo := some 30, durability := 150,
        maxDurability := 150, damage := 1, fireRate := 150, range := 500,
        spread := 2, bulletsPerShot := 1, isThrowable := true }
  | .shotgun =>
      { type := t, ammo := some 6, maxAmmo := some 6, durability := 80,
        maxDurability := 80, damage := 1, fireRate := 800, range := 200,
        spread := 30, bulletsPerShot := 5, isThrowable := true }
  | .katana =>
      { type := t, ammo := none, maxAmmo := none, durability := 200,
        maxDurability := 200, damage := 1, fireRate := 400, range := 50,
        spread := 0, bulletsPerShot := 0, isThrowable := false }

/-- Weapon.canFire: ammo positive (Infinity counts as positive) or katana,
and durability positive. -/
def canFire (w : Weapon) : Prop :=
  ((match w.ammo with | none => True | some a => 0 < a) ∨ w.type = .katana) ∧
    0 < w.durability

/-- Weapon.fire: on success, non-katana weapons lose one ammo, and the
durability drops by 8 for the katana and by 5 otherwise.  Returns the updated
weapon and the boolean result of the source method. -/
def fire (w : Weapon) : Weapon × Bool :=
  if canFire w then
    ({ w with
        ammo := if w.type = .katana then w.ammo else w.ammo.map (· - 1),
        durability := w.durability - (if w.type = .katana then 8 else 5) },
      true)
  else (w, false)

/-- Weapon.isBroken. -/
def isBroken (w : Weapon) : Prop := w.durability ≤ 0

end Weapon

/-- Modelled from the spec: 2D vectors.  The Vector2 module is not included
under src/; its operations are the standard Euclidean ones that every
included file uses (add, subtract, scalar multiply, length, distance). -/
structure Vec2 where
  x : ℝ
  y : ℝ
deriving DecidableEq

namespace Vec2

def add (v w : Vec2) : Vec2 := ⟨v.x + w.x, v.y + w.y⟩

def subtract (v w : Vec2) : Vec2 := ⟨v.x - w.x, v.y - w.y⟩

def multiply (v : Vec2) (s : ℝ) : Vec2 := ⟨v.x * s, v.y * s⟩

def length (v : Vec2) : ℝ := Real.sqrt (v.x ^ 2 + v.y ^ 2)

def distanceTo (v w : Vec2) : ℝ := (v.subtract w).length

/-- Normalisation; the zero vector is left untouched (every call site in the
included sources either guards the zero case or never reaches it). -/
def normalize (v : Vec2) : Vec2 :=
  if v.length = 0 then v else v.multiply (1 / v.length)

end Vec2

/-- Player state, from Player.ts (animation-only fields omitted). -/
structure Player where
  position : Vec2
  health : ℤ
  weapon : Option Weapon
  shield : ℤ
  grenades : ℤ
  shootCooldown : ℝ
  punchCooldown : ℝ
  grenadeCooldown : ℝ

namespace Player

/-- Player constructor: full health, a fresh pistol, no shield, one grenade. -/
def make (x y : ℝ) : Player :=
  { position := ⟨x, y⟩, health := 3, weapon := some (Weapon.make .pistol),
    shield := 0, grenades := 1, shootCooldown := 0, punchCooldown := 0,
    grenadeCooldown := 0 }

/-- Player.takeDamage: a positive shield absorbs the hit (25 shield points,
clamped at 0), otherwise health drops by one. -/
def takeDamage (p : Player) : Player :=
  if 0 < p.shield then { p with shield := max 0 (p.shield - 25) }
  else { p with health := p.health - 1 }

/-- Player.heal: health is clamped at the maximum of 3. -/
def heal (p : Player) (amount : ℤ) : Player :=
  { p with health := min 3 (p.health + amount) }

/-- Player.addShield: shield is clamped at 100. -/
def addShield (p : Player) (amount : ℤ) : Player :=
  { p with shield := min 100 (p.shield + amount) }

/-- Player.addGrenades. -/
def addGrenades (p : Player) (count : ℤ) : Player :=
  { p with grenades := p.grenades + count }

/-- Player.canShoot. -/
def canShoot (p : Player) : Prop :=
  p.shootCooldown ≤ 0 ∧ ∃ w, p.weapon = some w ∧ w.canFire

/-- Player.canPunch. -/
def canPunch (p : Player) : Prop := p.punchCooldown ≤ 0

/-- Player.shoot: fire the held weapon and start the fire-rate cooldown. -/
def shoot (p : Player) : Player :=
  match p.weapon with
  | none => p
  | some w => { p with weapon := some (w.fire).1, shootCooldown := w.fireRate }

/-- Player.melee: a katana swing only starts the fire-rate cooldown. -/
def melee (p : Player) : Player :=
  match p.weapon with
  | some w => if w.type = .katana then { p with shootCooldown := w.fireRate } else p
  | none => p

/-- Player.punch cooldown. -/
def punch (p : Player) : Player := { p with punchCooldown := 600 }

/-- Player.pickupWeapon. -/
def pickupWeapon (p : Player) (w : Weapon) : Player := { p with weapon := some w }

/-- Player.throwWeapon: a throwable held weapon is handed out and unequipped. -/
def throwWeapon (p : Player) : Player × Option Weapon :=
  match p.weapon with
  | some w => if w.isThrowable then ({ p with weapon := none }, some w) else (p, none)
  | none => (p, none)

end Player

/-- Reachable player states.  `init` is the Player constructor; `takeDamage`
and `heal` are the only operations of the sources that write `health`; the
`other` constructor covers every remaining mutation of the player performed
anywhere in the sources (movement, cooldowns, shield changes, weapon and
grenade bookkeeping), all of which leave `health` unchanged. -/
inductive PlayerReach : Player → Prop where
  | init (x y : ℝ) : PlayerReach (Player.make x y)
  | takeDamage {p : Player} : PlayerReach p → PlayerReach p.takeDamage
  | heal {p : Player} (amount : ℤ) : PlayerReach p → PlayerReach (p.heal amount)
  | other {p q : Player} : PlayerReach p → q.health = p.health → PlayerReach q

/-- Bullet data, from the Bullet class as constructed by Game (position,
velocity, enemy flag, optional player weapon type, optional owning enemy). -/
structure Bullet where
  position : Vec2
  velocity : Vec2
  isEnemyBullet : Bool
  playerWeaponType : Option WeaponType
  enemyOwnerId : Option ℤ

/-- Enemy state, from Enemy.ts (sprite fields omitted). -/
structure Enemy where
  id : ℤ
  position : Vec2
  weapon : Option Weapon
  shield : ℤ
  maxShield : ℤ
  speed : ℝ
  shootCooldown : ℝ

/-- Weapon pickup: position plus a freshly constructed weapon of the type. -/
structure WeaponPickup where
  position : Vec2
  weapon : Weapon

/-- WeaponPickup constructor. -/
def WeaponPickup.make (x y : ℝ) (t : WeaponType) : WeaponPickup :=
  ⟨⟨x, y⟩, Weapon.make t⟩

/-- Shield, health and ammo pickups carry only a position
(their bobbing phase is rendering state). -/
structure SimplePickup where
  position : Vec2

/-- Thrown weapon projectile, from ThrownWeapon.ts (spin angle omitted). -/
structure ThrownWeapon where
  position : Vec2
  velocity : Vec2
  weapon : Weapon
  ownerIsPlayer : Bool

/-- Room semantic types, from TileMap.ts. -/
inductive RoomType where
  | generic
  | medbay
  | animalTesting
  | research
  | storage
  | security
  | command
deriving DecidableEq, Repr

/-- Door orientation tag. -/
inductive DoorDir where
  | horizontal
  | vertical
deriving DecidableEq, Repr

/-- Door tile record stored on a room. -/
structure Door where
  x : ℤ
  y : ℤ
  dir : DoorDir
deriving DecidableEq, Repr

/-- Room record, from TileMap.ts. -/
structure Room where
  x : ℤ
  y : ℤ
  w : ℤ
  h : ℤ
  type : RoomType
  doors : List Door
deriving DecidableEq, Repr

/-- Breakable object kinds. -/
inductive ObjType where
  | computer
  | medicalBed
  | cage
  | table
  | equipment
  | monitor
  | storageBox
  | console
deriving DecidableEq, Repr

/-- Breakable object: an axis-aligned pixel rectangle with health. -/
structure BreakableObject where
  id : ℕ
  x : ℝ
  y : ℝ
  width : ℝ
  height : ℝ
  type : ObjType
  health : ℤ
  maxHealth : ℤ

/-- The facility: a row-major tile grid (tiles[y][x] as in the source), the
room list and the breakable objects.  The tileSize field of the source is the
constant 40 and is embedded as such. -/
structure TileMapData where
  cols : ℕ
  rows : ℕ
  tiles : List (List TileType)
  rooms : List Room
  breakableObjects : List BreakableObject
  nextObjectId : ℕ

namespace TileMapData

/-- The constant tileSize field. -/
def tileSize : ℤ := 40

/-- TileMap.get: out-of-bounds coordinates read as wall. -/
def get (m : TileMapData) (x y : ℤ) : TileType :=
  if x < 0 ∨ y < 0 ∨ (m.cols : ℤ) ≤ x ∨ (m.rows : ℤ) ≤ y then .wall
  else (m.tiles.getD y.toNat []).getD x.toNat .wall

/-- TileMap.set (and the identical setSafe): out-of-bounds writes are
dropped. -/
def set (m : TileMapData) (x y : ℤ) (t : TileType) : TileMapData :=
  if x < 0 ∨ y < 0 ∨ (m.cols : ℤ) ≤ x ∨ (m.rows : ℤ) ≤ y then m
  else { m with
          tiles := m.tiles.set y.toNat ((m.tiles.getD y.toNat []).set x.toNat t) }

end TileMapData

/-- Well-formedness of the tile grid representation: the nested lists match
the declared dimensions. -/
def TileMapData.Wf (m : TileMapData) : Prop :=
  m.tiles.length = m.rows ∧ ∀ row ∈ m.tiles, row.length = m.cols

namespace TileMapData

/-- TileMap.getPixelWidth. -/
def getPixelWidth (m : TileMapData) : ℤ := (m.cols : ℤ) * tileSize

/-- TileMap.getPixelHeight. -/
def getPixelHeight (m : TileMapData) : ℤ := (m.rows : ℤ) * tileSize

/-- TileMap.worldToTile on real pixel coordinates. -/
def worldToTile (px py : ℝ) : ℤ × ℤ := (⌊px / 40⌋, ⌊py / 40⌋)

/-- TileMap.tileCenter. -/
def tileCenter (tx ty : ℤ) : Vec2 :=
  ⟨(tx : ℝ) * 40 + 20, (ty : ℝ) * 40 + 20⟩

/-- TileMap.getRoomContaining: first room whose tile rectangle contains the
position's tile. -/
def getRoomContaining (m : TileMapData) (wx wy : ℝ) : Option Room :=
  let tx := ⌊wx / 40⌋
  let ty := ⌊wy / 40⌋
  m.rooms.find? fun r =>
    decide (r.x ≤ tx) && decide (tx < r.x + r.w) &&
    decide (r.y ≤ ty) && decide (ty < r.y + r.h)

/-- TileMap.getRoomCenter (world coordinates). -/
def getRoomCenter (r : Room) : Vec2 :=
  ⟨((r.x : ℝ) + (r.w : ℝ) / 2) * 40, ((r.y : ℝ) + (r.h : ℝ) / 2) * 40⟩

end TileMapData

/-- Game state: the fields of the Game class that the simulation reads or
writes (camera, minimap and sprite fields omitted; footsteps and particles
kept as counts; the five observer callbacks are modelled as invocation
counters). -/
structure GameState where
  player : Player
  enemies : List Enemy
  bullets : List Bullet
  weaponPickups : List WeaponPickup
  thrownWeapons : List ThrownWeapon
  shieldPickups : List SimplePickup
  healthPickups : List SimplePickup
  ammoPickups : List SimplePickup
  map : TileMapData
  score : ℤ
  enemySpawnTimer : ℝ
  enemySpawnRate : ℤ
  baseSpawnRate : ℤ
  weaponSpawnTimer : ℝ
  waveNumber : ℤ
  enemiesKilledThisWave : ℤ
  enemiesPerWave : ℤ
  meleeSwingActive : Bool
  meleeSwingStart : ℝ
  meleeSwingEnd : ℝ
  meleeSwingElapsed : ℝ
  meleeSwingDuration : ℝ
  meleeHitThisSwing : List ℤ
  aimDirection : Vec2
  bulletsFired : ℕ
  bulletsHit : ℕ
  friendlyFireKills : ℕ
  thrownKills : ℕ
  killsByWeapon : WeaponType → ℕ
  particles : ℕ
  scoreUpdateCalls : ℕ
  healthUpdateCalls : ℕ
  gameOverCalls : ℕ
  waveUpdateCalls : ℕ
  hudUpdateCalls : ℕ

/-- Game.nextWave enemy quota formula: min(25, 3 + floor(wave * 1.5)). -/
def enemiesPerWaveFormula (w : ℤ) : ℤ :=
  min 25 (3 + ⌊(w : ℚ) * 1.5⌋)

/-- Game.nextWave spawn-interval formula: max(150, 2000 - wave * 250),
with 2000 the (constant) baseSpawnRate field. -/
def spawnIntervalFormula (w : ℤ) : ℤ :=
  max 150 (2000 - w * 250)

/-- Random draws consumed by one pickup-spawn call.  Each field stands for
one Math.random() result, a value in [0,1). -/
structure PickupRng where
  rTable : ℚ
  rSide : ℚ
  rDoor : ℚ
  rDist : ℝ
  rAngle : ℝ
  rType : ℚ

namespace TileMapData

/-- TileMap.getRandomTable, with the Math.random() draw passed in as r. -/
def getRandomTable (m : TileMapData) (r : ℚ) : Option BreakableObject :=
  let tables := m.breakableObjects.filter fun o => o.type = .table
  if tables.isEmpty then none
  else tables.get? (⌊r * tables.length⌋).toNat

/-- Door-tile scan of TileMap.getRandomDoorTile: interior door tiles,
row-major as in the source loops. -/
def doorCandidates (m : TileMapData) : List (ℤ × ℤ) :=
  ((List.range (m.rows - 1)).drop 1).flatMap fun y =>
    ((List.range (m.cols - 1)).drop 1).filterMap fun x =>
      if m.get (x : ℤ) (y : ℤ) = .door then some ((x : ℤ), (y : ℤ)) else none

/-- Emergency door positions force-created when the scan finds none. -/
def emergencyDoorPositions (m : TileMapData) : List (ℤ × ℤ) :=
  [((m.cols / 4 : ℕ), (m.rows / 4 : ℕ)),
   ((m.cols * 3 / 4 : ℕ), (m.rows / 4 : ℕ)),
   ((m.cols / 2 : ℕ), (m.rows / 2 : ℕ)),
   ((m.cols / 4 : ℕ), (m.rows * 3 / 4 : ℕ)),
   ((m.cols * 3 / 4 : ℕ), (m.rows * 3 / 4 : ℕ))]

/-- TileMap.getRandomDoorTile: picks a random interior door tile; when none
exists it force-creates five door tiles (mutating the map) and picks among
those. -/
def getRandomDoorTile (m : TileMapData) (r : ℚ) : TileMapData × Option (ℤ × ℤ) :=
  let candidates := doorCandidates m
  if candidates.isEmpty then
    let ps := emergencyDoorPositions m
    let m2 := ps.foldl (fun mm p => mm.set p.1 p.2 .door) m
    (m2, ps.get? (⌊r * ps.length⌋).toNat)
  else (m, candidates.get? (⌊r * candidates.length⌋).toNat)

end TileMapData

/-- Shared placement logic of Game.spawnWeaponPickup, spawnShieldPickup,
spawnHealthPickup and spawnAmmoPickup (the four source functions repeat this
block verbatim): try a side of a random table, clamped to the world, else
fall back to a random offset near a random door tile. -/
def pickPickupPos (m : TileMapData) (rng : PickupRng) : TileMapData × Vec2 :=
  match m.getRandomTable rng.rTable with
  | some table =>
      let side := ⌊rng.rSide * 4⌋
      let p : ℝ × ℝ :=
        if side = 0 then (table.x + table.width / 2, table.y - 25)
        else if side = 1 then (table.x + table.width + 25, table.y + table.height / 2)
        else if side = 2 then (table.x + table.width / 2, table.y + table.height + 25)
        else (table.x - 25, table.y + table.height / 2)
      (m, ⟨max 50 (min ((m.getPixelWidth : ℝ) - 50) p.1),
           max 50 (min ((m.getPixelHeight : ℝ) - 50) p.2)⟩)
  | none =>
      let res := m.getRandomDoorTile rng.rDoor
      match res.2 with
      | some t =>
          let c := TileMapData.tileCenter t.1 t.2
          let dist := 30 + rng.rDist * 40
          let ang := rng.rAngle * (2 * Real.pi)
          (res.1, ⟨max 50 (min ((res.1.getPixelWidth : ℝ) - 50) (c.x + Real.cos ang * dist)),
                   max 50 (min ((res.1.getPixelHeight : ℝ) - 50) (c.y + Real.sin ang * dist))⟩)
      | none => (res.1, ⟨(res.1.getPixelWidth : ℝ) / 2, (res.1.getPixelHeight : ℝ) / 2⟩)

/-- The weapon type table used by random weapon spawns. -/
def weaponTypesList : List WeaponType :=
  [.pistol, .rifle, .shotgun, .katana, .shuriken]

/-- Game.spawnWeaponPickup: appends exactly one weapon pickup of a random
type at the shared placement position. -/
def spawnWeaponPickup (rng : PickupRng) (st : GameState) : GameState :=
  let t := weaponTypesList.getD (⌊rng.rType * 5⌋).toNat .pistol
  let res := pickPickupPos st.map rng
  { st with map := res.1,
            weaponPickups := st.weaponPickups ++ [WeaponPickup.make res.2.x res.2.y t] }

/-- Game.spawnShieldPickup. -/
def spawnShieldPickup (rng : PickupRng) (st : GameState) : GameState :=
  let res := pickPickupPos st.map rng
  { st with map := res.1, shieldPickups := st.shieldPickups ++ [⟨res.2⟩] }

/-- Game.spawnHealthPickup. -/
def spawnHealthPickup (rng : PickupRng) (st : GameState) : GameState :=
  let res := pickPickupPos st.map rng
  { st with map := res.1, healthPickups := st.healthPickups ++ [⟨res.2⟩] }

/-- Game.spawnAmmoPickup. -/
def spawnAmmoPickup (rng : PickupRng) (st : GameState) : GameState :=
  let res := pickPickupPos st.map rng
  { st with map := res.1, ammoPickups := st.ammoPickups ++ [⟨res.2⟩] }

/-- Random draws consumed by one Game.nextWave call. -/
structure NextWaveRng where
  wp : PickupRng
  sh : PickupRng
  am : PickupRng
  he : PickupRng

/-- Game.nextWave: advance the wave counter, reset the kill counter, apply
the quota and spawn-interval formulas, notify the wave observer, emit the
celebration particles, grant one grenade, spawn the guaranteed weapon pickup
and the threshold bonus pickups, and reset the pickup timer.  The extra
weapon pickup of every 5th wave is scheduled through setTimeout in the
source, i.e. outside the synchronous update, and is not part of this step. -/
def nextWave (rng : NextWaveRng) (st : GameState) : GameState :=
  let w' := st.waveNumber + 1
  let st1 := { st with
    waveNumber := w',
    enemiesKilledThisWave := 0,
    enemiesPerWave := enemiesPerWaveFormula w',
    enemySpawnRate := max 150 (st.baseSpawnRate - w' * 250),
    waveUpdateCalls := st.waveUpdateCalls + 1,
    particles := st.particles + 12,
    player := st.player.addGrenades 1 }
  let st2 := spawnWeaponPickup rng.wp st1
  let st3 := if 3 ≤ w' then spawnShieldPickup rng.sh st2 else st2
  let st4 := if 5 ≤ w' then spawnAmmoPickup rng.am st3 else st3
  let st5 := if 7 ≤ w' ∧ w' % 3 = 1 then spawnHealthPickup rng.he st4 else st4
  { st5 with weaponSpawnTimer := 0 }

/-- The wave-completion check of Game.update: the wave advances the moment
the kill counter has reached the quota, regardless of the live enemy list. -/
def waveCompletionCheck (rng : NextWaveRng) (st : GameState) : GameState :=
  if st.enemiesPerWave ≤ st.enemiesKilledThisWave then nextWave rng st else st

/-- Math.atan2. -/
def atan2 (y x : ℝ) : ℝ := Complex.arg ⟨x, y⟩

/-- The angle-unwrapping while-loops of the source (handleMeleeSweep and the
swing-arc block): first add full turns while the angle is below c - pi, then
subtract full turns while it is above c + pi.  The two max-ceiling terms are
the exact iteration counts of the two loops. -/
def unwrapAngle (a c : ℝ) : ℝ :=
  let b := a + 2 * Real.pi * (max 0 ⌈(c - Real.pi - a) / (2 * Real.pi)⌉ : ℤ)
  b - 2 * Real.pi * (max 0 ⌈(b - (c + Real.pi)) / (2 * Real.pi)⌉ : ℤ)

/-- Fate of an enemy that takes a hit. -/
inductive EnemyFate where
  | survive (e : Enemy)
  | die (pos : Vec2) (drop : Option WeaponType)

/-- The shared shield-then-health branch of every hit-resolution block in
Game.checkCollisions, handleMeleeSweep and handlePunchAttack: a positive
shield absorbs the hit (losing dec points, clamped at 0) and the enemy
survives; otherwise the enemy dies, dropping its held weapon type. -/
def shieldThenKill (dec : ℤ) (e : Enemy) : EnemyFate :=
  if 0 < e.shield then .survive { e with shield := max 0 (e.shield - dec) }
  else .die e.position (e.weapon.map Weapon.type)

/-- Hit test of the bullet-vs-enemy loop: an enemy is never hit by its own
bullet (enemy ids start at 1, so the truthiness guard of the source never
masks an id), and the hit radius is 15. -/
def bulletHitCond (b : Bullet) (e : Enemy) : Prop :=
  ¬(b.isEnemyBullet = true ∧ b.enemyOwnerId = some e.id) ∧
    b.position.distanceTo e.position < 15

/-- Inner enemy loop for one bullet (Game.checkCollisions, bullet vs enemy):
the source iterates j from the END of the enemy list and breaks at the first
hit, so the hit enemy is the LAST eligible one in list order.  Shield
absorption decrements the shield by 1. -/
def bulletEnemyScan (b : Bullet) : List Enemy → List Enemy × Option EnemyFate
  | [] => ([], none)
  | e :: rest =>
      let res := bulletEnemyScan b rest
      match res.2 with
      | some f => (e :: res.1, some f)
      | none =>
          if bulletHitCond b e then
            match shieldThenKill 1 e with
            | .survive e2 => (e2 :: res.1, some (.survive e2))
            | .die pos drop => (res.1, some (.die pos drop))
          else (e :: res.1, none)

/-- Outer bullet loop of the bullet-vs-enemy phase, iterating bullets from
the end of the list as the source does; a bullet that hits is removed.  The
unreachable duplicated shield block of the source (dead code directly after
the first shield check) is not modelled. -/
def bulletsVsEnemiesLoop : List Bullet → GameState → List Bullet × GameState
  | [], st => ([], st)
  | b :: rest, st =>
      let res := bulletsVsEnemiesLoop rest st
      let rest' := res.1
      let st' := res.2
      let scan := bulletEnemyScan b st'.enemies
      match scan.2 with
      | none => (b :: rest', st')
      | some (.survive _) =>
          (rest', { st' with enemies := scan.1, particles := st'.particles + 5 + 4 })
      | some (.die pos drop) =>
          (rest',
            { st' with
              enemies := scan.1,
              particles := st'.particles + 5,
              bulletsHit := if b.isEnemyBullet then st'.bulletsHit else st'.bulletsHit + 1,
              weaponPickups := st'.weaponPickups ++
                (match drop with
                 | some t => [WeaponPickup.make pos.x pos.y t]
                 | none => []),
              score := st'.score + 1,
              enemiesKilledThisWave := st'.enemiesKilledThisWave + 1,
              friendlyFireKills :=
                if b.isEnemyBullet then st'.friendlyFireKills + 1
                else st'.friendlyFireKills,
              killsByWeapon :=
                if b.isEnemyBullet then st'.killsByWeapon
                else match b.playerWeaponType with
                  | some t => Function.update st'.killsByWeapon t (st'.killsByWeapon t + 1)
                  | none => st'.killsByWeapon,
              scoreUpdateCalls := st'.scoreUpdateCalls + 1,
              hudUpdateCalls := st'.hudUpdateCalls + 1 })

/-- Bullet-vs-enemy phase wrapper. -/
def bulletsVsEnemiesPhase (st : GameState) : GameState :=
  let res := bulletsVsEnemiesLoop st.bullets st
  { res.2 with bullets := res.1 }

/-- The katana block conditions of the enemy-bullet-vs-player loop: an enemy
bullet is deflected when the player holds a katana and either the bullet is
within 28 pixels approaching within about 60 degrees of the aim direction,
or an active swing's angular/radial annulus contains it. -/
def katanaBlocks (st : GameState) (b : Bullet) : Prop :=
  let toBullet := b.position.subtract st.player.position
  let dist := toBullet.length
  b.isEnemyBullet = true ∧ b.playerWeaponType = none ∧
    (∃ w, st.player.weapon = some w ∧ w.type = .katana) ∧
    ((dist < 28 ∧
        ((toBullet.normalize.multiply (-1)).x * st.aimDirection.x +
          (toBullet.normalize.multiply (-1)).y * st.aimDirection.y) > 0.5) ∨
      (¬(dist < 28 ∧
          ((toBullet.normalize.multiply (-1)).x * st.aimDirection.x +
            (toBullet.normalize.multiply (-1)).y * st.aimDirection.y) > 0.5) ∧
        st.meleeSwingActive = true ∧
        (let a := unwrapAngle (atan2 toBullet.y toBullet.x) st.meleeSwingStart
         let t := min 1 (st.meleeSwingElapsed / st.meleeSwingDuration)
         let current := st.meleeSwingStart + (st.meleeSwingEnd - st.meleeSwingStart) * t
         (min st.meleeSwingStart current ≤ a ∧ a ≤ max st.meleeSwingStart current) ∧
           (16 ≤ dist ∧ dist ≤ 72))))

/-- One step of the enemy-bullet-vs-player loop: katana point block, katana
swing-arc block, then the 18-pixel player hit test. -/
def enemyBulletVsPlayerStep (b : Bullet) (st : GameState) : Option Bullet × GameState :=
  if katanaBlocks st b then
    let p2 :=
      match st.player.weapon with
      | some w =>
          let w2 := { w with durability := max 0 (w.durability - w.maxDurability * 0.1) }
          { st.player with weapon := some w2 }
      | none => st.player
    (none,
      { st with
        player := p2,
        particles := st.particles + 5,
        hudUpdateCalls := st.hudUpdateCalls + 1 })
  else if b.isEnemyBullet = true ∧ b.playerWeaponType = none ∧
      b.position.distanceTo st.player.position < 18 then
    (none,
      { st with player := st.player.takeDamage,
                hudUpdateCalls := st.hudUpdateCalls + 1,
                particles := st.particles + 5 })
  else (some b, st)

/-- Enemy-bullet-vs-player loop (from the end of the bullet list). -/
def enemyBulletsVsPlayerLoop : List Bullet → GameState → List Bullet × GameState
  | [], st => ([], st)
  | b :: rest, st =>
      let res := enemyBulletsVsPlayerLoop rest st
      let step := enemyBulletVsPlayerStep b res.2
      match step.1 with
      | some b2 => (b2 :: res.1, step.2)
      | none => (res.1, step.2)

/-- Enemy-bullet-vs-player phase wrapper. -/
def enemyBulletsVsPlayerPhase (st : GameState) : GameState :=
  let res := enemyBulletsVsPlayerLoop st.bullets st
  { res.2 with bullets := res.1 }

/-- Enemy-vs-player contact test of Game.checkCollisions. -/
def enemyTouchesPlayer (p : Player) (e : Enemy) : Prop :=
  e.position.distanceTo p.position < 20

/-- Enemy-vs-player loop: every enemy within 20 pixels of the player drops
its weapon as a pickup, is removed, and deals one takeDamage hit. -/
def enemiesVsPlayerLoop : List Enemy → GameState → List Enemy × GameState
  | [], st => ([], st)
  | e :: rest, st =>
      let res := enemiesVsPlayerLoop rest st
      let st' := res.2
      if enemyTouchesPlayer st'.player e then
        (res.1,
          { st' with
            weaponPickups := st'.weaponPickups ++
              (match e.weapon with
               | some w => [WeaponPickup.make e.position.x e.position.y w.type]
               | none => []),
            player := st'.player.takeDamage,
            hudUpdateCalls := st'.hudUpdateCalls + 1,
            particles := st'.particles + 3 })
      else (e :: res.1, st')

/-- Enemy-vs-player phase wrapper. -/
def enemiesVsPlayerPhase (st : GameState) : GameState :=
  let res := enemiesVsPlayerLoop st.enemies st
  { res.2 with enemies := res.1 }

/-- Player-vs-weapon-pickup loop: pickups within 30 pixels equip the player
(the lowest-index pickup is processed last, hence wins) and disappear. -/
def weaponPickupsLoop : List WeaponPickup → GameState → List WeaponPickup × GameState
  | [], st => ([], st)
  | p :: rest, st =>
      let res := weaponPickupsLoop rest st
      let st' := res.2
      if p.position.distanceTo st'.player.position < 30 then
        (res.1, { st' with player := st'.player.pickupWeapon p.weapon,
                           hudUpdateCalls := st'.hudUpdateCalls + 1 })
      else (p :: res.1, st')

/-- Player-vs-weapon-pickup phase wrapper. -/
def weaponPickupsPhase (st : GameState) : GameState :=
  let res := weaponPickupsLoop st.weaponPickups st
  { res.2 with weaponPickups := res.1 }

/-- Player-vs-shield-pickup loop: +40 shield (clamped at 100). -/
def shieldPickupsLoop : List SimplePickup → GameState → List SimplePickup × GameState
  | [], st => ([], st)
  | p :: rest, st =>
      let res := shieldPickupsLoop rest st
      let st' := res.2
      if p.position.distanceTo st'.player.position < 30 then
        (res.1, { st' with player := st'.player.addShield 40,
                           particles := st'.particles + 8,
                           hudUpdateCalls := st'.hudUpdateCalls + 1 })
      else (p :: res.1, st')

/-- Player-vs-shield-pickup phase wrapper. -/
def shieldPickupsPhase (st : GameState) : GameState :=
  let res := shieldPickupsLoop st.shieldPickups st
  { res.2 with shieldPickups := res.1 }

/-- Player-vs-health-pickup loop: heal(25), clamped at the max health 3. -/
def healthPickupsLoop : List SimplePickup → GameState → List SimplePickup × GameState
  | [], st => ([], st)
  | p :: rest, st =>
      let res := healthPickupsLoop rest st
      let st' := res.2
      if p.position.distanceTo st'.player.position < 30 then
        (res.1, { st' with player := st'.player.heal 25,
                           particles := st'.particles + 8,
                           hudUpdateCalls := st'.hudUpdateCalls + 1 })
      else (p :: res.1, st')

/-- Player-vs-health-pickup phase wrapper. -/
def healthPickupsPhase (st : GameState) : GameState :=
  let res := healthPickupsLoop st.healthPickups st
  { res.2 with healthPickups := res.1 }

/-- Player-vs-ammo-pickup loop: restores half the maximum ammo (floored),
capped at the maximum; consumed only when the held weapon can take ammo. -/
def ammoPickupsLoop : List SimplePickup → GameState → List SimplePickup × GameState
  | [], st => ([], st)
  | p :: rest, st =>
      let res := ammoPickupsLoop rest st
      let st' := res.2
      if p.position.distanceTo st'.player.position < 30 then
        match st'.player.weapon with
        | some w =>
            match w.ammo, w.maxAmmo with
            | some a, some ma =>
                if a < ma then
                  let add := min ⌊(ma : ℚ) * 0.5⌋ (ma - a)
                  let w2 := { w with ammo := some (a + add) }
                  (res.1, { st' with player := { st'.player with weapon := some w2 },
                                     particles := st'.particles + 8,
                                     hudUpdateCalls := st'.hudUpdateCalls + 1 })
                else (p :: res.1, st')
            | _, _ => (p :: res.1, st')
        | none => (p :: res.1, st')
      else (p :: res.1, st')

/-- Player-vs-ammo-pickup phase wrapper. -/
def ammoPickupsPhase (st : GameState) : GameState :=
  let res := ammoPickupsLoop st.ammoPickups st
  { res.2 with ammoPickups := res.1 }

/-- Inner enemy loop for one thrown weapon: hit radius 20, shield absorption
decrements the shield by 2 (thrown weapons chunk more shield). -/
def thrownEnemyScan (t : ThrownWeapon) : List Enemy → List Enemy × Option EnemyFate
  | [] => ([], none)
  | e :: rest =>
      let res := thrownEnemyScan t rest
      match res.2 with
      | some f => (e :: res.1, some f)
      | none =>
          if t.position.distanceTo e.position < 20 then
            match shieldThenKill 2 e with
            | .survive e2 => (e2 :: res.1, some (.survive e2))
            | .die pos drop => (res.1, some (.die pos drop))
          else (e :: res.1, none)

/-- Thrown-weapon-vs-enemy loop: a thrown weapon that hits is consumed; a
non-shuriken becomes a weapon pickup at its own position whether the hit was
absorbed or lethal; a lethal hit additionally drops the enemy weapon and
books the kill. -/
def thrownVsEnemiesLoop : List ThrownWeapon → GameState → List ThrownWeapon × GameState
  | [], st => ([], st)
  | t :: rest, st =>
      let res := thrownVsEnemiesLoop rest st
      let rest' := res.1
      let st' := res.2
      let scan := thrownEnemyScan t st'.enemies
      let selfPickup : List WeaponPickup :=
        if t.weapon.type = .shuriken then []
        else [WeaponPickup.make t.position.x t.position.y t.weapon.type]
      match scan.2 with
      | none => (t :: rest', st')
      | some (.survive _) =>
          (rest',
            { st' with enemies := scan.1,
                       particles := st'.particles + 6,
                       weaponPickups := st'.weaponPickups ++ selfPickup })
      | some (.die pos drop) =>
          (rest',
            { st' with
              enemies := scan.1,
              particles := st'.particles + 6,
              weaponPickups := st'.weaponPickups ++
                (match drop with
                 | some ty => [WeaponPickup.make pos.x pos.y ty]
                 | none => []) ++ selfPickup,
              score := st'.score + 1,
              enemiesKilledThisWave := st'.enemiesKilledThisWave + 1,
              thrownKills :=
                if t.ownerIsPlayer then st'.thrownKills + 1 else st'.thrownKills,
              scoreUpdateCalls := st'.scoreUpdateCalls + 1,
              hudUpdateCalls := st'.hudUpdateCalls + 1 })

/-- Thrown-weapon-vs-enemy phase wrapper. -/
def thrownVsEnemiesPhase (st : GameState) : GameState :=
  let res := thrownVsEnemiesLoop st.thrownWeapons st
  { res.2 with thrownWeapons := res.1 }

/-- Game.checkCollisions: the eight resolution phases in source order. -/
def checkCollisions (st : GameState) : GameState :=
  thrownVsEnemiesPhase
    (ammoPickupsPhase
      (healthPickupsPhase
        (shieldPickupsPhase
          (weaponPickupsPhase
            (enemiesVsPlayerPhase
              (enemyBulletsVsPlayerPhase
                (bulletsVsEnemiesPhase st)))))))

/-- The game-over check of Game.update: the callback fires (once per update)
when the player health has dropped to 0 or below. -/
def gameOverCheck (st : GameState) : GameState :=
  if st.player.health ≤ 0 then { st with gameOverCalls := st.gameOverCalls + 1 }
  else st

/-- Tail of Game.update: collision resolution, the game-over check, then the
health observer callback. -/
def collisionsAndGameOver (st : GameState) : GameState :=
  let st1 := gameOverCheck (checkCollisions st)
  { st1 with healthUpdateCalls := st1.healthUpdateCalls + 1 }

/-- Game.handleMeleeSweep: every enemy within melee range 60 whose unwrapped
angle lies in the swept interval and that was not already hit this swing
takes a shield-then-health hit with shield decrement 2; hit enemies are
recorded in the per-swing hit set (keyed here by enemy id; the source keys
by object reference and ids are unique). -/
def meleeSweepLoop (start current : ℝ) :
    List Enemy → GameState → List Enemy × GameState
  | [], st => ([], st)
  | e :: rest, st =>
      let res := meleeSweepLoop start current rest st
      let st' := res.2
      if e.id ∈ st'.meleeHitThisSwing then (e :: res.1, st')
      else if 60 < st'.player.position.distanceTo e.position then (e :: res.1, st')
      else
        let d := unwrapAngle
          (atan2 (e.position.y - st'.player.position.y)
                 (e.position.x - st'.player.position.x)) start
        if min start current ≤ d ∧ d ≤ max start current then
          match shieldThenKill 2 e with
          | .survive e2 =>
              (e2 :: res.1,
                { st' with particles := st'.particles + 8,
                           meleeHitThisSwing := e.id :: st'.meleeHitThisSwing })
          | .die pos drop =>
              (res.1,
                { st' with
                  particles := st'.particles + 8,
                  weaponPickups := st'.weaponPickups ++
                    (match drop with
                     | some ty => [WeaponPickup.make pos.x pos.y ty]
                     | none => []),
                  score := st'.score + 1,
                  enemiesKilledThisWave := st'.enemiesKilledThisWave + 1,
                  scoreUpdateCalls := st'.scoreUpdateCalls + 1,
                  meleeHitThisSwing := e.id :: st'.meleeHitThisSwing })
        else (e :: res.1, st')

/-- Game.handleMeleeSweep wrapper. -/
def handleMeleeSweep (start current : ℝ) (st : GameState) : GameState :=
  let res := meleeSweepLoop start current st.enemies st
  { res.2 with enemies := res.1 }

/-- The katana-swing advance step of Game.update: accumulate the scaled
elapsed time, re-test the sweep from the swing start to the current angle,
and close the swing (clearing the hit set) once the animation completes. -/
def meleeSwingUpdate (scaledDelta : ℝ) (st : GameState) : GameState :=
  if st.meleeSwingActive then
    let elapsed := st.meleeSwingElapsed + scaledDelta
    let t := min 1 (elapsed / st.meleeSwingDuration)
    let current := st.meleeSwingStart + (st.meleeSwingEnd - st.meleeSwingStart) * t
    let st2 := handleMeleeSweep st.meleeSwingStart current
      { st with meleeSwingElapsed := elapsed }
    if 1 ≤ t then { st2 with meleeSwingActive := false, meleeHitThisSwing := [] }
    else st2
  else st

/-- Game.handlePunchAttack: scanning from the end of the enemy list, the
first enemy within punch range 40 takes a shield-then-health hit with shield
decrement 1, and the scan stops (only one enemy per punch). -/
def punchLoop : List Enemy → GameState → List Enemy × GameState × Bool
  | [], st => ([], st, false)
  | e :: rest, st =>
      let res := punchLoop rest st
      match res with
      | (rest', st', true) => (e :: rest', st', true)
      | (rest', st', false) =>
          if st'.player.position.distanceTo e.position ≤ 40 then
            match shieldThenKill 1 e with
            | .survive e2 =>
                (e2 :: rest', { st' with particles := st'.particles + 6 }, true)
            | .die pos drop =>
                (rest',
                  { st' with
                    particles := st'.particles + 6,
                    weaponPickups := st'.weaponPickups ++
                      (match drop with
                       | some ty => [WeaponPickup.make pos.x pos.y ty]
                       | none => []),
                    score := st'.score + 1,
                    enemiesKilledThisWave := st'.enemiesKilledThisWave + 1,
                    scoreUpdateCalls := st'.scoreUpdateCalls + 1 }, true)
          else (e :: rest', st', false)

/-- Game.handlePunchAttack wrapper (the direction argument of the source is
never read by the function body). -/
def handlePunchAttack (st : GameState) (_direction : Vec2) : GameState :=
  let res := punchLoop st.enemies st
  { res.2.1 with enemies := res.1 }

/-- Game.startKatanaSwing. -/
def startKatanaSwing (st : GameState) (centerDirection span : ℝ) : GameState :=
  { st with meleeSwingStart := centerDirection - span / 2,
            meleeSwingEnd := centerDirection + span / 2,
            meleeSwingElapsed := 0,
            meleeSwingActive := true,
            meleeHitThisSwing := [] }

/-- BFS search node: a grid position plus the parent link used to backtrack
to the first step, exactly the node records Game.findNextStep enqueues. -/
inductive BNode where
  | mk (pos : ℤ × ℤ) (parent : Option BNode)

/-- Position of a BFS node. -/
def BNode.pos : BNode → ℤ × ℤ
  | .mk p _ => p

/-- Parent of a BFS node. -/
def BNode.parent : BNode → Option BNode
  | .mk _ par => par

/-- The backtracking loop of Game.findNextStep: walk parent links until the
parent is the start node, returning the first step on the found path. -/
def backtrackStep (start : ℤ × ℤ) : BNode → ℤ × ℤ
  | .mk p none => p
  | .mk p (some par) => if par.pos = start then p else backtrackStep start par

/-- The four BFS neighbour directions, in source order. -/
def bfsDirs : List (ℤ × ℤ) := [(0, 1), (0, -1), (1, 0), (-1, 0)]

/-- Walkability test of the BFS and of findNearbyEmptyTile: the tile type is
empty or door. -/
def isOpenTile (m : TileMapData) (p : ℤ × ℤ) : Bool :=
  m.get p.1 p.2 = .empty || m.get p.1 p.2 = .door

/-- In-bounds test of the BFS neighbour loop. -/
def bfsInBounds (m : TileMapData) (p : ℤ × ℤ) : Bool :=
  decide (0 ≤ p.1) && decide (0 ≤ p.2) &&
    decide (p.1 < (m.cols : ℤ)) && decide (p.2 < (m.rows : ℤ))

/-- The in-bounds grid cells as a finite set (used only to measure BFS
termination). -/
def bfsBounds (m : TileMapData) : Finset (ℤ × ℤ) :=
  Finset.Icc 0 ((m.cols : ℤ) - 1) ×ˢ Finset.Icc 0 ((m.rows : ℤ) - 1)

/-- Neighbour expansion of one dequeued BFS node: unvisited, in-bounds, open
neighbours are appended to the queue and marked visited immediately, in
source direction order.  The visited set of the source is a Set of string
keys; it is embedded as the list of visited positions. -/
def bfsExpand (m : TileMapData) (cur : BNode) :
    List (ℤ × ℤ) → List BNode → List (ℤ × ℤ) → List BNode × List (ℤ × ℤ)
  | [], q, v => (q, v)
  | d :: ds, q, v =>
      let n := (cur.pos.1 + d.1, cur.pos.2 + d.2)
      if bfsInBounds m n = true ∧ n ∉ v ∧ isOpenTile m n = true then
        bfsExpand m cur ds (q ++ [BNode.mk n (some cur)]) (n :: v)
      else bfsExpand m cur ds q v

/-- The BFS main loop of Game.findNextStep: dequeue, test for the target,
expand neighbours. -/
def bfsLoop (m : TileMapData) (target : ℤ × ℤ) :
    List BNode → List (ℤ × ℤ) → Option BNode
  | [], _ => none
  | cur :: rest, visited =>
      if cur.pos = target then some cur
      else
        let qv := bfsExpand m cur bfsDirs rest visited
        bfsLoop m target qv.1 qv.2
termination_by q v =>
  (((bfsBounds m).card + 1) - (v.toFinset ∩ bfsBounds m).card, q.length)
decreasing_by
  have spec : ∀ (ds : List (ℤ × ℤ)) (q : List BNode) (v : List (ℤ × ℤ)),
      (∀ x ∈ v, x ∈ (bfsExpand m cur ds q v).2) ∧
      ((bfsExpand m cur ds q v).2 = v ∨
        ((v.toFinset ∩ bfsBounds m).card <
          (((bfsExpand m cur ds q v).2.toFinset ∩ bfsBounds m)).card)) ∧
      ((bfsExpand m cur ds q v).2 = v → (bfsExpand m cur ds q v).1 = q) := by
    intro ds
    induction ds with
    | nil => intro q v; exact ⟨fun x hx => hx, Or.inl rfl, fun _ => rfl⟩
    | cons d ds ih =>
        intro q v
        by_cases hc : bfsInBounds m (cur.pos.1 + d.1, cur.pos.2 + d.2) = true ∧
            (cur.pos.1 + d.1, cur.pos.2 + d.2) ∉ v ∧
            isOpenTile m (cur.pos.1 + d.1, cur.pos.2 + d.2) = true
        · have hexp : bfsExpand m cur (d :: ds) q v =
              bfsExpand m cur ds (q ++ [BNode.mk (cur.pos.1 + d.1, cur.pos.2 + d.2) (some cur)])
                ((cur.pos.1 + d.1, cur.pos.2 + d.2) :: v) := by
            simp only [bfsExpand, if_pos hc]
          obtain ⟨ihmem, ihcard, _⟩ :=
            ih (q ++ [BNode.mk (cur.pos.1 + d.1, cur.pos.2 + d.2) (some cur)])
              ((cur.pos.1 + d.1, cur.pos.2 + d.2) :: v)
          rw [hexp]
          have hn : (cur.pos.1 + d.1, cur.pos.2 + d.2) ∈ bfsBounds m := by
            obtain ⟨hb, _, _⟩ := hc
            simp only [bfsInBounds, Bool.and_eq_true, decide_eq_true_eq] at hb
            simp only [bfsBounds, Finset.mem_product, Finset.mem_Icc]
            omega
          have hmono : (v.toFinset ∩ bfsBounds m).card <
              ((((cur.pos.1 + d.1, cur.pos.2 + d.2) :: v).toFinset ∩ bfsBounds m)).card := by
            apply Finset.card_lt_card
            constructor
            · intro x hx
              simp only [Finset.mem_inter, List.mem_toFinset] at hx ⊢
              exact ⟨List.mem_cons_of_mem _ hx.1, hx.2⟩
            · intro hsub
              have := hsub (by
                simp only [Finset.mem_inter, List.mem_toFinset]
                exact ⟨List.mem_cons_self _ _, hn⟩)
              simp only [Finset.mem_inter, List.mem_toFinset] at this
              exact hc.2.1 this.1
          refine ⟨?_, ?_, ?_⟩
          · intro x hx; exact ihmem x (List.mem_cons_of_mem _ hx)
          · rcases ihcard with h | h
            · rw [h]; exact Or.inr hmono
            · exact Or.inr (lt_trans hmono h)
          · intro hveq
            exfalso
            have hin := ihmem (cur.pos.1 + d.1, cur.pos.2 + d.2) (List.mem_cons_self _ _)
            rw [hveq] at hin
            exact hc.2.1 hin
        · have hexp : bfsExpand m cur (d :: ds) q v = bfsExpand m cur ds q v := by
            simp only [bfsExpand, if_neg hc]
          rw [hexp]; exact ih q v
  obtain ⟨_, hcard, hq⟩ := spec bfsDirs rest visited
  rcases hcard with h | h
  · have hq2 := hq h
    rw [h, hq2]
    exact Prod.Lex.right _ (by simp [List.length_cons, Nat.lt_succ_self])
  · apply Prod.Lex.left
    have hle : ((bfsExpand m cur bfsDirs rest visited).2.toFinset ∩ bfsBounds m).card ≤
        (bfsBounds m).card :=
      Finset.card_le_card (Finset.inter_subset_right)
    omega

/-- Game.findNextStep: BFS from the start tile toward the target tile over
empty and door tiles, returning the first step of the found path (or null
when the start is the target or no path exists). -/
def findNextStep (m : TileMapData) (fromX fromY toX toY : ℤ) : Option (ℤ × ℤ) :=
  if fromX = toX ∧ fromY = toY then none
  else
    match bfsLoop m (toX, toY) [BNode.mk (fromX, fromY) none] [(fromX, fromY)] with
    | none => none
    | some found => some (backtrackStep (fromX, fromY) found)

/-- Integer range a, a+1, ..., a+n-1. -/
def rangeZ (a : ℤ) (n : ℕ) : List ℤ :=
  (List.range n).map fun (i : ℕ) => a + (i : ℤ)

/-- Inclusive integer range a..b. -/
def rangeZTo (a b : ℤ) : List ℤ :=
  rangeZ a (b + 1 - a).toNat

/-- Stride-2 integer range a, a+2, ... strictly below b. -/
def range2 (a b : ℤ) : List ℤ :=
  (List.range ((b - a + 1) / 2).toNat).map fun (i : ℕ) => a + 2 * (i : ℤ)

namespace TileMapData

/-- TileMap.createMainHallways: two horizontal 3-tile bands at rows/3 and
2rows/3, and max(3, cols/18) vertical 3-tile bands, all carved to empty. -/
def createMainHallways (m : TileMapData) : TileMapData :=
  let horizontalYs : List ℤ := [((m.rows / 3 : ℕ) : ℤ), ((m.rows * 2 / 3 : ℕ) : ℤ)]
  let m1 := horizontalYs.foldl
    (fun mm hallY =>
      (rangeZ 2 (mm.cols - 4)).foldl
        (fun mm2 x =>
          ([-1, 0, 1] : List ℤ).foldl (fun mm3 dy => mm3.set x (hallY + dy) .empty) mm2)
        mm)
    m
  let numV := max 3 (m.cols / 18)
  (List.range numV).foldl
    (fun mm i =>
      let hallX : ℤ := 2 + (((i + 1) * (mm.cols - 4) / (numV + 1) : ℕ) : ℤ)
      (rangeZ 2 (mm.rows - 4)).foldl
        (fun mm2 y =>
          ([-1, 0, 1] : List ℤ).foldl (fun mm3 dx => mm3.set (hallX + dx) y .empty) mm2)
        mm)
    m1

/-- Room type rotation of TileMap.createRoomsWithHallways. -/
def roomTypesList : List RoomType :=
  [.medbay, .animalTesting, .research, .storage, .security, .command]

/-- The room-overlap rejection test (3-tile buffer on both axes). -/
def roomOverlaps (placed : List Room) (x y w h : ℤ) : Bool :=
  placed.any fun ex =>
    decide (x < ex.x + ex.w + 3) && decide (ex.x < x + w + 3) &&
      decide (y < ex.y + ex.h + 3) && decide (ex.y < y + h + 3)

/-- Math.abs on rationals. -/
def qabs (q : ℚ) : ℚ := if q < 0 then -q else q

/-- The hallway-proximity rejection test: the room centre row must be more
than 4 rows away from both horizontal hallway bands. -/
def roomClearOfHallways (rows : ℕ) (y h : ℤ) : Prop :=
  4 < qabs ((y : ℚ) + (h : ℚ) / 2 - ((rows / 3 : ℕ) : ℚ)) ∧
    4 < qabs ((y : ℚ) + (h : ℚ) / 2 - ((rows * 2 / 3 : ℕ) : ℚ))

instance roomClearOfHallwaysDec (rows : ℕ) (y h : ℤ) :
    Decidable (roomClearOfHallways rows y h) := by
  unfold roomClearOfHallways
  infer_instance

/-- One placement attempt of TileMap.createRoomsWithHallways, given the
already-materialised random draws (w, h, x, y).  The roomTypeIndex of the
source always equals the number of placed rooms.  After 14 rooms the source
breaks out of the attempt loop; later attempts leave the state unchanged. -/
def tryPlaceRoom (m : TileMapData) (att : ℤ × ℤ × ℤ × ℤ) : TileMapData :=
  if 14 ≤ m.rooms.length then m
  else
    let w := att.1
    let h := att.2.1
    let x := att.2.2.1
    let y := att.2.2.2
    if roomOverlaps m.rooms x y w h = false ∧ roomClearOfHallways m.rows y h then
      let room : Room :=
        { x := x, y := y, w := w, h := h,
          type := roomTypesList.getD (m.rooms.length % roomTypesList.length) .generic,
          doors := [] }
      let m2 := (rangeZ y h.toNat).foldl
        (fun mm ry =>
          (rangeZ x w.toNat).foldl (fun mm2 rx => mm2.set rx ry .empty) mm)
        m
      { m2 with rooms := m2.rooms ++ [room] }
    else m

/-- TileMap.createRoomsWithHallways over a list of attempt draws (the source
makes 80 attempts with Math.random sizes and positions). -/
def createRoomsWithHallways (m : TileMapData) (attempts : List (ℤ × ℤ × ℤ × ℤ)) :
    TileMapData :=
  attempts.foldl tryPlaceRoom m

/-- TileMap addWideDoor helper: a 3-tile opening perpendicular to the side. -/
def addWideDoor (m : TileMapData) (sx sy : ℤ) (dir : DoorDir) : TileMapData :=
  match dir with
  | .horizontal => ((m.set sx (sy - 1) .door).set sx sy .door).set sx (sy + 1) .door
  | .vertical => ((m.set (sx - 1) sy .door).set sx sy .door).set (sx + 1) sy .door

/-- TileMap.carveCorridor: an L-shaped corridor of half-width 2 carved to
empty, horizontal leg at y1 then vertical leg at x2. -/
def carveCorridor (m : TileMapData) (x1 y1 x2 y2 : ℤ) : TileMapData :=
  let m1 := (rangeZTo (min x1 x2) (max x1 x2)).foldl
    (fun mm x =>
      (rangeZTo (-2) 2).foldl (fun mm2 k => mm2.set x (y1 + k) .empty) mm)
    m
  (rangeZTo (min y1 y2) (max y1 y2)).foldl
    (fun mm y =>
      (rangeZTo (-2) 2).foldl (fun mm2 k => mm2.set (x2 + k) y .empty) mm)
    m1

/-- The door-side candidates of TileMap.createDoorToHallway: mid-side points
just outside the room boundary, with the outward ray direction. -/
def doorSides (r : Room) : List ((ℤ × ℤ) × DoorDir × (ℤ × ℤ)) :=
  [((r.x - 1, r.y + r.h / 2), .horizontal, (-1, 0)),
   ((r.x + r.w, r.y + r.h / 2), .horizontal, (1, 0)),
   ((r.x + r.w / 2, r.y - 1), .vertical, (0, -1)),
   ((r.x + r.w / 2, r.y + r.h), .vertical, (0, 1))]

/-- The outward raycast of the second door pass: march from the side point in
the step direction, inside the 1-tile border, for at most max(cols, rows)
steps, looking for an already-open (empty) tile. -/
def raycastToEmpty (m : TileMapData) (stepx stepy : ℤ) :
    ℕ → ℤ → ℤ → Option (ℤ × ℤ)
  | 0, _, _ => none
  | fuel + 1, cx, cy =>
      if 1 ≤ cx ∧ 1 ≤ cy ∧ cx < (m.cols : ℤ) - 1 ∧ cy < (m.rows : ℤ) - 1 then
        if m.get cx cy = .empty then some (cx, cy)
        else raycastToEmpty m stepx stepy fuel (cx + stepx) (cy + stepy)
      else none

/-- TileMap.createDoorToHallway: first place wide doors on sides already
adjacent to an open tile (stopping at 4 doors), then carve corridors to the
nearest open tile for the remaining sides. -/
def createDoorToHallway (m : TileMapData) (room : Room) : TileMapData × Room :=
  let firstPass := (doorSides room).foldl
    (fun (acc : TileMapData × List Door × ℕ) side =>
      if 4 ≤ acc.2.2 then acc
      else if acc.1.get side.1.1 side.1.2 = .empty then
        (addWideDoor acc.1 side.1.1 side.1.2 side.2.1,
          acc.2.1 ++ [⟨side.1.1, side.1.2, side.2.1⟩], acc.2.2 + 1)
      else acc)
    (m, [], 0)
  let secondPass := (doorSides room).foldl
    (fun (acc : TileMapData × List Door × ℕ) side =>
      if 4 ≤ acc.2.2 then acc
      else
        match raycastToEmpty acc.1 side.2.2.1 side.2.2.2
            (max acc.1.cols acc.1.rows) side.1.1 side.1.2 with
        | some found =>
            let mc := carveCorridor acc.1 side.1.1 side.1.2 found.1 found.2
            (addWideDoor mc side.1.1 side.1.2 side.2.1,
              acc.2.1 ++ [⟨side.1.1, side.1.2, side.2.1⟩], acc.2.2 + 1)
        | none => acc)
    firstPass
  (secondPass.1, { room with doors := secondPass.2.1 })

/-- TileMap.connectRoomsToHallways: door-carve every room in order,
collecting the updated door lists. -/
def connectRoomsToHallways (m : TileMapData) : TileMapData :=
  let res := m.rooms.foldl
    (fun (acc : TileMapData × List Room) r =>
      let dr := createDoorToHallway acc.1 r
      (dr.1, acc.2 ++ [dr.2]))
    (m, [])
  { res.1 with rooms := res.2 }

/-- The neighbour offsets of the spawn-tile fallback search, in source
order. -/
def spawnOffsets : List (ℤ × ℤ) :=
  [(0, 1), (0, -1), (1, 0), (-1, 0), (1, 1), (1, -1), (-1, 1), (-1, -1)]

/-- TileMap.createSpawnTiles: mark the room-centre tile (or, if the centre is
not empty, the first empty tile among eight neighbours) as a spawn tile. -/
def createSpawnTiles (m : TileMapData) : TileMapData :=
  m.rooms.foldl
    (fun mm r =>
      let tx := r.x + r.w / 2
      let ty := r.y + r.h / 2
      if mm.get tx ty = .empty then mm.set tx ty .spawn
      else
        match spawnOffsets.find? fun d => mm.get (tx + d.1) (ty + d.2) = .empty with
        | some d => mm.set (tx + d.1) (ty + d.2) .spawn
        | none => mm)
    m

/-- TileMap.createBreakableObject. -/
def createBreakableObject (m : TileMapData) (x y w h : ℝ) (t : ObjType)
    (health : ℤ) : TileMapData :=
  { m with
    breakableObjects := m.breakableObjects ++
      [{ id := m.nextObjectId, x := x, y := y, width := w, height := h,
         type := t, health := health, maxHealth := health }],
    nextObjectId := m.nextObjectId + 1 }

/-- TileMap.createMedbayEquipment. -/
def createMedbayEquipment (m : TileMapData) (r : Room) : TileMapData :=
  if r.w < 5 ∨ r.h < 4 then m
  else
    let numBeds := min 2 ((r.w - 2) / 3)
    let m1 := (rangeZ 0 numBeds.toNat).foldl
      (fun mm i =>
        createBreakableObject mm (((r.x + 1 + i * 3) : ℤ) * 40) (((r.y + 1) : ℤ) * 40)
          80 40 .medicalBed 2)
      m
    if 6 ≤ r.w ∧ 5 ≤ r.h then
      createBreakableObject m1 (((r.x + r.w - 2) : ℤ) * 40) (((r.y + 1) : ℤ) * 40)
        40 80 .equipment 3
    else m1

/-- TileMap.createAnimalTestingEquipment. -/
def createAnimalTestingEquipment (m : TileMapData) (r : Room) : TileMapData :=
  if r.w < 4 ∨ r.h < 3 then m
  else
    let numCages := min 3 ((r.w - 2) / 2)
    let m1 := (rangeZ 0 numCages.toNat).foldl
      (fun mm i =>
        createBreakableObject mm (((r.x + 1 + i * 2) : ℤ) * 40) (((r.y + 1) : ℤ) * 40)
          40 40 .cage 2)
      m
    if 6 ≤ r.w ∧ 4 ≤ r.h then
      createBreakableObject m1 (((r.x + r.w / 2) : ℤ) * 40 - 20)
        (((r.y + r.h / 2) : ℤ) * 40) 80 40 .table 2
    else m1

/-- TileMap.createResearchEquipment. -/
def createResearchEquipment (m : TileMapData) (r : Room) : TileMapData :=
  if r.w < 4 ∨ r.h < 3 then m
  else
    let numComputers := min 2 ((r.w - 2) / 3)
    let m1 := (rangeZ 0 numComputers.toNat).foldl
      (fun mm i =>
        createBreakableObject mm (((r.x + 1 + i * 3) : ℤ) * 40)
          (((r.y + r.h - 2) : ℤ) * 40) 80 40 .computer 2)
      m
    if 5 ≤ r.w ∧ 5 ≤ r.h then
      createBreakableObject m1 (((r.x + r.w / 2) : ℤ) * 40) (((r.y + 1) : ℤ) * 40)
        40 80 .equipment 3
    else m1

/-- TileMap.createStorageEquipment: a capped stride-2 grid of boxes scanned
column by column (the cap check of both source loop conditions makes the
created boxes exactly the first maxBoxes positions in that order). -/
def createStorageEquipment (m : TileMapData) (r : Room) : TileMapData :=
  if r.w < 4 ∨ r.h < 3 then m
  else
    let maxBoxes := min 6 (((r.w - 2) * (r.h - 2)) / 4)
    let positions :=
      (range2 (r.x + 1) (r.x + r.w - 1)).flatMap fun x =>
        (range2 (r.y + 1) (r.y + r.h - 1)).map fun y => (x, y)
    (positions.take maxBoxes.toNat).foldl
      (fun mm p =>
        createBreakableObject mm ((p.1 : ℝ) * 40 + 2) ((p.2 : ℝ) * 40 + 2)
          36 36 .storageBox 1)
      m

/-- TileMap.createSecurityEquipment. -/
def createSecurityEquipment (m : TileMapData) (r : Room) : TileMapData :=
  let m1 := createBreakableObject m (((r.x + 1) : ℤ) * 40) (((r.y + 1) : ℤ) * 40)
    120 80 .monitor 3
  createBreakableObject m1 (((r.x + r.w - 3) : ℤ) * 40) (((r.y + r.h / 2) : ℤ) * 40)
    80 40 .table 2

/-- TileMap.createCommandEquipment. -/
def createCommandEquipment (m : TileMapData) (r : Room) : TileMapData :=
  createBreakableObject m (((r.x + r.w / 2 - 1) : ℤ) * 40)
    (((r.y + r.h / 2 - 1) : ℤ) * 40) 120 80 .console 4

/-- TileMap.createAllRoomEquipment: reset the object list then populate each
room by type.  Equipment creation writes only breakableObjects and
nextObjectId; it never touches tiles or rooms. -/
def createAllRoomEquipment (m : TileMapData) : TileMapData :=
  let m0 := { m with breakableObjects := [], nextObjectId := 1 }
  m.rooms.foldl
    (fun mm r =>
      match r.type with
      | .medbay => createMedbayEquipment mm r
      | .animalTesting => createAnimalTestingEquipment mm r
      | .research => createResearchEquipment mm r
      | .storage => createStorageEquipment mm r
      | .security => createSecurityEquipment mm r
      | .command => createCommandEquipment mm r
      | .generic => mm)
    m0

/-- TileMap.generateLabRooms: fill with wall, carve hallways, place rooms,
connect them with doors, mark spawn tiles, create equipment. -/
def generateLabRooms (m : TileMapData) (attempts : List (ℤ × ℤ × ℤ × ℤ)) :
    TileMapData :=
  let m1 := { m with
    tiles := List.replicate m.rows (List.replicate m.cols TileType.wall),
    rooms := [] }
  createAllRoomEquipment
    (createSpawnTiles
      (connectRoomsToHallways
        (createRoomsWithHallways (createMainHallways m1) attempts)))

/-- The TileMap constructor: grid dimensions from the pixel size (at least
8 x 6 tiles), then generateLabRooms.  The Game always passes integer pixel
sizes, for which Math.floor(width / 40) is integer division. -/
def create (width height : ℤ) (attempts : List (ℤ × ℤ × ℤ × ℤ)) : TileMapData :=
  let cols := max 8 (width / 40).toNat
  let rows := max 6 (height / 40).toNat
  generateLabRooms
    { cols := cols, rows := rows,
      tiles := List.replicate rows (List.replicate cols TileType.empty),
      rooms := [], breakableObjects := [], nextObjectId := 1 }
    attempts

end TileMapData

/-- A placement attempt (w, h, x, y) that the Math.random() draws of
createRoomsWithHallways can produce on a grid where cols - w - 8 and
rows - h - 8 are positive, which holds for every facility the game creates
(world sizes of at least 1600 x 1200 pixels give at least 40 x 30 tiles). -/
def roomCandidateOk (cols rows : ℕ) (att : ℤ × ℤ × ℤ × ℤ) : Prop :=
  6 ≤ att.1 ∧ att.1 ≤ 10 ∧ 6 ≤ att.2.1 ∧ att.2.1 ≤ 10 ∧
    4 ≤ att.2.2.1 ∧ att.2.2.1 ≤ (cols : ℤ) - att.1 - 5 ∧
    4 ≤ att.2.2.2 ∧ att.2.2.2 ≤ (rows : ℤ) - att.2.1 - 5

instance roomCandidateOkDec (cols rows : ℕ) (att : ℤ × ℤ × ℤ × ℤ) :
    Decidable (roomCandidateOk cols rows att) := by
  unfold roomCandidateOk
  infer_instance

/-- A tile strictly inside a room rectangle (not on the rectangle's own
boundary ring). -/
def strictlyInsideRoom (r : Room) (tx ty : ℤ) : Prop :=
  r.x < tx ∧ tx < r.x + r.w - 1 ∧ r.y < ty ∧ ty < r.y + r.h - 1

instance strictlyInsideRoomDec (r : Room) (tx ty : ℤ) :
    Decidable (strictlyInsideRoom r tx ty) := by
  unfold strictlyInsideRoom
  infer_instance

/-- A tile inside a room rectangle, boundary ring included. -/
def inRoomRect (r : Room) (tx ty : ℤ) : Prop :=
  r.x ≤ tx ∧ tx ≤ r.x + r.w - 1 ∧ r.y ≤ ty ∧ ty ≤ r.y + r.h - 1

/-- Two room rectangles separated by the 3-tile buffer the overlap test of
createRoomsWithHallways enforces on at least one axis. -/
def roomsSeparated (a b : Room) : Prop :=
  a.x + a.w + 3 ≤ b.x ∨ b.x + b.w + 3 ≤ a.x ∨
    a.y + a.h + 3 ≤ b.y ∨ b.y + b.h + 3 ≤ a.y

/-- The geometry every placed room inherits from the Math.random() draw
ranges: size 6..10 and position at least 4 tiles inside the border on every
side. -/
def roomGeomOK (cols rows : ℕ) (r : Room) : Prop :=
  6 ≤ r.w ∧ r.w ≤ 10 ∧ 6 ≤ r.h ∧ r.h ≤ 10 ∧
    4 ≤ r.x ∧ r.x + r.w ≤ (cols : ℤ) - 5 ∧
    4 ≤ r.y ∧ r.y + r.h ≤ (rows : ℤ) - 5

/-- The invariant of the room-placement loop: a well-formed grid whose
placed rooms all have the drawn geometry, are pairwise separated by the
3-tile buffer, and whose full rectangles are carved to empty. -/
def RoomsInv (m : TileMapData) : Prop :=
  TileMapData.Wf m ∧
    (∀ r ∈ m.rooms, roomGeomOK m.cols m.rows r) ∧
    List.Pairwise roomsSeparated m.rooms ∧
    (∀ r ∈ m.rooms, ∀ tx ty, inRoomRect r tx ty → m.get tx ty = .empty)

/-- A facility-map transformer that only writes empty tiles: it preserves
the grid dimensions, the room list and well-formedness, and every tile
either keeps its value or becomes empty. -/
def CarveStep (g : TileMapData → TileMapData) : Prop :=
  ∀ mm, (g mm).cols = mm.cols ∧ (g mm).rows = mm.rows ∧
    (g mm).rooms = mm.rooms ∧ (mm.Wf → (g mm).Wf) ∧
    ∀ a b, (g mm).get a b = mm.get a b ∨ (g mm).get a b = TileType.empty

/-- The twelve tile positions the two door passes of createDoorToHallway
can write for a given room: three per side, one tile outside the room
rectangle. -/
def doorTiles (r : Room) : List (ℤ × ℤ) :=
  [(r.x - 1, r.y + r.h / 2 - 1), (r.x - 1, r.y + r.h / 2),
   (r.x - 1, r.y + r.h / 2 + 1),
   (r.x + r.w, r.y + r.h / 2 - 1), (r.x + r.w, r.y + r.h / 2),
   (r.x + r.w, r.y + r.h / 2 + 1),
   (r.x + r.w / 2 - 1, r.y - 1), (r.x + r.w / 2, r.y - 1),
   (r.x + r.w / 2 + 1, r.y - 1),
   (r.x + r.w / 2 - 1, r.y + r.h), (r.x + r.w / 2, r.y + r.h),
   (r.x + r.w / 2 + 1, r.y + r.h)]

/-- Math.sign. -/
def jsSign (x : ℝ) : ℝ := if 0 < x then 1 else if x < 0 then -1 else 0

/-- The breakable-object push-out step of TileMap.collideCircle: if the
circle overlaps the rectangle, push the centre out along the closest-point
direction to the circle radius. -/
def pushOutOfObject (radius : ℝ) (n : Vec2) (obj : BreakableObject) : Vec2 :=
  let closestX := max obj.x (min n.x (obj.x + obj.width))
  let closestY := max obj.y (min n.y (obj.y + obj.height))
  let distance := Real.sqrt ((n.x - closestX) ^ 2 + (n.y - closestY) ^ 2)
  if distance < radius then
    let pushX := n.x - closestX
    let pushY := n.y - closestY
    let pushLen := Real.sqrt (pushX ^ 2 + pushY ^ 2)
    if 0 < pushLen then
      ⟨closestX + pushX / pushLen * radius, closestY + pushY / pushLen * radius⟩
    else n
  else n

/-- TileMap.collideCircle: push out of breakable objects, then resolve the X
and Y axes independently against wall and glass tiles, clamping to the tile
boundary minus the radius (door and empty tiles never block). -/
def collideCircle (m : TileMapData) (fromPos toPos : Vec2) (radius : ℝ) : Vec2 :=
  let n0 := m.breakableObjects.foldl (pushOutOfObject radius) toPos
  let sx := jsSign (n0.x - fromPos.x)
  let n1x :=
    if sx ≠ 0 then
      let checkX := n0.x + sx * radius
      let t := m.get ⌊checkX / 40⌋ ⌊fromPos.y / 40⌋
      if t = .wall ∨ t = .glass then
        (⌊checkX / 40⌋ : ℝ) * 40 - sx * radius - (if 0 < sx then 0 else (-40 : ℝ))
      else n0.x
    else n0.x
  let sy := jsSign (n0.y - fromPos.y)
  let n2y :=
    if sy ≠ 0 then
      let checkY := n0.y + sy * radius
      let t := m.get ⌊n1x / 40⌋ ⌊checkY / 40⌋
      if t = .wall ∨ t = .glass then
        (⌊checkY / 40⌋ : ℝ) * 40 - sy * radius - (if 0 < sy then 0 else (-40 : ℝ))
      else n0.y
    else n0.y
  ⟨n1x, n2y⟩

/-- The line-of-sight test of Game.update: sample the straight segment at
half-tile resolution; any wall or glass tile on a sample blocks sight. -/
def lineOfSight (m : TileMapData) (sx sy ex ey : ℝ) : Prop :=
  let steps : ℤ :=
    max 1 ⌊Real.sqrt ((ex - sx) ^ 2 + (ey - sy) ^ 2) / ((40 : ℝ) / 2)⌋
  ∀ i ∈ Finset.Icc (0 : ℤ) steps,
    let x := sx + (ex - sx) * ((i : ℝ) / (steps : ℝ))
    let y := sy + (ey - sy) * ((i : ℝ) / (steps : ℝ))
    m.get ⌊x / 40⌋ ⌊y / 40⌋ ≠ .wall ∧ m.get ⌊x / 40⌋ ⌊y / 40⌋ ≠ .glass

/-- Enemy.update: move toward the given target position (the Game passes the
navigation move target as playerPosition), firing while the target is inside
weapon range but farther than 50, and handing the weapon out as a thrown
weapon when it can no longer fire.  rSpread i and rCooldown are the
Math.random() draws. -/
def Enemy.update (e : Enemy) (deltaTime : ℝ) (playerPosition : Vec2)
    (collider : Vec2 → Vec2 → ℝ → Vec2) (rSpread : ℕ → ℝ) (rCooldown : ℝ) :
    Enemy × List Bullet × Option Weapon :=
  let direction := (playerPosition.subtract e.position).normalize
  let distanceToPlayer := e.position.distanceTo playerPosition
  let shot : Enemy × List Bullet × Option Weapon :=
    match e.weapon with
    | some w =>
        if distanceToPlayer < w.range ∧ 50 < distanceToPlayer then
          let cd := e.shootCooldown - deltaTime
          if cd ≤ 0 ∧ w.canFire then
            let base := atan2 direction.y direction.x
            let bulletStart := e.position.add (direction.multiply 15)
            let bullets := (List.range w.bulletsPerShot).map fun i =>
              let spread := (rSpread i - 0.5) * w.spread * (Real.pi / 180)
              Bullet.mk bulletStart
                (Vec2.multiply ⟨Real.cos (base + spread), Real.sin (base + spread)⟩ 300)
                true none (some e.id)
            let w2 := (w.fire).1
            let e2 := { e with weapon := some w2,
                               shootCooldown := w2.fireRate + rCooldown * 500 }
            if ¬w2.canFire ∧ w2.isThrowable = true then
              ({ e2 with weapon := none }, bullets, some w2)
            else (e2, bullets, none)
          else ({ e with shootCooldown := cd }, [], none)
        else (e, [], none)
    | none => (e, [], none)
  let e1 := shot.1
  let moveSpeed :=
    match e1.weapon with
    | some w => if distanceToPlayer < w.range then e1.speed * 0.3 else e1.speed
    | none => e1.speed
  let target := e1.position.add (direction.multiply (moveSpeed * (deltaTime / 1000)))
  ({ e1 with position := collider e1.position target 12 }, shot.2)

/-- Game.findClosestDoorTile: the door of the room with the least Manhattan
distance from the given tile (strict improvement, first best kept). -/
def findClosestDoorTile (room : Room) (ft : ℤ × ℤ) : Option (ℤ × ℤ) :=
  (room.doors.foldl
    (fun best d =>
      let dist := (d.x - ft.1).natAbs + (d.y - ft.2).natAbs
      match best with
      | none => some ((d.x, d.y), dist)
      | some b => if dist < b.2 then some ((d.x, d.y), dist) else some b)
    none).map (·.1)

/-- The eight neighbour directions of Game.findNearbyEmptyTile, in source
order. -/
def dirs8 : List (ℤ × ℤ) :=
  [(0, 1), (0, -1), (1, 0), (-1, 0), (1, 1), (1, -1), (-1, 1), (-1, -1)]

/-- Game.findNearbyEmptyTile: centre of the first adjacent open tile. -/
def findNearbyEmptyTile (m : TileMapData) (pos : Vec2) : Option Vec2 :=
  let ct := TileMapData.worldToTile pos.x pos.y
  (dirs8.find? fun d => isOpenTile m (ct.1 + d.1, ct.2 + d.2)).map fun d =>
    TileMapData.tileCenter (ct.1 + d.1) (ct.2 + d.2)

/-- The no-line-of-sight navigation of the enemy loop in Game.update: head
for the closest door of the player's room when the rooms differ (falling
back to the room centre), else BFS one step straight toward the player
(falling back to any adjacent open tile, then holding position).  Room
equality of the source is object identity; placed rooms are pairwise
distinct records. -/
def enemyMoveTarget (m : TileMapData) (epos ppos : Vec2) : Vec2 :=
  let playerRoom := m.getRoomContaining ppos.x ppos.y
  let enemyRoom := m.getRoomContaining epos.x epos.y
  let eTile := TileMapData.worldToTile epos.x epos.y
  let sameRoomCase :=
    let pTile := TileMapData.worldToTile ppos.x ppos.y
    match findNextStep m eTile.1 eTile.2 pTile.1 pTile.2 with
    | some ns => TileMapData.tileCenter ns.1 ns.2
    | none => (findNearbyEmptyTile m epos).getD epos
  match playerRoom, enemyRoom with
  | some pr, some er =>
      if pr ≠ er then
        match findClosestDoorTile pr eTile with
        | some dt =>
            match findNextStep m eTile.1 eTile.2 dt.1 dt.2 with
            | some ns => TileMapData.tileCenter ns.1 ns.2
            | none => TileMapData.tileCenter dt.1 dt.2
        | none =>
            let rc := TileMapData.getRoomCenter pr
            let tt := TileMapData.worldToTile rc.x rc.y
            match findNextStep m eTile.1 eTile.2 tt.1 tt.2 with
            | some ns => TileMapData.tileCenter ns.1 ns.2
            | none => epos
      else sameRoomCase
  | _, _ => sameRoomCase

/-- One iteration of the enemy loop of Game.update: compute line of sight,
pick the move target, advance the enemy through the collider, and append the
emitted bullets to the world ONLY when line of sight holds; an emitted
thrown weapon is always appended. -/
def processEnemyStep (scaledDelta : ℝ) (rSpread : ℕ → ℝ) (rCooldown : ℝ)
    (st : GameState) (e : Enemy) : Enemy × GameState :=
  let epos := e.position
  let ppos := st.player.position
  let los := lineOfSight st.map epos.x epos.y ppos.x ppos.y
  let moveTarget := if los then ppos else enemyMoveTarget st.map epos ppos
  let res := e.update scaledDelta moveTarget
    (fun a b r => collideCircle st.map a b r) rSpread rCooldown
  let e2 := res.1
  let st1 :=
    if los then { st with bullets := st.bullets ++ res.2.1 } else st
  match res.2.2 with
  | some w =>
      let direction := (st1.player.position.subtract e2.position).normalize
      let tw : ThrownWeapon :=
        ⟨e2.position.add (direction.multiply 20), direction.multiply 200, w, false⟩
      (e2, { st1 with thrownWeapons := st1.thrownWeapons ++ [tw] })
  | none => (e2, st1)

/-- Adjacency of the 4-directional BFS grid graph. -/
def navAdj (u v : ℤ × ℤ) : Prop :=
  ∃ d ∈ bfsDirs, v = (u.1 + d.1, u.2 + d.2)

/-- One traversable step of the BFS graph: a 4-adjacent, in-bounds tile of
type empty or door (the start tile of a search is never itself tested, as in
the source). -/
def navStep (m : TileMapData) (u v : ℤ × ℤ) : Prop :=
  navAdj u v ∧ bfsInBounds m v = true ∧ isOpenTile m v = true

/-- Paths of exactly n steps in the BFS graph. -/
def ReachN (m : TileMapData) : ℕ → (ℤ × ℤ) → (ℤ × ℤ) → Prop
  | 0, u, v => u = v
  | n + 1, u, v => ∃ w, navStep m u w ∧ ReachN m n w v

/-- Reachability in the BFS graph. -/
def NavReachable (m : TileMapData) (u v : ℤ × ℤ) : Prop :=
  ∃ n, ReachN m n u v

/-- Exact shortest-path distance in the BFS graph. -/
def IsDist (m : TileMapData) (u v : ℤ × ℤ) (k : ℕ) : Prop :=
  ReachN m k u v ∧ ∀ j, ReachN m j u v → k ≤ j

/-- Depth of a BFS node (length of its parent chain). -/
def BNode.depth : BNode → ℕ
  | .mk _ none => 0
  | .mk _ (some par) => par.depth + 1

/-- Well-formedness of a BFS node chain: the root sits at the start tile and
every link is a graph step. -/
def chainOK (m : TileMapData) (start : ℤ × ℤ) : BNode → Prop
  | .mk p none => p = start
  | .mk p (some par) => navStep m par.pos p ∧ chainOK m start par

/-- No node of the chain except the root sits at the start tile. -/
def tailNotStart (start : ℤ × ℤ) : BNode → Prop
  | .mk _ none => True
  | .mk p (some par) => p ≠ start ∧ tailNotStart start par

/-- The BFS loop invariant of Game.findNextStep: the start is visited, every
queued node carries a valid parent chain from the start whose depth is the
exact BFS-graph distance of its position, queued positions are visited,
every visited position is fully expanded or still queued, the queue consists
of one depth level followed by the next, and a visited target is still
queued. -/
def BfsInv (m : TileMapData) (target start : ℤ × ℤ)
    (q : List BNode) (v : List (ℤ × ℤ)) : Prop :=
  start ∈ v ∧
  (∀ nd ∈ q, chainOK m start nd ∧ tailNotStart start nd ∧
    IsDist m start nd.pos nd.depth) ∧
  (∀ nd ∈ q, nd.pos ∈ v) ∧
  (∀ z ∈ v, (∀ w, navStep m z w → w ∈ v) ∨ ∃ nd ∈ q, nd.pos = z) ∧
  (∃ d q1 q2, q = q1 ++ q2 ∧ (∀ nd ∈ q1, nd.depth = d) ∧
    (∀ nd ∈ q2, nd.depth = d + 1)) ∧
  (target ∈ v → ∃ nd ∈ q, nd.pos = target)

/-- The enemy loop of Game.update (forEach, front to back), threading the
per-enemy random draws by enemy index. -/
def enemiesUpdateLoop (scaledDelta : ℝ) (rSpread : ℕ → ℕ → ℝ) (rCooldown : ℕ → ℝ)
    (idx : ℕ) : List Enemy → GameState → List Enemy × GameState
  | [], st => ([], st)
  | e :: rest, st =>
      let step := processEnemyStep scaledDelta (rSpread idx) (rCooldown idx) st e
      let res := enemiesUpdateLoop scaledDelta rSpread rCooldown (idx + 1) rest step.2
      (step.1 :: res.1, res.2)

/-- Enemy-update phase wrapper. -/
def enemiesUpdatePhase (scaledDelta : ℝ) (rSpread : ℕ → ℕ → ℝ)
    (rCooldown : ℕ → ℝ) (st : GameState) : GameState :=
  let res := enemiesUpdateLoop scaledDelta rSpread rCooldown 0 st.enemies st
  { res.2 with enemies := res.1 }

/-- The click-attack block of Game.update: with a usable held weapon a click
either opens a katana swing (no ammo, no durability cost, no shoot call),
throws a shuriken projectile plus a shoot call, or emits bulletsPerShot
spread bullets plus a shoot call; with no weapon it punches.  rndSpread i is
the Math.random() draw for bullet i. -/
def processClickAttack (st : GameState) (mouseX mouseY cameraX cameraY : ℝ)
    (rndSpread : ℕ → ℝ) : GameState :=
  match st.player.weapon with
  | some w =>
      if st.player.canShoot then
        let wm : Vec2 := ⟨mouseX + cameraX, mouseY + cameraY⟩
        let direction := (wm.subtract st.player.position).normalize
        let bulletStart := st.player.position.add (direction.multiply 20)
        if w.type = .katana then
          if st.meleeSwingActive then st
          else
            let attackDir := atan2 direction.y direction.x
            let st1 := startKatanaSwing st attackDir (Real.pi * 0.6)
            { st1 with player := st1.player.melee }
        else if w.type = .shuriken then
          let tw : ThrownWeapon :=
            ⟨st.player.position.add (direction.multiply 25),
              direction.multiply 500, Weapon.make .shuriken, true⟩
          let st1 := { st with thrownWeapons := st.thrownWeapons ++ [tw] }
          { st1 with player := st1.player.shoot,
                     hudUpdateCalls := st1.hudUpdateCalls + 1 }
        else
          let base := atan2 direction.y direction.x
          let newBullets := (List.range w.bulletsPerShot).map fun i =>
            let spread := (rndSpread i - 0.5) * w.spread * (Real.pi / 180)
            Bullet.mk bulletStart
              (Vec2.multiply ⟨Real.cos (base + spread), Real.sin (base + spread)⟩ 500)
              false (some w.type) none
          let st1 := { st with bullets := st.bullets ++ newBullets,
                               bulletsFired := st.bulletsFired + w.bulletsPerShot }
          { st1 with player := st1.player.shoot,
                     hudUpdateCalls := st1.hudUpdateCalls + 1 }
      else st
  | none =>
      if st.player.canPunch then
        let direction := (Vec2.subtract ⟨mouseX, mouseY⟩ st.player.position).normalize
        let st1 := handlePunchAttack st direction
        { st1 with player := st1.player.punch }
      else st

/-- Fixture: an all-empty 8 x 6 facility with no rooms or objects. -/
def emptyMapFixture : TileMapData :=
  { cols := 8, rows := 6,
    tiles := List.replicate 6 (List.replicate 8 TileType.empty),
    rooms := [], breakableObjects := [], nextObjectId := 1 }

/-- Fixture: an 8 x 6 facility with a wall tile at (2,0) and at (0,1). -/
def wallMapFixture : TileMapData :=
  { cols := 8, rows := 6,
    tiles :=
      [[.empty, .empty, .wall, .empty, .empty, .empty, .empty, .empty],
       [.wall, .empty, .empty, .empty, .empty, .empty, .empty, .empty],
       List.replicate 8 .empty, List.replicate 8 .empty,
       List.replicate 8 .empty, List.replicate 8 .empty],
    rooms := [], breakableObjects := [], nextObjectId := 1 }

/-- Fixture: a quiescent game state used to instantiate the theorems. -/
def baseState : GameState :=
  { player := Player.make 100 100,
    enemies := [], bullets := [], weaponPickups := [], thrownWeapons := [],
    shieldPickups := [], healthPickups := [], ammoPickups := [],
    map := emptyMapFixture,
    score := 0, enemySpawnTimer := 0, enemySpawnRate := 1600,
    baseSpawnRate := 2000, weaponSpawnTimer := 0,
    waveNumber := 1, enemiesKilledThisWave := 0, enemiesPerWave := 7,
    meleeSwingActive := false, meleeSwingStart := 0, meleeSwingEnd := 0,
    meleeSwingElapsed := 0, meleeSwingDuration := 200, meleeHitThisSwing := [],
    aimDirection := ⟨1, 0⟩,
    bulletsFired := 0, bulletsHit := 0, friendlyFireKills := 0,
    thrownKills := 0, killsByWeapon := fun _ => 0, particles := 0,
    scoreUpdateCalls := 0, healthUpdateCalls := 0, gameOverCalls := 0,
    waveUpdateCalls := 0, hudUpdateCalls := 0 }

/-- Fixture: zero random draws. -/
def pickupRng0 : PickupRng := ⟨0, 0, 0, 0, 0, 0⟩

/-- Fixture: zero random draws for a wave advance. -/
def nextWaveRng0 : NextWaveRng := ⟨pickupRng0, pickupRng0, pickupRng0, pickupRng0⟩

/-- Fixture: a zero random stream. -/
def rnd0 : ℕ → ℝ := fun _ => 0

/-- Fixture: wave 1 with quota 4 (the state Game.reset establishes) at the
moment the fourth kill of the wave has been booked. -/
def c2StateFixture : GameState :=
  { baseState with waveNumber := 1, enemiesPerWave := 4, enemiesKilledThisWave := 4 }

/-- Fixture: the player holds a fresh katana and is ready to attack. -/
def c6KatanaFixture : GameState :=
  { baseState with player := { baseState.player with weapon := some (Weapon.make .katana) } }

/-- Fixture: a katana-holding player aiming along the travel direction of a
nearby enemy bullet (the block conditions of the source). -/
def c6BlockFixture : GameState :=
  { baseState with
    player := { baseState.player with weapon := some (Weapon.make .katana) },
    aimDirection := ⟨-1, 0⟩ }

/-- Fixture: an enemy bullet 10 pixels to the right of the player. -/
def c6BulletFixture : Bullet :=
  { position := ⟨110, 100⟩, velocity := ⟨-300, 0⟩, isEnemyBullet := true,
    playerWeaponType := none, enemyOwnerId := some 1 }

/-- The hit condition of one handleMeleeSweep iteration, relative to the hit
set in force when the enemy is examined: not yet hit this swing, within
melee range 60, and unwrapped angle inside the swept interval. -/
def sweepHits (ppos : Vec2) (start current : ℝ) (hitSet : List ℤ)
    (x : Enemy) : Prop :=
  x.id ∉ hitSet ∧ ppos.distanceTo x.position ≤ 60 ∧
    (min start current ≤
        unwrapAngle (atan2 (x.position.y - ppos.y) (x.position.x - ppos.x)) start ∧
      unwrapAngle (atan2 (x.position.y - ppos.y) (x.position.x - ppos.x)) start ≤
        max start current)

/-- Fixture: a player bullet sitting exactly on the fixture enemy. -/
def c1BulletFixture : Bullet :=
  { position := ⟨110, 100⟩, velocity := ⟨500, 0⟩, isEnemyBullet := false,
    playerWeaponType := some .pistol, enemyOwnerId := none }

/-- Fixture: a shielded enemy 10 pixels right of the player. -/
def c1ShieldedEnemy : Enemy :=
  { id := 7, position := ⟨110, 100⟩, weapon := some (Weapon.make .rifle),
    shield := 3, maxShield := 3, speed := 100, shootCooldown := 0 }

/-- Fixture: an unshielded armed enemy 10 pixels right of the player. -/
def c1BareEnemy : Enemy :=
  { id := 8, position := ⟨110, 100⟩, weapon := some (Weapon.make .rifle),
    shield := 0, maxShield := 0, speed := 100, shootCooldown := 0 }

/-- Fixture: a thrown rifle sitting exactly on the fixture enemy. -/
def c1ThrownFixture : ThrownWeapon :=
  { position := ⟨110, 100⟩, velocity := ⟨400, 0⟩, weapon := Weapon.make .rifle,
    ownerIsPlayer := true }

/-- Fixture: the 15 x 30 all-wall facility grid of a 600 x 1200 world after
the hallway pass. -/
def c7Hall : TileMapData :=
  TileMapData.createMainHallways
    { cols := 15, rows := 30,
      tiles := List.replicate 30 (List.replicate 15 TileType.wall),
      rooms := [], breakableObjects := [], nextObjectId := 1 }

/-- Fixture: the hallway grid after the single placement attempt
(6, 6, 4, 12) succeeds (the then-branch of tryPlaceRoom spelled out). -/
def c7Placed : TileMapData :=
  let room : Room :=
    { x := 4, y := 12, w := 6, h := 6,
      type := TileMapData.roomTypesList.getD
        (c7Hall.rooms.length % TileMapData.roomTypesList.length) .generic,
      doors := [] }
  let m2 := (rangeZ 12 (6 : ℤ).toNat).foldl
    (fun mm ry =>
      (rangeZ 4 (6 : ℤ).toNat).foldl (fun mm2 rx => mm2.set rx ry .empty) mm)
    c7Hall
  { m2 with rooms := m2.rooms ++ [room] }

/-- Fixture: an armed enemy in the top-left tile of the map. -/
def c5Enemy : Enemy :=
  { id := 5, position := ⟨20, 20⟩, weapon := some (Weapon.make .rifle),
    shield := 0, maxShield := 0, speed := 100, shootCooldown := 0 }

/-- Fixture: the player two tiles below the enemy, with the wall tile (0,1)
of the wall fixture blocking the sight line between them. -/
def c5StateFixture : GameState :=
  { baseState with
    map := wallMapFixture,
    player := { baseState.player with position := ⟨20, 100⟩ },
    enemies := [c5Enemy] }

/-- Fixture: the same placement on the all-empty map, where the sight line
is clear. -/
def c5OpenStateFixture : GameState :=
  { baseState with
    player := { baseState.player with position := ⟨20, 100⟩ },
    enemies := [c5Enemy] }

/-- Fixture: an unarmed, unshielded enemy 10 pixels right of the player. -/
def c9Enemy : Enemy :=
  { id := 9, position := ⟨110, 100⟩, weapon := none,
    shield := 0, maxShield := 0, speed := 100, shootCooldown := 0 }

/-- Fixture: a one-health, unshielded player with a single enemy inside the
20-pixel collision distance. -/
def c9StateFixture : GameState :=
  { baseState with
    player := { baseState.player with health := 1 },
    enemies := [c9Enemy] }

end

/-! ### Theorems -/

/-- Claim C8: for all waves 1 ≤ v ≤ w, the enemies-per-wave quota computed
on wave advance is non-decreasing and capped at 25, and the enemy spawn
interval is non-increasing and floored at 150. -/
theorem c8_wave_scaling_monotone (v w : ℤ) (_h1 : 1 ≤ v) (hvw : v ≤ w) :
    enemiesPerWaveFormula v ≤ enemiesPerWaveFormula w ∧
      enemiesPerWaveFormula w ≤ 25 ∧
      spawnIntervalFormula w ≤ spawnIntervalFormula v ∧
      150 ≤ spawnIntervalFormula w := by
  refine ⟨?_, ?_, ?_, ?_⟩
  · apply min_le_min le_rfl
    have hq : (v : ℚ) * 1.5 ≤ (w : ℚ) * 1.5 := by
      apply mul_le_mul_of_nonneg_right _ (by norm_num)
      exact_mod_cast hvw
    have := Int.floor_le_floor hq
    omega
  · exact min_le_left _ _
  · apply max_le_max le_rfl
    omega
  · exact le_max_left _ _

/-- Witness for C8 at waves 1 and 2. -/
theorem c8_wave_scaling_monotone_witness :
    (1 : ℤ) ≤ 1 ∧ (1 : ℤ) ≤ 2 ∧
      (enemiesPerWaveFormula 1 ≤ enemiesPerWaveFormula 2 ∧
        enemiesPerWaveFormula 2 ≤ 25 ∧
        spawnIntervalFormula 2 ≤ spawnIntervalFormula 1 ∧
        150 ≤ spawnIntervalFormula 2) :=
  ⟨le_rfl, by norm_num, c8_wave_scaling_monotone 1 2 le_rfl (by norm_num)⟩

theorem spawnWeaponPickup_fields (rng : PickupRng) (st : GameState) :
    (spawnWeaponPickup rng st).waveNumber = st.waveNumber ∧
      (spawnWeaponPickup rng st).enemiesKilledThisWave = st.enemiesKilledThisWave ∧
      (spawnWeaponPickup rng st).enemiesPerWave = st.enemiesPerWave ∧
      (spawnWeaponPickup rng st).enemySpawnRate = st.enemySpawnRate ∧
      (spawnWeaponPickup rng st).player = st.player ∧
      (spawnWeaponPickup rng st).weaponPickups.length = st.weaponPickups.length + 1 := by
  refine ⟨rfl, rfl, rfl, rfl, rfl, ?_⟩
  simp [spawnWeaponPickup]

theorem spawnShieldPickup_fields (rng : PickupRng) (st : GameState) :
    (spawnShieldPickup rng st).waveNumber = st.waveNumber ∧
      (spawnShieldPickup rng st).enemiesKilledThisWave = st.enemiesKilledThisWave ∧
      (spawnShieldPickup rng st).enemiesPerWave = st.enemiesPerWave ∧
      (spawnShieldPickup rng st).enemySpawnRate = st.enemySpawnRate ∧
      (spawnShieldPickup rng st).player = st.player ∧
      (spawnShieldPickup rng st).weaponPickups = st.weaponPickups :=
  ⟨rfl, rfl, rfl, rfl, rfl, rfl⟩

theorem spawnAmmoPickup_fields (rng : PickupRng) (st : GameState) :
    (spawnAmmoPickup rng st).waveNumber = st.waveNumber ∧
      (spawnAmmoPickup rng st).enemiesKilledThisWave = st.enemiesKilledThisWave ∧
      (spawnAmmoPickup rng st).enemiesPerWave = st.enemiesPerWave ∧
      (spawnAmmoPickup rng st).enemySpawnRate = st.enemySpawnRate ∧
      (spawnAmmoPickup rng st).player = st.player ∧
      (spawnAmmoPickup rng st).weaponPickups = st.weaponPickups :=
  ⟨rfl, rfl, rfl, rfl, rfl, rfl⟩

theorem spawnHealthPickup_fields (rng : PickupRng) (st : GameState) :
    (spawnHealthPickup rng st).waveNumber = st.waveNumber ∧
      (spawnHealthPickup rng st).enemiesKilledThisWave = st.enemiesKilledThisWave ∧
      (spawnHealthPickup rng st).enemiesPerWave = st.enemiesPerWave ∧
      (spawnHealthPickup rng st).enemySpawnRate = st.enemySpawnRate ∧
      (spawnHealthPickup rng st).player = st.player ∧
      (spawnHealthPickup rng st).weaponPickups = st.weaponPickups :=
  ⟨rfl, rfl, rfl, rfl, rfl, rfl⟩

/-- Claim C2: the moment kills-this-wave reaches the quota, the wave number
increments, the kill counter resets, the new quota and spawn interval follow
the scaling formulas, the player gains exactly one grenade, and exactly one
weapon pickup is guaranteed to spawn.  Instantiated in the witness at wave 1
with quota 4 (the state Game.reset establishes) and the fourth kill booked. -/
theorem c2_wave_advance (rng : NextWaveRng) (st : GameState)
    (hkill : st.enemiesPerWave ≤ st.enemiesKilledThisWave)
    (hbase : st.baseSpawnRate = 2000) :
    (waveCompletionCheck rng st).waveNumber = st.waveNumber + 1 ∧
      (waveCompletionCheck rng st).enemiesKilledThisWave = 0 ∧
      (waveCompletionCheck rng st).enemiesPerWave =
        enemiesPerWaveFormula (st.waveNumber + 1) ∧
      (waveCompletionCheck rng st).enemySpawnRate =
        spawnIntervalFormula (st.waveNumber + 1) ∧
      (waveCompletionCheck rng st).player.grenades = st.player.grenades + 1 ∧
      (waveCompletionCheck rng st).weaponPickups.length =
        st.weaponPickups.length + 1 := by
  have hcheck : waveCompletionCheck rng st = nextWave rng st := by
    simp [waveCompletionCheck, if_pos hkill]
  rw [hcheck]
  unfold nextWave
  set w' := st.waveNumber + 1 with hw'
  set st1 : GameState := { st with
    waveNumber := w',
    enemiesKilledThisWave := 0,
    enemiesPerWave := enemiesPerWaveFormula w',
    enemySpawnRate := max 150 (st.baseSpawnRate - w' * 250),
    waveUpdateCalls := st.waveUpdateCalls + 1,
    particles := st.particles + 12,
    player := st.player.addGrenades 1 } with hst1
  set st2 := spawnWeaponPickup rng.wp st1 with hst2
  set st3 := if 3 ≤ w' then spawnShieldPickup rng.sh st2 else st2 with hst3
  set st4 := if 5 ≤ w' then spawnAmmoPickup rng.am st3 else st3 with hst4
  set st5 := if 7 ≤ w' ∧ w' % 3 = 1 then spawnHealthPickup rng.he st4 else st4
    with hst5
  have h2 := spawnWeaponPickup_fields rng.wp st1
  have h3 : st3.waveNumber = st2.waveNumber ∧
      st3.enemiesKilledThisWave = st2.enemiesKilledThisWave ∧
      st3.enemiesPerWave = st2.enemiesPerWave ∧
      st3.enemySpawnRate = st2.enemySpawnRate ∧
      st3.player = st2.player ∧ st3.weaponPickups = st2.weaponPickups := by
    rw [hst3]
    by_cases h : 3 ≤ w'
    · rw [if_pos h]; exact spawnShieldPickup_fields rng.sh st2
    · rw [if_neg h]; exact ⟨rfl, rfl, rfl, rfl, rfl, rfl⟩
  have h4 : st4.waveNumber = st3.waveNumber ∧
      st4.enemiesKilledThisWave = st3.enemiesKilledThisWave ∧
      st4.enemiesPerWave = st3.enemiesPerWave ∧
      st4.enemySpawnRate = st3.enemySpawnRate ∧
      st4.player = st3.player ∧ st4.weaponPickups = st3.weaponPickups := by
    rw [hst4]
    by_cases h : 5 ≤ w'
    · rw [if_pos h]; exact spawnAmmoPickup_fields rng.am st3
    · rw [if_neg h]; exact ⟨rfl, rfl, rfl, rfl, rfl, rfl⟩
  have h5 : st5.waveNumber = st4.waveNumber ∧
      st5.enemiesKilledThisWave = st4.enemiesKilledThisWave ∧
      st5.enemiesPerWave = st4.enemiesPerWave ∧
      st5.enemySpawnRate = st4.enemySpawnRate ∧
      st5.player = st4.player ∧ st5.weaponPickups = st4.weaponPickups := by
    rw [hst5]
    by_cases h : 7 ≤ w' ∧ w' % 3 = 1
    · rw [if_pos h]; exact spawnHealthPickup_fields rng.he st4
    · rw [if_neg h]; exact ⟨rfl, rfl, rfl, rfl, rfl, rfl⟩
  have hrate : st1.enemySpawnRate = spawnIntervalFormula w' := by
    simp only [hst1, hbase, spawnIntervalFormula]
  refine ⟨?_, ?_, ?_, ?_, ?_, ?_⟩
  · show st5.waveNumber = w'
    rw [h5.1, h4.1, h3.1, h2.1]
  · show st5.enemiesKilledThisWave = 0
    rw [h5.2.1, h4.2.1, h3.2.1, h2.2.1]
  · show st5.enemiesPerWave = enemiesPerWaveFormula w'
    rw [h5.2.2.1, h4.2.2.1, h3.2.2.1, h2.2.2.1]
  · show st5.enemySpawnRate = spawnIntervalFormula w'
    rw [h5.2.2.2.1, h4.2.2.2.1, h3.2.2.2.1, h2.2.2.2.1, hrate]
  · show st5.player.grenades = st.player.grenades + 1
    rw [h5.2.2.2.2.1, h4.2.2.2.2.1, h3.2.2.2.2.1, h2.2.2.2.2.1]
    rfl
  · show st5.weaponPickups.length = st.weaponPickups.length + 1
    rw [h5.2.2.2.2.2, h4.2.2.2.2.2, h3.2.2.2.2.2, h2.2.2.2.2.2]

/-- Witness for C2: wave 1 with quota 4, fourth kill booked; the wave number
goes to 2 and the player gains one grenade. -/
theorem c2_wave_advance_witness :
    c2StateFixture.enemiesPerWave ≤ c2StateFixture.enemiesKilledThisWave ∧
      c2StateFixture.baseSpawnRate = 2000 ∧
      ((waveCompletionCheck nextWaveRng0 c2StateFixture).waveNumber =
          c2StateFixture.waveNumber + 1 ∧
        (waveCompletionCheck nextWaveRng0 c2StateFixture).enemiesKilledThisWave = 0 ∧
        (waveCompletionCheck nextWaveRng0 c2StateFixture).enemiesPerWave =
          enemiesPerWaveFormula (c2StateFixture.waveNumber + 1) ∧
        (waveCompletionCheck nextWaveRng0 c2StateFixture).enemySpawnRate =
          spawnIntervalFormula (c2StateFixture.waveNumber + 1) ∧
        (waveCompletionCheck nextWaveRng0 c2StateFixture).player.grenades =
          c2StateFixture.player.grenades + 1 ∧
        (waveCompletionCheck nextWaveRng0 c2StateFixture).weaponPickups.length =
          c2StateFixture.weaponPickups.length + 1) :=
  ⟨le_rfl, rfl, c2_wave_advance nextWaveRng0 c2StateFixture le_rfl rfl⟩

theorem iterate_takeDamage_spec (n : ℕ) :
    PlayerReach (Player.takeDamage^[n] (Player.make 0 0)) ∧
      (Player.takeDamage^[n] (Player.make 0 0)).health = 3 - n ∧
      (Player.takeDamage^[n] (Player.make 0 0)).shield = 0 := by
  induction n with
  | zero => exact ⟨.init 0 0, rfl, rfl⟩
  | succ k ih =>
      obtain ⟨hr, hh, hs⟩ := ih
      rw [Function.iterate_succ_apply']
      refine ⟨.takeDamage hr, ?_, ?_⟩
      · rw [Player.takeDamage, if_neg (by rw [hs]; exact lt_irrefl 0)]
        simp only [hh]
        push_cast
        ring
      · rw [Player.takeDamage, if_neg (by rw [hs]; exact lt_irrefl 0)]
        exact hs

/-- Counterexample to claim C10 as stated: after 26 unshielded hits (each an
operation of the player API) the health is -23, and consuming a health
pickup then heals only to min(3, -23 + 25) = 2, not to 3 — so heal(25) does
NOT restore health to exactly 3 regardless of its prior value. -/
theorem c10_health_counterexample :
    PlayerReach (Player.takeDamage^[26] (Player.make 0 0)) ∧
      ((Player.takeDamage^[26] (Player.make 0 0)).heal 25).health = 2 ∧
      ¬((Player.takeDamage^[26] (Player.make 0 0)).heal 25).health = 3 := by
  obtain ⟨hr, hh, _⟩ := iterate_takeDamage_spec 26
  refine ⟨hr, ?_, ?_⟩
  · rw [Player.heal]
    simp only [hh]
    norm_num
  · rw [Player.heal]
    simp only [hh]
    norm_num

/-- Claim C10 (amended): in every reachable player state health never
exceeds 3 (health starts at 3, heal clamps at 3, unshielded hits decrement
by exactly 1), and consuming a health pickup (heal 25) restores health to
exactly 3 from every prior health of at least -22 — in particular from any
nonnegative health — but not from arbitrary prior values. -/
theorem c10_health_invariant :
    (∀ p : Player, PlayerReach p → p.health ≤ 3) ∧
      (∀ p : Player, p.shield = 0 → p.takeDamage.health = p.health - 1) ∧
      (∀ (p : Player) (a : ℤ), (p.heal a).health ≤ 3) ∧
      (∀ p : Player, -22 ≤ p.health → (p.heal 25).health = 3) := by
  refine ⟨?_, ?_, ?_, ?_⟩
  · intro p hp
    induction hp with
    | init x y => exact le_refl 3
    | takeDamage hq ih =>
        rw [Player.takeDamage]
        split
        · exact ih
        · simp only
          omega
    | heal a hq ih => exact min_le_left _ _
    | other hq hh ih => rw [hh]; exact ih
  · intro p hs
    rw [Player.takeDamage, if_neg (by rw [hs]; exact lt_irrefl 0)]
  · intro p a
    exact min_le_left _ _
  · intro p hp
    rw [Player.heal]
    simp only
    omega

/-- Witness for the amended C10 at the freshly constructed player. -/
theorem c10_health_invariant_witness :
    PlayerReach (Player.make 0 0) ∧ (Player.make 0 0).shield = 0 ∧
      (-22 : ℤ) ≤ (Player.make 0 0).health ∧
      ((Player.make 0 0).health ≤ 3 ∧
        (Player.make 0 0).takeDamage.health = (Player.make 0 0).health - 1 ∧
        ((Player.make 0 0).heal 5).health ≤ 3 ∧
        ((Player.make 0 0).heal 25).health = 3) :=
  ⟨.init 0 0, rfl, by decide,
    c10_health_invariant.1 _ (.init 0 0),
    c10_health_invariant.2.1 _ rfl,
    c10_health_invariant.2.2.1 _ 5,
    c10_health_invariant.2.2.2 _ (by decide)⟩

theorem processClickAttack_nonkatana (st : GameState) (w : Weapon)
    (mx my cx cy : ℝ) (rnd : ℕ → ℝ)
    (hw : st.player.weapon = some w) (ht : ¬w.type = .katana)
    (hcs : st.player.canShoot) :
    (processClickAttack st mx my cx cy rnd).player.weapon =
      some { w with ammo := w.ammo.map (· - 1), durability := w.durability - 5 } ∧
      (processClickAttack st mx my cx cy rnd).player.shootCooldown = w.fireRate := by
  have hcf : w.canFire := by
    obtain ⟨-, w', hw', hcf⟩ := hcs
    rw [hw] at hw'
    injection hw' with h
    rwa [← h] at hcf
  have hfire : w.fire =
      ({ w with ammo := w.ammo.map (· - 1), durability := w.durability - 5 }, true) := by
    rw [Weapon.fire, if_pos hcf, if_neg ht, if_neg ht]
  unfold processClickAttack
  simp only [hw]
  rw [if_pos hcs, if_neg ht]
  by_cases hs : w.type = .shuriken
  · rw [if_pos hs]
    simp only [Player.shoot, hw, hfire]
    refine ⟨?_, ?_⟩ <;> trivial
  · rw [if_neg hs]
    simp only [Player.shoot, hw, hfire]
    refine ⟨?_, ?_⟩ <;> trivial

theorem processClickAttack_katana (st : GameState) (w : Weapon)
    (mx my cx cy : ℝ) (rnd : ℕ → ℝ)
    (hw : st.player.weapon = some w) (ht : w.type = .katana)
    (hcs : st.player.canShoot) (hsw : st.meleeSwingActive = false) :
    (processClickAttack st mx my cx cy rnd).player.weapon = some w ∧
      (processClickAttack st mx my cx cy rnd).player.shootCooldown = w.fireRate ∧
      (processClickAttack st mx my cx cy rnd).meleeSwingActive = true ∧
      (processClickAttack st mx my cx cy rnd).bullets = st.bullets := by
  unfold processClickAttack
  simp only [hw]
  rw [if_pos hcs, if_pos ht, if_neg (by rw [hsw]; exact Bool.false_ne_true)]
  simp only [Player.melee, hw, if_pos ht, startKatanaSwing]
  refine ⟨?_, ?_, ?_, ?_⟩ <;> trivial

theorem katana_block_effect (st : GameState) (b : Bullet) (w : Weapon)
    (hw : st.player.weapon = some w) (hblk : katanaBlocks st b) :
    (enemyBulletVsPlayerStep b st).1 = none ∧
      (enemyBulletVsPlayerStep b st).2.player.weapon =
        some { w with durability := max 0 (w.durability - w.maxDurability * 0.1) } ∧
      (enemyBulletVsPlayerStep b st).2.player.health = st.player.health := by
  unfold enemyBulletVsPlayerStep
  rw [if_pos hblk]
  simp only [hw]
  refine ⟨?_, ?_, ?_⟩ <;> trivial

/-- Counterexample to claim C6 as stated: a katana swing trigger event opens
the swing but never calls Weapon.fire, so the katana keeps its full 200
durability instead of paying the claimed 8. -/
theorem c6_trigger_counterexample :
    c6KatanaFixture.player.weapon = some (Weapon.make .katana) ∧
      (processClickAttack c6KatanaFixture 200 100 0 0 rnd0).meleeSwingActive = true ∧
      (processClickAttack c6KatanaFixture 200 100 0 0 rnd0).player.weapon =
        some (Weapon.make .katana) ∧
      ¬(Weapon.make .katana).durability = (Weapon.make .katana).durability - 8 := by
  have hcs : c6KatanaFixture.player.canShoot := by
    refine ⟨le_refl 0, Weapon.make .katana, rfl, Or.inl ?_, ?_⟩
    · simp [Weapon.make]
    · show (0 : ℝ) < 200
      norm_num
  have h := processClickAttack_katana c6KatanaFixture (Weapon.make .katana)
    200 100 0 0 rnd0 rfl rfl hcs rfl
  refine ⟨rfl, h.2.2.1, h.1, ?_⟩
  show ¬(200 : ℝ) = 200 - 8
  norm_num

/-- Claim C6 (amended): a trigger event of a held pistol, rifle, shotgun or
shuriken consumes exactly one ammo and 5 durability; a katana swing trigger
consumes no ammo and no durability (the source never calls Weapon.fire for
the katana, it only starts the swing and the fire-rate cooldown); a katana
block costs 10 percent of the maximum durability, clamped at 0 — which is
20 for the katana, not 8. -/
theorem c6_trigger_costs :
    (∀ (st : GameState) (w : Weapon) (mx my cx cy : ℝ) (rnd : ℕ → ℝ),
        st.player.weapon = some w → ¬w.type = .katana → st.player.canShoot →
        (processClickAttack st mx my cx cy rnd).player.weapon =
          some { w with ammo := w.ammo.map (· - 1),
                        durability := w.durability - 5 }) ∧
      (∀ (st : GameState) (w : Weapon) (mx my cx cy : ℝ) (rnd : ℕ → ℝ),
        st.player.weapon = some w → w.type = .katana → st.player.canShoot →
        st.meleeSwingActive = false →
        (processClickAttack st mx my cx cy rnd).player.weapon = some w ∧
          (processClickAttack st mx my cx cy rnd).meleeSwingActive = true) ∧
      (∀ (st : GameState) (b : Bullet) (w : Weapon),
        st.player.weapon = some w → katanaBlocks st b →
        (enemyBulletVsPlayerStep b st).2.player.weapon =
          some { w with durability := max 0 (w.durability - w.maxDurability * 0.1) }) ∧
      (Weapon.make .katana).maxDurability * 0.1 = 20 := by
  refine ⟨?_, ?_, ?_, ?_⟩
  · intro st w mx my cx cy rnd hw ht hcs
    exact (processClickAttack_nonkatana st w mx my cx cy rnd hw ht hcs).1
  · intro st w mx my cx cy rnd hw ht hcs hsw
    have h := processClickAttack_katana st w mx my cx cy rnd hw ht hcs hsw
    exact ⟨h.1, h.2.2.1⟩
  · intro st b w hw hblk
    exact (katana_block_effect st b w hw hblk).2.1
  · show (200 : ℝ) * 0.1 = 20
    norm_num

/-- Witness for the amended C6: the starting pistol pays one ammo and 5
durability, the katana swing pays nothing, and a concrete blocked enemy
bullet costs the katana 20 durability. -/
theorem c6_trigger_costs_witness :
    (baseState.player.weapon = some (Weapon.make .pistol) ∧
      ¬(Weapon.make .pistol).type = WeaponType.katana ∧
      baseState.player.canShoot ∧
      (processClickAttack baseState 200 100 0 0 rnd0).player.weapon =
        some { Weapon.make .pistol with
                ammo := (Weapon.make .pistol).ammo.map (· - 1),
                durability := (Weapon.make .pistol).durability - 5 }) ∧
      (katanaBlocks c6BlockFixture c6BulletFixture ∧
        (enemyBulletVsPlayerStep c6BulletFixture c6BlockFixture).2.player.weapon =
          some { Weapon.make .katana with
                  durability := max 0 ((Weapon.make .katana).durability -
                    (Weapon.make .katana).maxDurability * 0.1) }) := by
  have hcsp : baseState.player.canShoot := by
    refine ⟨le_refl 0, Weapon.make .pistol, rfl, Or.inl ?_, ?_⟩
    · show 0 < (8 : ℤ)
      norm_num
    · show (0 : ℝ) < 100
      norm_num
  have hsqrt : Real.sqrt (((110 : ℝ) - 100) ^ 2 + ((100 : ℝ) - 100) ^ 2) = 10 := by
    rw [show ((110 : ℝ) - 100) ^ 2 + ((100 : ℝ) - 100) ^ 2 = 10 ^ 2 by norm_num]
    exact Real.sqrt_sq (by norm_num)
  have hblk : katanaBlocks c6BlockFixture c6BulletFixture := by
    refine ⟨rfl, rfl, ⟨Weapon.make .katana, rfl, rfl⟩, Or.inl ⟨?_, ?_⟩⟩
    · show Vec2.length _ < 28
      simp only [c6BlockFixture, c6BulletFixture, baseState, Player.make,
        Vec2.subtract, Vec2.length]
      rw [hsqrt]
      norm_num
    · simp only [c6BlockFixture, c6BulletFixture, baseState, Player.make,
        Vec2.subtract, Vec2.normalize, Vec2.length, Vec2.multiply]
      rw [hsqrt]
      rw [if_neg (by norm_num : ¬(10 : ℝ) = 0)]
      simp only [Vec2.multiply]
      norm_num
  exact ⟨⟨rfl, by decide, hcsp,
      c6_trigger_costs.1 baseState (Weapon.make .pistol) 200 100 0 0 rnd0 rfl
        (by decide) hcsp⟩,
    ⟨hblk, c6_trigger_costs.2.2.1 c6BlockFixture c6BulletFixture
      (Weapon.make .katana) rfl hblk⟩⟩

theorem bulletEnemyScan_none (b : Bullet) (l : List Enemy)
    (h : ∀ x ∈ l, ¬bulletHitCond b x) : bulletEnemyScan b l = (l, none) := by
  induction l with
  | nil => rfl
  | cons e rest ih =>
      simp only [bulletEnemyScan, ih fun x hx => h x (List.mem_cons_of_mem _ hx)]
      rw [if_neg (h e (List.mem_cons_self _ _))]

theorem bulletEnemyScan_absorb (b : Bullet) (l1 l2 : List Enemy) (e : Enemy)
    (he : bulletHitCond b e) (h2 : ∀ x ∈ l2, ¬bulletHitCond b x)
    (hs : 0 < e.shield) :
    bulletEnemyScan b (l1 ++ e :: l2) =
      (l1 ++ { e with shield := max 0 (e.shield - 1) } :: l2,
        some (.survive { e with shield := max 0 (e.shield - 1) })) := by
  induction l1 with
  | nil =>
      simp only [List.nil_append, bulletEnemyScan, bulletEnemyScan_none b l2 h2]
      rw [if_pos he]
      simp only [shieldThenKill, if_pos hs]
  | cons x l1 ih =>
      simp only [List.cons_append, bulletEnemyScan, List.append_eq, ih]

theorem bulletEnemyScan_kill (b : Bullet) (l1 l2 : List Enemy) (e : Enemy)
    (he : bulletHitCond b e) (h2 : ∀ x ∈ l2, ¬bulletHitCond b x)
    (hs : e.shield = 0) :
    bulletEnemyScan b (l1 ++ e :: l2) =
      (l1 ++ l2, some (.die e.position (e.weapon.map Weapon.type))) := by
  induction l1 with
  | nil =>
      have hns : ¬(0 < e.shield) := by rw [hs]; exact lt_irrefl 0
      simp only [List.nil_append, bulletEnemyScan, bulletEnemyScan_none b l2 h2]
      rw [if_pos he]
      simp only [shieldThenKill, if_neg hns]
  | cons x l1 ih =>
      simp only [List.cons_append, bulletEnemyScan, List.append_eq, ih]

theorem thrownEnemyScan_none (t : ThrownWeapon) (l : List Enemy)
    (h : ∀ x ∈ l, ¬t.position.distanceTo x.position < 20) :
    thrownEnemyScan t l = (l, none) := by
  induction l with
  | nil => rfl
  | cons e rest ih =>
      simp only [thrownEnemyScan, ih fun x hx => h x (List.mem_cons_of_mem _ hx)]
      rw [if_neg (h e (List.mem_cons_self _ _))]

theorem thrownEnemyScan_absorb (t : ThrownWeapon) (l1 l2 : List Enemy) (e : Enemy)
    (he : t.position.distanceTo e.position < 20)
    (h2 : ∀ x ∈ l2, ¬t.position.distanceTo x.position < 20)
    (hs : 0 < e.shield) :
    thrownEnemyScan t (l1 ++ e :: l2) =
      (l1 ++ { e with shield := max 0 (e.shield - 2) } :: l2,
        some (.survive { e with shield := max 0 (e.shield - 2) })) := by
  induction l1 with
  | nil =>
      simp only [List.nil_append, thrownEnemyScan, thrownEnemyScan_none t l2 h2]
      rw [if_pos he]
      simp only [shieldThenKill, if_pos hs]
  | cons x l1 ih =>
      simp only [List.cons_append, thrownEnemyScan, List.append_eq, ih]

theorem thrownEnemyScan_kill (t : ThrownWeapon) (l1 l2 : List Enemy) (e : Enemy)
    (he : t.position.distanceTo e.position < 20)
    (h2 : ∀ x ∈ l2, ¬t.position.distanceTo x.position < 20)
    (hs : e.shield = 0) :
    thrownEnemyScan t (l1 ++ e :: l2) =
      (l1 ++ l2, some (.die e.position (e.weapon.map Weapon.type))) := by
  induction l1 with
  | nil =>
      have hns : ¬(0 < e.shield) := by rw [hs]; exact lt_irrefl 0
      simp only [List.nil_append, thrownEnemyScan, thrownEnemyScan_none t l2 h2]
      rw [if_pos he]
      simp only [shieldThenKill, if_neg hns]
  | cons x l1 ih =>
      simp only [List.cons_append, thrownEnemyScan, List.append_eq, ih]

theorem meleeSweepLoop_skip (start current : ℝ) (l : List Enemy) (st : GameState)
    (h : ∀ x ∈ l,
      ¬sweepHits st.player.position start current st.meleeHitThisSwing x) :
    meleeSweepLoop start current l st = (l, st) := by
  induction l with
  | nil => rfl
  | cons x rest ih =>
      have hx := h x (List.mem_cons_self _ _)
      rw [sweepHits] at hx
      simp only [meleeSweepLoop, ih fun y hy => h y (List.mem_cons_of_mem _ hy)]
      by_cases h1 : x.id ∈ st.meleeHitThisSwing
      · rw [if_pos h1]
      · rw [if_neg h1]
        by_cases hdist : 60 < st.player.position.distanceTo x.position
        · rw [if_pos hdist]
        · rw [if_neg hdist, if_neg fun hc => hx ⟨h1, not_lt.mp hdist, hc⟩]

theorem meleeSweep_absorb (start current : ℝ) (st : GameState)
    (l1 l2 : List Enemy) (e : Enemy)
    (hset : e.id ∉ st.meleeHitThisSwing)
    (hd : st.player.position.distanceTo e.position ≤ 60)
    (hang : min start current ≤
        unwrapAngle (atan2 (e.position.y - st.player.position.y)
          (e.position.x - st.player.position.x)) start ∧
      unwrapAngle (atan2 (e.position.y - st.player.position.y)
          (e.position.x - st.player.position.x)) start ≤ max start current)
    (hothers : ∀ x ∈ l1 ++ l2,
      ¬sweepHits st.player.position start current st.meleeHitThisSwing x)
    (hs : 0 < e.shield) :
    meleeSweepLoop start current (l1 ++ e :: l2) st =
      (l1 ++ { e with shield := max 0 (e.shield - 2) } :: l2,
        { st with particles := st.particles + 8,
                  meleeHitThisSwing := e.id :: st.meleeHitThisSwing }) := by
  induction l1 with
  | nil =>
      have hl2 : meleeSweepLoop start current l2 st = (l2, st) :=
        meleeSweepLoop_skip start current l2 st fun x hx =>
          hothers x (by simpa using hx)
      simp only [List.nil_append, meleeSweepLoop, hl2]
      rw [if_neg hset, if_neg (not_lt.mpr hd), if_pos hang]
      simp only [shieldThenKill, if_pos hs]
  | cons x l1 ih =>
      have hx := hothers x (by simp)
      have ihres := ih fun y hy => hothers y (by
        rcases List.mem_append.mp hy with h | h
        · exact List.mem_append.mpr (Or.inl (List.mem_cons_of_mem _ h))
        · exact List.mem_append.mpr (Or.inr h))
      simp only [List.cons_append, meleeSweepLoop, List.append_eq, ihres]
      rw [sweepHits] at hx
      by_cases h1 : x.id ∈ e.id :: st.meleeHitThisSwing
      · rw [if_pos h1]
      · rw [if_neg h1]
        have h1o : x.id ∉ st.meleeHitThisSwing := fun hmem =>
          h1 (List.mem_cons_of_mem _ hmem)
        by_cases hdist : 60 < st.player.position.distanceTo x.position
        · rw [if_pos hdist]
        · rw [if_neg hdist, if_neg fun hc => hx ⟨h1o, not_lt.mp hdist, hc⟩]

theorem meleeSweep_kill (start current : ℝ) (st : GameState)
    (l1 l2 : List Enemy) (e : Enemy)
    (hset : e.id ∉ st.meleeHitThisSwing)
    (hd : st.player.position.distanceTo e.position ≤ 60)
    (hang : min start current ≤
        unwrapAngle (atan2 (e.position.y - st.player.position.y)
          (e.position.x - st.player.position.x)) start ∧
      unwrapAngle (atan2 (e.position.y - st.player.position.y)
          (e.position.x - st.player.position.x)) start ≤ max start current)
    (hothers : ∀ x ∈ l1 ++ l2,
      ¬sweepHits st.player.position start current st.meleeHitThisSwing x)
    (hs : e.shield = 0) :
    meleeSweepLoop start current (l1 ++ e :: l2) st =
      (l1 ++ l2,
        { st with
          particles := st.particles + 8,
          weaponPickups := st.weaponPickups ++
            (match e.weapon.map Weapon.type with
             | some ty => [WeaponPickup.make e.position.x e.position.y ty]
             | none => []),
          score := st.score + 1,
          enemiesKilledThisWave := st.enemiesKilledThisWave + 1,
          scoreUpdateCalls := st.scoreUpdateCalls + 1,
          meleeHitThisSwing := e.id :: st.meleeHitThisSwing }) := by
  induction l1 with
  | nil =>
      have hl2 : meleeSweepLoop start current l2 st = (l2, st) :=
        meleeSweepLoop_skip start current l2 st fun x hx =>
          hothers x (by simpa using hx)
      have hns : ¬(0 < e.shield) := by rw [hs]; exact lt_irrefl 0
      simp only [List.nil_append, meleeSweepLoop, hl2]
      rw [if_neg hset, if_neg (not_lt.mpr hd), if_pos hang]
      simp only [shieldThenKill, if_neg hns]
  | cons x l1 ih =>
      have hx := hothers x (by simp)
      have ihres := ih fun y hy => hothers y (by
        rcases List.mem_append.mp hy with h | h
        · exact List.mem_append.mpr (Or.inl (List.mem_cons_of_mem _ h))
        · exact List.mem_append.mpr (Or.inr h))
      simp only [List.cons_append, meleeSweepLoop, List.append_eq, ihres]
      rw [sweepHits] at hx
      by_cases h1 : x.id ∈ e.id :: st.meleeHitThisSwing
      · rw [if_pos h1]
      · rw [if_neg h1]
        have h1o : x.id ∉ st.meleeHitThisSwing := fun hmem =>
          h1 (List.mem_cons_of_mem _ hmem)
        by_cases hdist : 60 < st.player.position.distanceTo x.position
        · rw [if_pos hdist]
        · rw [if_neg hdist, if_neg fun hc => hx ⟨h1o, not_lt.mp hdist, hc⟩]

/-- Claim C1: every hit resolution follows the shield-then-health order.  A
bullet hit on a shielded enemy only decrements the shield by 1 (clamped at
0), with no death and no weapon drop; only an unshielded enemy dies,
dropping its weapon type as a pickup.  Thrown-weapon hits and melee-sweep
hits behave the same with shield decrement 2. -/
theorem c1_shield_then_health :
    (∀ (b : Bullet) (l1 l2 : List Enemy) (e : Enemy),
      bulletHitCond b e → (∀ x ∈ l2, ¬bulletHitCond b x) →
      (0 < e.shield →
        bulletEnemyScan b (l1 ++ e :: l2) =
          (l1 ++ { e with shield := max 0 (e.shield - 1) } :: l2,
            some (.survive { e with shield := max 0 (e.shield - 1) }))) ∧
      (e.shield = 0 →
        bulletEnemyScan b (l1 ++ e :: l2) =
          (l1 ++ l2, some (.die e.position (e.weapon.map Weapon.type))))) ∧
    (∀ (t : ThrownWeapon) (l1 l2 : List Enemy) (e : Enemy),
      t.position.distanceTo e.position < 20 →
      (∀ x ∈ l2, ¬t.position.distanceTo x.position < 20) →
      (0 < e.shield →
        thrownEnemyScan t (l1 ++ e :: l2) =
          (l1 ++ { e with shield := max 0 (e.shield - 2) } :: l2,
            some (.survive { e with shield := max 0 (e.shield - 2) }))) ∧
      (e.shield = 0 →
        thrownEnemyScan t (l1 ++ e :: l2) =
          (l1 ++ l2, some (.die e.position (e.weapon.map Weapon.type))))) ∧
    (∀ (start current : ℝ) (st : GameState) (l1 l2 : List Enemy) (e : Enemy),
      e.id ∉ st.meleeHitThisSwing →
      st.player.position.distanceTo e.position ≤ 60 →
      (min start current ≤
          unwrapAngle (atan2 (e.position.y - st.player.position.y)
            (e.position.x - st.player.position.x)) start ∧
        unwrapAngle (atan2 (e.position.y - st.player.position.y)
            (e.position.x - st.player.position.x)) start ≤ max start current) →
      (∀ x ∈ l1 ++ l2,
        ¬sweepHits st.player.position start current st.meleeHitThisSwing x) →
      (0 < e.shield →
        meleeSweepLoop start current (l1 ++ e :: l2) st =
          (l1 ++ { e with shield := max 0 (e.shield - 2) } :: l2,
            { st with particles := st.particles + 8,
                      meleeHitThisSwing := e.id :: st.meleeHitThisSwing })) ∧
      (e.shield = 0 →
        meleeSweepLoop start current (l1 ++ e :: l2) st =
          (l1 ++ l2,
            { st with
              particles := st.particles + 8,
              weaponPickups := st.weaponPickups ++
                (match e.weapon.map Weapon.type with
                 | some ty => [WeaponPickup.make e.position.x e.position.y ty]
                 | none => []),
              score := st.score + 1,
              enemiesKilledThisWave := st.enemiesKilledThisWave + 1,
              scoreUpdateCalls := st.scoreUpdateCalls + 1,
              meleeHitThisSwing := e.id :: st.meleeHitThisSwing }))) := by
  refine ⟨?_, ?_, ?_⟩
  · intro b l1 l2 e he h2
    exact ⟨bulletEnemyScan_absorb b l1 l2 e he h2,
      bulletEnemyScan_kill b l1 l2 e he h2⟩
  · intro t l1 l2 e he h2
    exact ⟨thrownEnemyScan_absorb t l1 l2 e he h2,
      thrownEnemyScan_kill t l1 l2 e he h2⟩
  · intro start current st l1 l2 e hset hd hang hothers
    exact ⟨meleeSweep_absorb start current st l1 l2 e hset hd hang hothers,
      meleeSweep_kill start current st l1 l2 e hset hd hang hothers⟩

theorem unwrapAngle_eq_self (a c : ℝ) (h1 : c - Real.pi ≤ a)
    (h2 : a ≤ c + Real.pi) : unwrapAngle a c = a := by
  have hpi : (0 : ℝ) < 2 * Real.pi := by positivity
  have e1 : ⌈(c - Real.pi - a) / (2 * Real.pi)⌉ ≤ 0 := by
    rw [show (0 : ℤ) = ⌈(0 : ℝ)⌉ by simp]
    apply Int.ceil_le_ceil
    exact div_nonpos_of_nonpos_of_nonneg (by linarith) (le_of_lt hpi)
  have hmax1 : max 0 ⌈(c - Real.pi - a) / (2 * Real.pi)⌉ = 0 := max_eq_left e1
  unfold unwrapAngle
  rw [hmax1]
  simp only [Int.cast_zero, mul_zero, add_zero]
  have e2 : ⌈(a - (c + Real.pi)) / (2 * Real.pi)⌉ ≤ 0 := by
    rw [show (0 : ℤ) = ⌈(0 : ℝ)⌉ by simp]
    apply Int.ceil_le_ceil
    exact div_nonpos_of_nonpos_of_nonneg (by linarith) (le_of_lt hpi)
  rw [max_eq_left e2]
  simp

theorem atan2_zero_ten : atan2 ((100 : ℝ) - 100) ((110 : ℝ) - 100) = 0 := by
  rw [show (100 : ℝ) - 100 = 0 by norm_num, show (110 : ℝ) - 100 = 10 by norm_num]
  show Complex.arg ((10 : ℝ) : ℂ) = 0
  exact Complex.arg_ofReal_of_nonneg (by norm_num)

/-- Witness for C1: a player bullet on a shielded enemy only dents the
shield; a thrown rifle on an unshielded enemy kills it and drops its weapon;
a melee sweep on the shielded enemy dents the shield by 2. -/
theorem c1_shield_then_health_witness :
    (bulletHitCond c1BulletFixture c1ShieldedEnemy ∧
      0 < c1ShieldedEnemy.shield ∧
      bulletEnemyScan c1BulletFixture [c1ShieldedEnemy] =
        ([{ c1ShieldedEnemy with shield := max 0 (c1ShieldedEnemy.shield - 1) }],
          some (.survive
            { c1ShieldedEnemy with shield := max 0 (c1ShieldedEnemy.shield - 1) }))) ∧
    (c1ThrownFixture.position.distanceTo c1BareEnemy.position < 20 ∧
      c1BareEnemy.shield = 0 ∧
      thrownEnemyScan c1ThrownFixture [c1BareEnemy] =
        ([], some (.die c1BareEnemy.position
          (c1BareEnemy.weapon.map Weapon.type)))) ∧
    (c1ShieldedEnemy.id ∉ baseState.meleeHitThisSwing ∧
      baseState.player.position.distanceTo c1ShieldedEnemy.position ≤ 60 ∧
      meleeSweepLoop 0 0 [c1ShieldedEnemy] baseState =
        ([{ c1ShieldedEnemy with shield := max 0 (c1ShieldedEnemy.shield - 2) }],
          { baseState with
            particles := baseState.particles + 8,
            meleeHitThisSwing := c1ShieldedEnemy.id :: baseState.meleeHitThisSwing })) := by
  have hsqrt0 : Real.sqrt (((110 : ℝ) - 110) ^ 2 + ((100 : ℝ) - 100) ^ 2) = 0 := by
    rw [show ((110 : ℝ) - 110) ^ 2 + ((100 : ℝ) - 100) ^ 2 = 0 by norm_num]
    exact Real.sqrt_zero
  have hsqrt10 : Real.sqrt (((110 : ℝ) - 100) ^ 2 + ((100 : ℝ) - 100) ^ 2) = 10 := by
    rw [show ((110 : ℝ) - 100) ^ 2 + ((100 : ℝ) - 100) ^ 2 = 10 ^ 2 by norm_num]
    exact Real.sqrt_sq (by norm_num)
  have hbc : bulletHitCond c1BulletFixture c1ShieldedEnemy := by
    constructor
    · intro h
      exact Bool.false_ne_true h.1
    · show Vec2.length _ < 15
      simp only [c1BulletFixture, c1ShieldedEnemy, Vec2.subtract, Vec2.length]
      rw [hsqrt0]
      norm_num
  have htc : c1ThrownFixture.position.distanceTo c1BareEnemy.position < 20 := by
    show Vec2.length _ < 20
    simp only [c1ThrownFixture, c1BareEnemy, Vec2.subtract, Vec2.length]
    rw [hsqrt0]
    norm_num
  have hsqrtm10 : Real.sqrt (((100 : ℝ) - 110) ^ 2 + ((100 : ℝ) - 100) ^ 2) = 10 := by
    rw [show ((100 : ℝ) - 110) ^ 2 + ((100 : ℝ) - 100) ^ 2 = 10 ^ 2 by norm_num]
    exact Real.sqrt_sq (by norm_num)
  have hmd : baseState.player.position.distanceTo c1ShieldedEnemy.position ≤ 60 := by
    show Vec2.length _ ≤ 60
    simp only [baseState, Player.make, c1ShieldedEnemy, Vec2.subtract, Vec2.length]
    rw [hsqrtm10]
    norm_num
  have hang : min (0 : ℝ) 0 ≤
      unwrapAngle (atan2 (c1ShieldedEnemy.position.y - baseState.player.position.y)
        (c1ShieldedEnemy.position.x - baseState.player.position.x)) 0 ∧
      unwrapAngle (atan2 (c1ShieldedEnemy.position.y - baseState.player.position.y)
        (c1ShieldedEnemy.position.x - baseState.player.position.x)) 0 ≤ max 0 0 := by
    have : atan2 (c1ShieldedEnemy.position.y - baseState.player.position.y)
        (c1ShieldedEnemy.position.x - baseState.player.position.x) =
        atan2 ((100 : ℝ) - 100) ((110 : ℝ) - 100) := rfl
    rw [this, atan2_zero_ten,
      unwrapAngle_eq_self 0 0 (by linarith [Real.pi_pos]) (by linarith [Real.pi_pos])]
    norm_num
  refine ⟨⟨hbc, by decide, ?_⟩, ⟨htc, rfl, ?_⟩, ⟨by decide, hmd, ?_⟩⟩
  · exact ((c1_shield_then_health.1 c1BulletFixture [] [] c1ShieldedEnemy hbc
      (by intro x hx; cases hx)).1 (by decide))
  · exact ((c1_shield_then_health.2.1 c1ThrownFixture [] [] c1BareEnemy htc
      (by intro x hx; cases hx)).2 rfl)
  · exact ((c1_shield_then_health.2.2 0 0 baseState [] [] c1ShieldedEnemy
      (by decide) hmd hang (by intro x hx; cases hx)).1 (by decide))

theorem takeDamage_position (p : Player) :
    (Player.takeDamage p).position = p.position := by
  unfold Player.takeDamage
  split <;> rfl

theorem enemyTouches_congr (p q : Player) (h : p.position = q.position)
    (e : Enemy) : enemyTouchesPlayer p e ↔ enemyTouchesPlayer q e := by
  unfold enemyTouchesPlayer
  rw [h]

theorem enemiesVsPlayerLoop_noTouch (l : List Enemy) (st : GameState)
    (h : ∀ x ∈ l, ¬enemyTouchesPlayer st.player x) :
    enemiesVsPlayerLoop l st = (l, st) := by
  induction l with
  | nil => rfl
  | cons x rest ih =>
      have hr : enemiesVsPlayerLoop rest st = (rest, st) :=
        ih fun y hy => h y (List.mem_cons_of_mem _ hy)
      simp only [enemiesVsPlayerLoop, hr]
      rw [if_neg (h x (List.mem_cons_self x rest))]

theorem enemiesVsPlayerLoop_single (l1 l2 : List Enemy) (e : Enemy)
    (st : GameState)
    (h1 : ∀ x ∈ l1, ¬enemyTouchesPlayer st.player x)
    (h2 : ∀ x ∈ l2, ¬enemyTouchesPlayer st.player x)
    (he : enemyTouchesPlayer st.player e) :
    enemiesVsPlayerLoop (l1 ++ e :: l2) st =
      (l1 ++ l2,
        { st with
          weaponPickups := st.weaponPickups ++
            (match e.weapon with
             | some w => [WeaponPickup.make e.position.x e.position.y w.type]
             | none => []),
          player := st.player.takeDamage,
          hudUpdateCalls := st.hudUpdateCalls + 1,
          particles := st.particles + 3 }) := by
  induction l1 with
  | nil =>
      simp only [List.nil_append]
      simp only [enemiesVsPlayerLoop, enemiesVsPlayerLoop_noTouch l2 st h2]
      rw [if_pos he]
  | cons x rest ih =>
      have hr := ih fun y hy => h1 y (List.mem_cons_of_mem _ hy)
      simp only [List.cons_append, enemiesVsPlayerLoop, List.append_eq, hr]
      have hx : ¬enemyTouchesPlayer (Player.takeDamage st.player) x := by
        rw [enemyTouches_congr (Player.takeDamage st.player) st.player
          (takeDamage_position st.player) x]
        exact h1 x (List.mem_cons_self x rest)
      rw [if_neg hx]

theorem weaponPickupsLoop_preserves (l : List WeaponPickup) (st : GameState) :
    (weaponPickupsLoop l st).2.player.health = st.player.health ∧
    (weaponPickupsLoop l st).2.enemies = st.enemies ∧
    (weaponPickupsLoop l st).2.gameOverCalls = st.gameOverCalls ∧
    (weaponPickupsLoop l st).2.thrownWeapons = st.thrownWeapons ∧
    (weaponPickupsLoop l st).2.healthPickups = st.healthPickups := by
  induction l with
  | nil => exact ⟨rfl, rfl, rfl, rfl, rfl⟩
  | cons p rest ih =>
      obtain ⟨i1, i2, i3, i4, i5⟩ := ih
      simp only [weaponPickupsLoop]
      split
      · exact ⟨i1, i2, i3, i4, i5⟩
      · exact ⟨i1, i2, i3, i4, i5⟩

theorem shieldPickupsLoop_preserves (l : List SimplePickup) (st : GameState) :
    (shieldPickupsLoop l st).2.player.health = st.player.health ∧
    (shieldPickupsLoop l st).2.enemies = st.enemies ∧
    (shieldPickupsLoop l st).2.gameOverCalls = st.gameOverCalls ∧
    (shieldPickupsLoop l st).2.thrownWeapons = st.thrownWeapons ∧
    (shieldPickupsLoop l st).2.healthPickups = st.healthPickups := by
  induction l with
  | nil => exact ⟨rfl, rfl, rfl, rfl, rfl⟩
  | cons p rest ih =>
      obtain ⟨i1, i2, i3, i4, i5⟩ := ih
      simp only [shieldPickupsLoop]
      split
      · exact ⟨i1, i2, i3, i4, i5⟩
      · exact ⟨i1, i2, i3, i4, i5⟩

theorem ammoPickupsLoop_preserves (l : List SimplePickup) (st : GameState) :
    (ammoPickupsLoop l st).2.player.health = st.player.health ∧
    (ammoPickupsLoop l st).2.enemies = st.enemies ∧
    (ammoPickupsLoop l st).2.gameOverCalls = st.gameOverCalls ∧
    (ammoPickupsLoop l st).2.thrownWeapons = st.thrownWeapons ∧
    (ammoPickupsLoop l st).2.healthPickups = st.healthPickups := by
  induction l with
  | nil => exact ⟨rfl, rfl, rfl, rfl, rfl⟩
  | cons p rest ih =>
      obtain ⟨i1, i2, i3, i4, i5⟩ := ih
      simp only [ammoPickupsLoop]
      repeat' split
      all_goals exact ⟨i1, i2, i3, i4, i5⟩

theorem weaponPickupsPhase_preserves (st : GameState) :
    (weaponPickupsPhase st).player.health = st.player.health ∧
    (weaponPickupsPhase st).enemies = st.enemies ∧
    (weaponPickupsPhase st).gameOverCalls = st.gameOverCalls ∧
    (weaponPickupsPhase st).thrownWeapons = st.thrownWeapons ∧
    (weaponPickupsPhase st).healthPickups = st.healthPickups :=
  weaponPickupsLoop_preserves st.weaponPickups st

theorem shieldPickupsPhase_preserves (st : GameState) :
    (shieldPickupsPhase st).player.health = st.player.health ∧
    (shieldPickupsPhase st).enemies = st.enemies ∧
    (shieldPickupsPhase st).gameOverCalls = st.gameOverCalls ∧
    (shieldPickupsPhase st).thrownWeapons = st.thrownWeapons ∧
    (shieldPickupsPhase st).healthPickups = st.healthPickups :=
  shieldPickupsLoop_preserves st.shieldPickups st

theorem ammoPickupsPhase_preserves (st : GameState) :
    (ammoPickupsPhase st).player.health = st.player.health ∧
    (ammoPickupsPhase st).enemies = st.enemies ∧
    (ammoPickupsPhase st).gameOverCalls = st.gameOverCalls ∧
    (ammoPickupsPhase st).thrownWeapons = st.thrownWeapons ∧
    (ammoPickupsPhase st).healthPickups = st.healthPickups :=
  ammoPickupsLoop_preserves st.ammoPickups st

theorem healthPickupsPhase_eq_self (st : GameState)
    (h : st.healthPickups = []) : healthPickupsPhase st = st := by
  unfold healthPickupsPhase
  rw [h]
  simp only [healthPickupsLoop]
  rw [← h]

theorem thrownVsEnemiesPhase_eq_self (st : GameState)
    (h : st.thrownWeapons = []) : thrownVsEnemiesPhase st = st := by
  unfold thrownVsEnemiesPhase
  rw [h]
  simp only [thrownVsEnemiesLoop]
  rw [← h]

theorem gameOverCheck_player (st : GameState) :
    (gameOverCheck st).player = st.player := by
  unfold gameOverCheck
  split <;> rfl

theorem gameOverCheck_enemies (st : GameState) :
    (gameOverCheck st).enemies = st.enemies := by
  unfold gameOverCheck
  split <;> rfl

theorem gameOverCheck_fires (st : GameState) (h : st.player.health ≤ 0) :
    (gameOverCheck st).gameOverCalls = st.gameOverCalls + 1 := by
  unfold gameOverCheck
  rw [if_pos h]

theorem collisionsAndGameOver_fields (st : GameState) :
    (collisionsAndGameOver st).player =
      (gameOverCheck (checkCollisions st)).player ∧
    (collisionsAndGameOver st).enemies =
      (gameOverCheck (checkCollisions st)).enemies ∧
    (collisionsAndGameOver st).gameOverCalls =
      (gameOverCheck (checkCollisions st)).gameOverCalls := by
  unfold collisionsAndGameOver
  exact ⟨rfl, rfl, rfl⟩

/-- Claim C9: if the player has health 1 and shield 0, no bullets, thrown
weapons or health pickups are in flight, and exactly one enemy is within the
20-pixel collision distance of the player, then after the collision and
game-over stage of the update that enemy has been removed, the player's
health is 0, and the game-over callback has fired exactly once. -/
theorem c9_lethal_collision (st : GameState) (l1 l2 : List Enemy) (e : Enemy)
    (hb : st.bullets = []) (ht : st.thrownWeapons = [])
    (hh : st.healthPickups = [])
    (hhp : st.player.health = 1) (hs : st.player.shield = 0)
    (hen : st.enemies = l1 ++ e :: l2)
    (h1 : ∀ x ∈ l1, ¬enemyTouchesPlayer st.player x)
    (h2 : ∀ x ∈ l2, ¬enemyTouchesPlayer st.player x)
    (he : enemyTouchesPlayer st.player e) :
    (collisionsAndGameOver st).player.health = 0 ∧
    (collisionsAndGameOver st).enemies = l1 ++ l2 ∧
    (collisionsAndGameOver st).gameOverCalls = st.gameOverCalls + 1 := by
  have hns : ¬(0 < st.player.shield) := by rw [hs]; exact lt_irrefl 0
  have hdmg : (Player.takeDamage st.player).health = 0 := by
    unfold Player.takeDamage
    rw [if_neg hns]
    show st.player.health - 1 = 0
    rw [hhp]
    decide
  have ph1 : bulletsVsEnemiesPhase st = st := by
    unfold bulletsVsEnemiesPhase
    rw [hb]
    simp only [bulletsVsEnemiesLoop]
    rw [← hb]
  have ph2 : enemyBulletsVsPlayerPhase st = st := by
    unfold enemyBulletsVsPlayerPhase
    rw [hb]
    simp only [enemyBulletsVsPlayerLoop]
    rw [← hb]
  have ph3 : enemiesVsPlayerPhase st =
      { st with
        enemies := l1 ++ l2,
        weaponPickups := st.weaponPickups ++
          (match e.weapon with
           | some w => [WeaponPickup.make e.position.x e.position.y w.type]
           | none => []),
        player := st.player.takeDamage,
        hudUpdateCalls := st.hudUpdateCalls + 1,
        particles := st.particles + 3 } := by
    unfold enemiesVsPlayerPhase
    rw [hen, enemiesVsPlayerLoop_single l1 l2 e st h1 h2 he]
  have h3h : (enemiesVsPlayerPhase st).player.health = 0 := by
    rw [ph3]; exact hdmg
  have h3e : (enemiesVsPlayerPhase st).enemies = l1 ++ l2 := by rw [ph3]
  have h3g : (enemiesVsPlayerPhase st).gameOverCalls = st.gameOverCalls := by
    rw [ph3]
  have h3t : (enemiesVsPlayerPhase st).thrownWeapons = [] := by
    rw [ph3]; exact ht
  have h3hp : (enemiesVsPlayerPhase st).healthPickups = [] := by
    rw [ph3]; exact hh
  obtain ⟨hA1, hA2, hA3, hA4, hA5⟩ :=
    weaponPickupsPhase_preserves (enemiesVsPlayerPhase st)
  obtain ⟨hB1, hB2, hB3, hB4, hB5⟩ :=
    shieldPickupsPhase_preserves (weaponPickupsPhase (enemiesVsPlayerPhase st))
  have hBh : (shieldPickupsPhase
      (weaponPickupsPhase (enemiesVsPlayerPhase st))).healthPickups = [] := by
    rw [hB5, hA5, h3hp]
  have ph4 := healthPickupsPhase_eq_self _ hBh
  obtain ⟨hC1, hC2, hC3, hC4, hC5⟩ :=
    ammoPickupsPhase_preserves
      (shieldPickupsPhase (weaponPickupsPhase (enemiesVsPlayerPhase st)))
  have hCt : (ammoPickupsPhase (shieldPickupsPhase
      (weaponPickupsPhase (enemiesVsPlayerPhase st)))).thrownWeapons = [] := by
    rw [hC4, hB4, hA4, h3t]
  have ph5 := thrownVsEnemiesPhase_eq_self _ hCt
  have hcc : checkCollisions st =
      ammoPickupsPhase (shieldPickupsPhase
        (weaponPickupsPhase (enemiesVsPlayerPhase st))) := by
    unfold checkCollisions
    rw [ph1, ph2, ph4, ph5]
  have hfh : (checkCollisions st).player.health = 0 := by
    rw [hcc, hC1, hB1, hA1, h3h]
  have hfe : (checkCollisions st).enemies = l1 ++ l2 := by
    rw [hcc, hC2, hB2, hA2, h3e]
  have hfg : (checkCollisions st).gameOverCalls = st.gameOverCalls := by
    rw [hcc, hC3, hB3, hA3, h3g]
  refine ⟨?_, ?_, ?_⟩
  · rw [(collisionsAndGameOver_fields st).1, gameOverCheck_player]
    exact hfh
  · rw [(collisionsAndGameOver_fields st).2.1, gameOverCheck_enemies]
    exact hfe
  · rw [(collisionsAndGameOver_fields st).2.2,
      gameOverCheck_fires _ (le_of_eq hfh), hfg]

/-- Claim C4: collideCircle resolves each axis independently.  On a checked
axis (the movement sign is non-zero) whose probe tile is wall or glass, the
returned coordinate places the radius-extended edge exactly on a boundary
of that tile — never strictly inside it; when the probe tile is anything
else (door, empty, spawn), or the axis did not move, the coordinate passes
through unchanged, so the clamping slides along walls rather than rejecting
the move. -/
theorem c4_collide_slide (m : TileMapData) (fromPos toPos : Vec2)
    (radius : ℝ) (n0 : Vec2)
    (hn0 : m.breakableObjects.foldl (pushOutOfObject radius) toPos = n0)
    (sx sy : ℝ) (hsx : jsSign (n0.x - fromPos.x) = sx)
    (hsy : jsSign (n0.y - fromPos.y) = sy)
    (tX cY : ℤ) (htX : ⌊(n0.x + sx * radius) / 40⌋ = tX)
    (hcY : ⌊(n0.y + sy * radius) / 40⌋ = cY) :
    ((sx = 0 ∨ (m.get tX ⌊fromPos.y / 40⌋ ≠ .wall ∧
        m.get tX ⌊fromPos.y / 40⌋ ≠ .glass)) →
      (collideCircle m fromPos toPos radius).x = n0.x) ∧
    (sx ≠ 0 →
      (m.get tX ⌊fromPos.y / 40⌋ = .wall ∨
        m.get tX ⌊fromPos.y / 40⌋ = .glass) →
      ((collideCircle m fromPos toPos radius).x + sx * radius =
          (tX : ℝ) * 40 ∨
        (collideCircle m fromPos toPos radius).x + sx * radius =
          (tX : ℝ) * 40 + 40) ∧
      ¬((tX : ℝ) * 40 < (collideCircle m fromPos toPos radius).x + sx * radius ∧
        (collideCircle m fromPos toPos radius).x + sx * radius <
          (tX : ℝ) * 40 + 40)) ∧
    ((sy = 0 ∨ (m.get ⌊(collideCircle m fromPos toPos radius).x / 40⌋ cY ≠ .wall ∧
        m.get ⌊(collideCircle m fromPos toPos radius).x / 40⌋ cY ≠ .glass)) →
      (collideCircle m fromPos toPos radius).y = n0.y) ∧
    (sy ≠ 0 →
      (m.get ⌊(collideCircle m fromPos toPos radius).x / 40⌋ cY = .wall ∨
        m.get ⌊(collideCircle m fromPos toPos radius).x / 40⌋ cY = .glass) →
      ((collideCircle m fromPos toPos radius).y + sy * radius =
          (cY : ℝ) * 40 ∨
        (collideCircle m fromPos toPos radius).y + sy * radius =
          (cY : ℝ) * 40 + 40) ∧
      ¬((cY : ℝ) * 40 < (collideCircle m fromPos toPos radius).y + sy * radius ∧
        (collideCircle m fromPos toPos radius).y + sy * radius <
          (cY : ℝ) * 40 + 40)) := by
  have hx : (collideCircle m fromPos toPos radius).x =
      (if sx ≠ 0 then
        (if m.get tX ⌊fromPos.y / 40⌋ = .wall ∨
            m.get tX ⌊fromPos.y / 40⌋ = .glass then
          (tX : ℝ) * 40 - sx * radius - (if 0 < sx then 0 else (-40 : ℝ))
        else n0.x)
      else n0.x) := by
    simp only [collideCircle]
    rw [hn0, hsx, htX]
  have hy : (collideCircle m fromPos toPos radius).y =
      (if sy ≠ 0 then
        (if m.get ⌊(collideCircle m fromPos toPos radius).x / 40⌋ cY = .wall ∨
            m.get ⌊(collideCircle m fromPos toPos radius).x / 40⌋ cY = .glass then
          (cY : ℝ) * 40 - sy * radius - (if 0 < sy then 0 else (-40 : ℝ))
        else n0.y)
      else n0.y) := by
    simp only [collideCircle]
    rw [hn0, hsx, htX, hsy, hcY, ← hx]
  refine ⟨?_, ?_, ?_, ?_⟩
  · intro h
    rw [hx]
    by_cases hsz : sx = 0
    · rw [if_neg (not_not_intro hsz)]
    · rcases h with h0 | hng
      · exact absurd h0 hsz
      · rw [if_pos hsz, if_neg fun hc => hc.elim hng.1 hng.2]
  · intro hsz hblk
    have hval : ((tX : ℝ) * 40 - sx * radius -
        (if 0 < sx then 0 else (-40 : ℝ))) + sx * radius =
        (if 0 < sx then (tX : ℝ) * 40 else (tX : ℝ) * 40 + 40) := by
      by_cases hpos : 0 < sx
      · rw [if_pos hpos, if_pos hpos]; ring
      · rw [if_neg hpos, if_neg hpos]; ring
    rw [hx, if_pos hsz, if_pos hblk, hval]
    by_cases hpos : 0 < sx
    · rw [if_pos hpos]
      exact ⟨Or.inl rfl, fun hc => lt_irrefl _ hc.1⟩
    · rw [if_neg hpos]
      exact ⟨Or.inr rfl, fun hc => lt_irrefl _ hc.2⟩
  · intro h
    rw [hy]
    by_cases hsz : sy = 0
    · rw [if_neg (not_not_intro hsz)]
    · rcases h with h0 | hng
      · exact absurd h0 hsz
      · rw [if_pos hsz, if_neg fun hc => hc.elim hng.1 hng.2]
  · intro hsz hblk
    have hval : ((cY : ℝ) * 40 - sy * radius -
        (if 0 < sy then 0 else (-40 : ℝ))) + sy * radius =
        (if 0 < sy then (cY : ℝ) * 40 else (cY : ℝ) * 40 + 40) := by
      by_cases hpos : 0 < sy
      · rw [if_pos hpos, if_pos hpos]; ring
      · rw [if_neg hpos, if_neg hpos]; ring
    rw [hy, if_pos hsz, if_pos hblk, hval]
    by_cases hpos : 0 < sy
    · rw [if_pos hpos]
      exact ⟨Or.inl rfl, fun hc => lt_irrefl _ hc.1⟩
    · rw [if_neg hpos]
      exact ⟨Or.inr rfl, fun hc => lt_irrefl _ hc.2⟩

/-- Witness for C4: moving right from (20,20) toward (100,20) with radius
15 on the wall fixture, the probe tile (2,0) is wall, so the returned x
clamps the radius-extended edge onto the tile boundary at 80, while the
unmoved y axis passes through unchanged. -/
theorem c4_collide_slide_witness :
    ((collideCircle wallMapFixture ⟨20, 20⟩ ⟨100, 20⟩ 15).x + 1 * 15 =
        ((2 : ℤ) : ℝ) * 40 ∨
      (collideCircle wallMapFixture ⟨20, 20⟩ ⟨100, 20⟩ 15).x + 1 * 15 =
        ((2 : ℤ) : ℝ) * 40 + 40) ∧
    ¬(((2 : ℤ) : ℝ) * 40 <
        (collideCircle wallMapFixture ⟨20, 20⟩ ⟨100, 20⟩ 15).x + 1 * 15 ∧
      (collideCircle wallMapFixture ⟨20, 20⟩ ⟨100, 20⟩ 15).x + 1 * 15 <
        ((2 : ℤ) : ℝ) * 40 + 40) ∧
    (collideCircle wallMapFixture ⟨20, 20⟩ ⟨100, 20⟩ 15).y = 20 := by
  have hsx1 : jsSign ((100 : ℝ) - 20) = 1 := by
    unfold jsSign
    rw [if_pos (show (0 : ℝ) < 100 - 20 by norm_num)]
  have hsy0 : jsSign ((20 : ℝ) - 20) = 0 := by
    unfold jsSign
    rw [if_neg (show ¬(0 : ℝ) < 20 - 20 by norm_num),
      if_neg (show ¬((20 : ℝ) - 20 < 0) by norm_num)]
  have htX2 : ⌊((100 : ℝ) + 1 * 15) / 40⌋ = (2 : ℤ) := by norm_num
  have hcY0 : ⌊((20 : ℝ) + 0 * 15) / 40⌋ = (0 : ℤ) := by norm_num
  have h := c4_collide_slide wallMapFixture ⟨20, 20⟩ ⟨100, 20⟩ 15 ⟨100, 20⟩
    rfl 1 0 hsx1 hsy0 2 0 htX2 hcY0
  have hB := h.2.1 (by norm_num)
    (Or.inl (by
      show wallMapFixture.get 2 ⌊(20 : ℝ) / 40⌋ = .wall
      rw [show ⌊(20 : ℝ) / 40⌋ = (0 : ℤ) by norm_num]
      decide))
  have hC := h.2.2.1 (Or.inl rfl)
  exact ⟨hB.1, hB.2, hC⟩

/-- Claim C5: in one enemy step of Game.update, the bullets produced by the
enemy's update are appended to the world bullet list exactly when the
sampled line of sight from the enemy to the player is clear; without a
sight line the bullet list is unchanged and the enemy still moves (its
update runs with the navigation move target). -/
theorem c5_los_gated_enemy_fire (scaledDelta : ℝ) (rSpread : ℕ → ℝ)
    (rCooldown : ℝ) (st : GameState) (e : Enemy) :
    (¬lineOfSight st.map e.position.x e.position.y
        st.player.position.x st.player.position.y →
      (processEnemyStep scaledDelta rSpread rCooldown st e).2.bullets =
          st.bullets ∧
        (processEnemyStep scaledDelta rSpread rCooldown st e).1 =
          (e.update scaledDelta
            (enemyMoveTarget st.map e.position st.player.position)
            (fun a b r => collideCircle st.map a b r) rSpread rCooldown).1) ∧
    (lineOfSight st.map e.position.x e.position.y
        st.player.position.x st.player.position.y →
      (processEnemyStep scaledDelta rSpread rCooldown st e).2.bullets =
        st.bullets ++
          (e.update scaledDelta st.player.position
            (fun a b r => collideCircle st.map a b r) rSpread rCooldown).2.1) := by
  constructor
  · intro hno
    simp only [processEnemyStep, if_neg hno]
    constructor
    · split <;> rfl
    · split <;> rfl
  · intro hyes
    simp only [processEnemyStep, if_pos hyes]
    split <;> rfl

/-- Witness for C5: on the wall fixture the tile (0,1) blocks the sampled
sight line, so the enemy step leaves the bullet list unchanged; on the
all-empty map the same placement has a clear line, and the produced bullets
are appended. -/
theorem c5_los_gated_enemy_fire_witness :
    (¬lineOfSight wallMapFixture 20 20 20 100 ∧
      (processEnemyStep 16 rnd0 0 c5StateFixture c5Enemy).2.bullets =
        c5StateFixture.bullets) ∧
    (lineOfSight emptyMapFixture 20 20 20 100 ∧
      (processEnemyStep 16 rnd0 0 c5OpenStateFixture c5Enemy).2.bullets =
        c5OpenStateFixture.bullets ++
          (c5Enemy.update 16 c5OpenStateFixture.player.position
            (fun a b r => collideCircle c5OpenStateFixture.map a b r)
            rnd0 0).2.1) := by
  have hs80 : Real.sqrt (((20 : ℝ) - 20) ^ 2 + ((100 : ℝ) - 20) ^ 2) = 80 := by
    rw [show ((20 : ℝ) - 20) ^ 2 + ((100 : ℝ) - 20) ^ 2 = 80 ^ 2 by norm_num]
    exact Real.sqrt_sq (by norm_num)
  have hS : (max 1
      ⌊Real.sqrt (((20 : ℝ) - 20) ^ 2 + ((100 : ℝ) - 20) ^ 2) /
        ((40 : ℝ) / 2)⌋ : ℤ) = 4 := by
    rw [hs80]
    norm_num
  have hno : ¬lineOfSight wallMapFixture 20 20 20 100 := by
    simp only [lineOfSight]
    rw [hS]
    intro hall
    have h1 := hall 1 (by decide)
    norm_num at h1
    exact h1.1 (by decide)
  have hlos : lineOfSight emptyMapFixture 20 20 20 100 := by
    simp only [lineOfSight]
    rw [hS]
    intro i hi
    rw [Finset.mem_Icc] at hi
    obtain ⟨hi0, hi4⟩ := hi
    interval_cases i <;> norm_num <;> decide
  constructor
  · exact ⟨hno,
      ((c5_los_gated_enemy_fire 16 rnd0 0 c5StateFixture c5Enemy).1 hno).1⟩
  · exact ⟨hlos,
      (c5_los_gated_enemy_fire 16 rnd0 0 c5OpenStateFixture c5Enemy).2 hlos⟩

/-- Witness for C9: in the fixture state (health 1, shield 0, one enemy 10
pixels away) the collision stage kills the player, removes the enemy and
fires the game-over callback once. -/
theorem c9_lethal_collision_witness :
    enemyTouchesPlayer c9StateFixture.player c9Enemy ∧
    (collisionsAndGameOver c9StateFixture).player.health = 0 ∧
    (collisionsAndGameOver c9StateFixture).enemies = [] ∧
    (collisionsAndGameOver c9StateFixture).gameOverCalls =
      c9StateFixture.gameOverCalls + 1 := by
  have he : enemyTouchesPlayer c9StateFixture.player c9Enemy := by
    show Vec2.length _ < 20
    simp only [c9StateFixture, baseState, Player.make, c9Enemy,
      Vec2.subtract, Vec2.length]
    rw [show ((110 : ℝ) - 100) ^ 2 + ((100 : ℝ) - 100) ^ 2 = 10 ^ 2 by
        norm_num,
      Real.sqrt_sq (by norm_num : (0 : ℝ) ≤ 10)]
    norm_num
  have h := c9_lethal_collision c9StateFixture [] [] c9Enemy rfl rfl rfl rfl
    rfl rfl (by intro x hx; cases hx) (by intro x hx; cases hx) he
  exact ⟨he, h.1, h.2.1, h.2.2⟩

set_option maxRecDepth 10000 in
theorem c7_place_eq :
    TileMapData.createRoomsWithHallways c7Hall [(6, 6, 4, 12)] = c7Placed := by
  have hq : TileMapData.roomClearOfHallways c7Hall.rows 12 6 := by
    rw [show c7Hall.rows = 30 from by decide]
    unfold TileMapData.roomClearOfHallways TileMapData.qabs
    norm_num
  simp only [TileMapData.createRoomsWithHallways, List.foldl_cons, List.foldl_nil]
  simp only [TileMapData.tryPlaceRoom]
  rw [if_neg (by decide : ¬(14 ≤ c7Hall.rooms.length)),
    if_pos (⟨by decide, hq⟩ :
      TileMapData.roomOverlaps c7Hall.rooms 4 12 6 6 = false ∧
        TileMapData.roomClearOfHallways c7Hall.rows 12 6)]
  rfl

set_option maxRecDepth 10000 in
theorem c7_create_eq : TileMapData.create 600 1200 [(6, 6, 4, 12)] =
    TileMapData.createAllRoomEquipment
      (TileMapData.createSpawnTiles
        (TileMapData.connectRoomsToHallways c7Placed)) := by
  show TileMapData.createAllRoomEquipment
      (TileMapData.createSpawnTiles
        (TileMapData.connectRoomsToHallways
          (TileMapData.createRoomsWithHallways c7Hall [(6, 6, 4, 12)]))) = _
  rw [c7_place_eq]

set_option maxRecDepth 10000 in
/-- Counterexample to C7 as stated: in the 600 x 1200 facility generated
from the single successful placement attempt (6, 6, 4, 12), the generated
room list holds the room with rectangle x=4, y=12, w=6, h=6, the tile
(7, 15) is strictly inside that rectangle, and yet its type is spawn (the
room-centre spawn marker), not empty. -/
theorem c7_room_interior_counterexample :
    ((TileMapData.create 600 1200 [(6, 6, 4, 12)]).rooms.map
        fun r => (r.x, r.y, r.w, r.h)) = [(4, 12, 6, 6)] ∧
    (∀ r ∈ (TileMapData.create 600 1200 [(6, 6, 4, 12)]).rooms,
      strictlyInsideRoom r 7 15) ∧
    (TileMapData.create 600 1200 [(6, 6, 4, 12)]).get 7 15 = .spawn := by
  rw [c7_create_eq]
  refine ⟨by decide, ?_, by decide⟩
  decide

theorem listGetD_set_ne {α} (l : List α) (i j : ℕ) (v d : α) (h : i ≠ j) :
    (l.set i v).getD j d = l.getD j d := by
  rw [List.getD_eq_getElem?_getD, List.getD_eq_getElem?_getD,
    List.getElem?_set_ne h]

theorem listGetD_set_self {α} (l : List α) (i : ℕ) (v d : α)
    (h : i < l.length) : (l.set i v).getD i d = v := by
  rw [List.getD_eq_getElem?_getD, List.getElem?_set_self h]
  rfl

theorem set_meta (m : TileMapData) (x y : ℤ) (t : TileType) :
    (m.set x y t).cols = m.cols ∧ (m.set x y t).rows = m.rows ∧
    (m.set x y t).rooms = m.rooms := by
  unfold TileMapData.set
  split <;> exact ⟨rfl, rfl, rfl⟩

theorem set_Wf (m : TileMapData) (x y : ℤ) (t : TileType) (h : m.Wf) :
    (m.set x y t).Wf := by
  unfold TileMapData.set
  split_ifs with hg
  · exact h
  · obtain ⟨h1, h2⟩ := h
    constructor
    · show (m.tiles.set _ _).length = m.rows
      rw [List.length_set]
      exact h1
    · intro row hrow
      rcases List.mem_or_eq_of_mem_set hrow with hmem | heq
      · exact h2 row hmem
      · rw [heq, List.length_set]
        have hb : y.toNat < m.tiles.length := by
          rw [h1]
          omega
        rw [List.getD_eq_getElem _ _ hb]
        exact h2 _ (List.getElem_mem hb)

theorem get_set_ne (m : TileMapData) (x y a b : ℤ) (t : TileType)
    (h : a ≠ x ∨ b ≠ y) : (m.set x y t).get a b = m.get a b := by
  unfold TileMapData.set
  split_ifs with hg
  · rfl
  · simp only [TileMapData.get]
    split_ifs with hg2
    · rfl
    · by_cases hby : b.toNat = y.toNat
      · have hbEq : b = y := by omega
        have haNe : a ≠ x := by
          rcases h with h | h
          · exact h
          · exact absurd hbEq h
        rw [hby]
        by_cases hlen : y.toNat < m.tiles.length
        · rw [listGetD_set_self _ _ _ _ hlen]
          rw [listGetD_set_ne]
          omega
        · rw [List.set_eq_of_length_le (le_of_not_lt hlen)]
      · rw [listGetD_set_ne _ _ _ _ _ (fun hc => hby hc.symm)]

theorem get_set_self_or (m : TileMapData) (x y : ℤ) (t : TileType) :
    (m.set x y t).get x y = m.get x y ∨ (m.set x y t).get x y = t := by
  unfold TileMapData.set
  split_ifs with hg
  · left; rfl
  · simp only [TileMapData.get, if_neg hg]
    by_cases hlen : y.toNat < m.tiles.length
    · rw [listGetD_set_self _ _ _ _ hlen]
      by_cases hlen2 : x.toNat < (m.tiles.getD y.toNat []).length
      · right
        rw [listGetD_set_self _ _ _ _ hlen2]
      · left
        rw [List.set_eq_of_length_le (le_of_not_lt hlen2)]
    · left
      rw [List.set_eq_of_length_le (le_of_not_lt hlen)]

theorem get_set_or (m : TileMapData) (x y a b : ℤ) (t : TileType) :
    (m.set x y t).get a b = m.get a b ∨ (m.set x y t).get a b = t := by
  by_cases h : a = x ∧ b = y
  · obtain ⟨ha, hb⟩ := h
    rw [ha, hb]
    exact get_set_self_or m x y t
  · left
    refine get_set_ne m x y a b t ?_
    by_cases ha : a = x
    · exact Or.inr fun hb => h ⟨ha, hb⟩
    · exact Or.inl ha

theorem get_set_self (m : TileMapData) (x y : ℤ) (t : TileType) (hWf : m.Wf)
    (hx : 0 ≤ x) (hy : 0 ≤ y) (hx2 : x < (m.cols : ℤ))
    (hy2 : y < (m.rows : ℤ)) : (m.set x y t).get x y = t := by
  obtain ⟨h1, h2⟩ := hWf
  have hg : ¬(x < 0 ∨ y < 0 ∨ (m.cols : ℤ) ≤ x ∨ (m.rows : ℤ) ≤ y) := by
    omega
  unfold TileMapData.set
  rw [if_neg hg]
  simp only [TileMapData.get]
  rw [if_neg hg]
  have hlen : y.toNat < m.tiles.length := by
    rw [h1]
    omega
  rw [listGetD_set_self _ _ _ _ hlen]
  have hrow : (m.tiles.getD y.toNat []).length = m.cols := by
    rw [List.getD_eq_getElem _ _ hlen]
    exact h2 _ (List.getElem_mem hlen)
  have hlen2 : x.toNat < (m.tiles.getD y.toNat []).length := by
    rw [hrow]
    omega
  rw [listGetD_set_self _ _ _ _ hlen2]

theorem foldl_rec {α β : Type} (P : β → Prop) (f : β → α → β) :
    ∀ (l : List α) (b : β), (∀ acc, ∀ x ∈ l, P acc → P (f acc x)) →
      P b → P (l.foldl f b)
  | [], _, _, hb => hb
  | x :: rest, b, hf, hb =>
      foldl_rec P f rest (f b x)
        (fun acc z hz hacc => hf acc z (List.mem_cons_of_mem _ hz) hacc)
        (hf b x (List.mem_cons_self _ _) hb)

theorem carveStep_set (sx sy : ℤ) :
    CarveStep (fun mm => mm.set sx sy .empty) := by
  intro mm
  obtain ⟨h1, h2, h3⟩ := set_meta mm sx sy .empty
  exact ⟨h1, h2, h3, set_Wf mm sx sy .empty,
    fun a b => get_set_or mm sx sy a b .empty⟩

theorem carveStep_foldl {α : Type} (f : TileMapData → α → TileMapData)
    (l : List α) (hf : ∀ x ∈ l, CarveStep (fun mm => f mm x)) :
    CarveStep (fun mm => l.foldl f mm) := by
  intro mm
  refine foldl_rec
    (fun acc => acc.cols = mm.cols ∧ acc.rows = mm.rows ∧
      acc.rooms = mm.rooms ∧ (mm.Wf → acc.Wf) ∧
      ∀ a b, acc.get a b = mm.get a b ∨ acc.get a b = TileType.empty)
    f l mm ?_ ⟨rfl, rfl, rfl, id, fun _ _ => Or.inl rfl⟩
  intro acc x hx ⟨hc, hr, hrm, hwf, hget⟩
  obtain ⟨g1, g2, g3, g4, g5⟩ := hf x hx acc
  refine ⟨g1.trans hc, g2.trans hr, g3.trans hrm, fun hw => g4 (hwf hw), ?_⟩
  intro a b
  rcases g5 a b with h | h
  · rw [h]
    exact hget a b
  · exact Or.inr h

theorem carveStep_comp (g g' : TileMapData → TileMapData)
    (hg : CarveStep g) (hg' : CarveStep g') :
    CarveStep (fun mm => g' (g mm)) := by
  intro mm
  obtain ⟨h1, h2, h3, h4, h5⟩ := hg mm
  obtain ⟨g1, g2, g3, g4, g5⟩ := hg' (g mm)
  refine ⟨g1.trans h1, g2.trans h2, g3.trans h3, fun hw => g4 (h4 hw), ?_⟩
  intro a b
  rcases g5 a b with h | h
  · rw [h]
    exact h5 a b
  · exact Or.inr h

theorem carveStep_id : CarveStep (fun mm => mm) :=
  fun _ => ⟨rfl, rfl, rfl, id, fun _ _ => Or.inl rfl⟩

theorem mem_rangeZ {a : ℤ} {n : ℕ} {b : ℤ} :
    b ∈ rangeZ a n ↔ a ≤ b ∧ b < a + n := by
  unfold rangeZ
  constructor
  · intro hb
    obtain ⟨i, hi, hb⟩ := List.mem_map.mp hb
    have hin := List.mem_range.mp hi
    omega
  · intro h
    exact List.mem_map.mpr
      ⟨(b - a).toNat, List.mem_range.mpr (by omega), by omega⟩

theorem rangeZ_succ (a : ℤ) (n : ℕ) :
    rangeZ a (n + 1) = rangeZ a n ++ [a + n] := by
  unfold rangeZ
  rw [List.range_succ, List.map_append]
  rfl

theorem row_carve_get_empty (ry a x : ℤ) (wn : ℕ) :
    ∀ (mm : TileMapData), mm.Wf →
      x ≤ a → a < x + wn → 0 ≤ a → a < (mm.cols : ℤ) →
      0 ≤ ry → ry < (mm.rows : ℤ) →
      ((rangeZ x wn).foldl (fun mm2 rx => mm2.set rx ry .empty) mm).get a ry =
        .empty := by
  induction wn with
  | zero =>
      intro mm _ h1 h2 _ _ _ _
      exfalso
      omega
  | succ n ih =>
      intro mm hwf h1 h2 h3 h4 h5 h6
      rw [rangeZ_succ, List.foldl_append]
      simp only [List.foldl_cons, List.foldl_nil]
      obtain ⟨hc, hr, _, hwf2, hget⟩ :=
        carveStep_foldl (fun mm2 rx => mm2.set rx ry .empty) (rangeZ x n)
          (fun rx _ => carveStep_set rx ry) mm
      by_cases ha : a = x + n
      · rw [ha]
        exact get_set_self _ _ _ _ (hwf2 hwf) (by omega) h5
          (by rw [hc]; omega) (by rw [hr]; omega)
      · rw [get_set_ne _ _ _ _ _ _ (Or.inl ha)]
        exact ih mm hwf h1 (by omega) h3 h4 h5 h6

theorem carve_rect_get_empty (x y a b : ℤ) (wn hn : ℕ) :
    ∀ (mm : TileMapData), mm.Wf →
      x ≤ a → a < x + wn → y ≤ b → b < y + hn →
      0 ≤ x → x + wn ≤ (mm.cols : ℤ) → 0 ≤ y → y + hn ≤ (mm.rows : ℤ) →
      ((rangeZ y hn).foldl
        (fun mm2 ry => (rangeZ x wn).foldl
          (fun mm3 rx => mm3.set rx ry .empty) mm2) mm).get a b = .empty := by
  induction hn with
  | zero =>
      intro mm _ _ _ h3 h4 _ _ _ _
      exfalso
      omega
  | succ n ih =>
      intro mm hwf h1 h2 h3 h4 h5 h6 h7 h8
      rw [rangeZ_succ, List.foldl_append]
      simp only [List.foldl_cons, List.foldl_nil]
      obtain ⟨hc, hr, _, hwf2, hget⟩ :=
        carveStep_foldl
          (fun mm2 ry => (rangeZ x wn).foldl
            (fun mm3 rx => mm3.set rx ry .empty) mm2) (rangeZ y n)
          (fun ry _ => carveStep_foldl _ _ fun rx _ => carveStep_set rx ry) mm
      by_cases hb : b = y + n
      · rw [hb]
        exact row_carve_get_empty (y + n) a x wn _ (hwf2 hwf) h1 h2
          (by omega) (by rw [hc]; omega) (by omega) (by rw [hr]; omega)
      · obtain ⟨_, _, _, _, hget2⟩ :=
          carveStep_foldl (fun mm3 rx => mm3.set rx (y + (n : ℤ)) .empty)
            (rangeZ x wn) (fun rx _ => carveStep_set rx (y + (n : ℤ))) _
        rcases hget2 a b with h | h
        · rw [h]
          exact ih mm hwf h1 h2 h3 (by omega) h5 h6 h7 (by omega)
        · exact h

theorem overlaps_false_sep (placed : List Room) (x y w h : ℤ)
    (hov : TileMapData.roomOverlaps placed x y w h = false) :
    ∀ ex ∈ placed, ex.x + ex.w + 3 ≤ x ∨ x + w + 3 ≤ ex.x ∨
      ex.y + ex.h + 3 ≤ y ∨ y + h + 3 ≤ ex.y := by
  intro ex hex
  unfold TileMapData.roomOverlaps at hov
  rw [List.any_eq_false] at hov
  have hpe := hov ex hex
  have h3 : ¬(x < ex.x + ex.w + 3 ∧ ex.x < x + w + 3 ∧
      y < ex.y + ex.h + 3 ∧ ex.y < y + h + 3) := by
    intro hc
    have htrue : (decide (x < ex.x + ex.w + 3) && decide (ex.x < x + w + 3) &&
        decide (y < ex.y + ex.h + 3) && decide (ex.y < y + h + 3)) = true := by
      simp only [Bool.and_eq_true, decide_eq_true_eq]
      exact ⟨⟨⟨hc.1, hc.2.1⟩, hc.2.2.1⟩, hc.2.2.2⟩
    exact hpe htrue
  omega

theorem carveStep_chain {α : Type} (f : TileMapData → α → TileMapData)
    (l : List α) (hf : ∀ x ∈ l, CarveStep (fun mm => f mm x))
    (m0 m1 : TileMapData)
    (h1 : m1.cols = m0.cols) (h2 : m1.rows = m0.rows)
    (h3 : m1.rooms = m0.rooms) (h4 : m0.Wf → m1.Wf)
    (h5 : ∀ a b, m1.get a b = m0.get a b ∨ m1.get a b = TileType.empty) :
    (l.foldl f m1).cols = m0.cols ∧ (l.foldl f m1).rows = m0.rows ∧
    (l.foldl f m1).rooms = m0.rooms ∧ (m0.Wf → (l.foldl f m1).Wf) ∧
    ∀ a b, (l.foldl f m1).get a b = m0.get a b ∨
      (l.foldl f m1).get a b = TileType.empty := by
  obtain ⟨g1, g2, g3, g4, g5⟩ := carveStep_foldl f l hf m1
  refine ⟨g1.trans h1, g2.trans h2, g3.trans h3, fun hw => g4 (h4 hw), ?_⟩
  intro a b
  rcases g5 a b with h' | h'
  · rw [h']
    exact h5 a b
  · exact Or.inr h'

theorem createMainHallways_carveStep :
    CarveStep TileMapData.createMainHallways := by
  intro mm
  simp only [TileMapData.createMainHallways]
  obtain ⟨h1, h2, h3, h4, h5⟩ :=
    carveStep_foldl
      (fun mm0 hallY => (rangeZ 2 (mm0.cols - 4)).foldl
        (fun mm2 x => ([-1, 0, 1] : List ℤ).foldl
          (fun mm3 dy => mm3.set x (hallY + dy) .empty) mm2) mm0)
      [((mm.rows / 3 : ℕ) : ℤ), ((mm.rows * 2 / 3 : ℕ) : ℤ)]
      (fun hallY _ mm0 =>
        carveStep_foldl _ _
          (fun x _ => carveStep_foldl _ _ fun dy _ => carveStep_set x (hallY + dy))
          mm0)
      mm
  exact carveStep_chain
    (fun mm1 i => (rangeZ 2 (mm1.rows - 4)).foldl
      (fun mm2 y => ([-1, 0, 1] : List ℤ).foldl
        (fun mm3 dx => mm3.set
          (2 + (((i + 1) * (mm1.cols - 4) / (max 3 (mm.cols / 18) + 1) : ℕ) : ℤ)
            + dx) y .empty) mm2) mm1)
    (List.range (max 3 (mm.cols / 18)))
    (fun i _ acc =>
      carveStep_foldl _ _
        (fun y _ => carveStep_foldl _ _ fun dx _ => carveStep_set _ y) acc)
    mm _ h1 h2 h3 h4 h5

theorem set_cols (m : TileMapData) (x y : ℤ) (t : TileType) :
    (m.set x y t).cols = m.cols := (set_meta m x y t).1

theorem set_rows (m : TileMapData) (x y : ℤ) (t : TileType) :
    (m.set x y t).rows = m.rows := (set_meta m x y t).2.1

theorem set_rooms (m : TileMapData) (x y : ℤ) (t : TileType) :
    (m.set x y t).rooms = m.rooms := (set_meta m x y t).2.2

theorem carveCorridor_carveStep (x1 y1 x2 y2 : ℤ) :
    CarveStep (fun mm => TileMapData.carveCorridor mm x1 y1 x2 y2) := by
  intro mm
  simp only [TileMapData.carveCorridor]
  obtain ⟨h1, h2, h3, h4, h5⟩ :=
    carveStep_foldl
      (fun mm0 x => (rangeZTo (-2) 2).foldl
        (fun mm2 k => mm2.set x (y1 + k) .empty) mm0)
      (rangeZTo (min x1 x2) (max x1 x2))
      (fun x _ mm0 =>
        carveStep_foldl _ _ (fun k _ => carveStep_set x (y1 + k)) mm0)
      mm
  exact carveStep_chain
    (fun mm1 y => (rangeZTo (-2) 2).foldl
      (fun mm2 k => mm2.set (x2 + k) y .empty) mm1)
    (rangeZTo (min y1 y2) (max y1 y2))
    (fun y _ acc =>
      carveStep_foldl _ _ (fun k _ => carveStep_set (x2 + k) y) acc)
    mm _ h1 h2 h3 h4 h5

theorem addWideDoor_meta (m : TileMapData) (sx sy : ℤ) (dir : DoorDir) :
    (TileMapData.addWideDoor m sx sy dir).cols = m.cols ∧
    (TileMapData.addWideDoor m sx sy dir).rows = m.rows ∧
    (TileMapData.addWideDoor m sx sy dir).rooms = m.rooms ∧
    (m.Wf → (TileMapData.addWideDoor m sx sy dir).Wf) := by
  cases dir <;>
    exact ⟨by simp only [TileMapData.addWideDoor, set_cols],
      by simp only [TileMapData.addWideDoor, set_rows],
      by simp only [TileMapData.addWideDoor, set_rooms],
      fun hw => set_Wf _ _ _ _ (set_Wf _ _ _ _ (set_Wf _ _ _ _ hw))⟩

theorem addWideDoor_get_ne_h (m : TileMapData) (sx sy a b : ℤ)
    (h1 : ¬(a = sx ∧ b = sy - 1)) (h2 : ¬(a = sx ∧ b = sy))
    (h3 : ¬(a = sx ∧ b = sy + 1)) :
    (TileMapData.addWideDoor m sx sy .horizontal).get a b = m.get a b := by
  simp only [TileMapData.addWideDoor]
  rw [get_set_ne _ _ _ _ _ _ (not_and_or.mp h3),
    get_set_ne _ _ _ _ _ _ (not_and_or.mp h2),
    get_set_ne _ _ _ _ _ _ (not_and_or.mp h1)]

theorem addWideDoor_get_ne_v (m : TileMapData) (sx sy a b : ℤ)
    (h4 : ¬(a = sx - 1 ∧ b = sy)) (h2 : ¬(a = sx ∧ b = sy))
    (h5 : ¬(a = sx + 1 ∧ b = sy)) :
    (TileMapData.addWideDoor m sx sy .vertical).get a b = m.get a b := by
  simp only [TileMapData.addWideDoor]
  rw [get_set_ne _ _ _ _ _ _ (not_and_or.mp h5),
    get_set_ne _ _ _ _ _ _ (not_and_or.mp h2),
    get_set_ne _ _ _ _ _ _ (not_and_or.mp h4)]

theorem rect_avoids_doorTiles (room rp : Room) (a b : ℤ)
    (hin : inRoomRect rp a b)
    (hcase : rp = room ∨ roomsSeparated rp room)
    (hw : 0 ≤ room.w) (hh : 0 ≤ room.h) :
    (a, b) ∉ doorTiles room := by
  obtain ⟨hi1, hi2, hi3, hi4⟩ := hin
  intro hp
  simp only [doorTiles, List.mem_cons, List.not_mem_nil, or_false,
    Prod.mk.injEq] at hp
  rcases hcase with rfl | hsep
  · omega
  · unfold roomsSeparated at hsep
    omega

theorem tryPlaceRoom_inv (m : TileMapData) (att : ℤ × ℤ × ℤ × ℤ)
    (hatt : roomCandidateOk m.cols m.rows att) (hinv : RoomsInv m) :
    RoomsInv (TileMapData.tryPlaceRoom m att) := by
  obtain ⟨hwf, hgeom, hpair, hempty⟩ := hinv
  obtain ⟨ha1, ha2, ha3, ha4, ha5, ha6, ha7, ha8⟩ := hatt
  simp only [TileMapData.tryPlaceRoom]
  split_ifs with h14 hg
  · exact ⟨hwf, hgeom, hpair, hempty⟩
  · obtain ⟨hov, hclear⟩ := hg
    have hCS := carveStep_foldl
      (fun mm ry => (rangeZ att.2.2.1 att.1.toNat).foldl
        (fun mm2 rx => mm2.set rx ry .empty) mm)
      (rangeZ att.2.2.2 att.2.1.toNat)
      (fun ry _ mm0 =>
        carveStep_foldl _ _ (fun rx _ => carveStep_set rx ry) mm0)
      m
    have hRect : ∀ a b, att.2.2.1 ≤ a → a ≤ att.2.2.1 + att.1 - 1 →
        att.2.2.2 ≤ b → b ≤ att.2.2.2 + att.2.1 - 1 →
        ((rangeZ att.2.2.2 att.2.1.toNat).foldl
          (fun mm ry => (rangeZ att.2.2.1 att.1.toNat).foldl
            (fun mm2 rx => mm2.set rx ry .empty) mm) m).get a b = .empty := by
      intro a b hb1 hb2 hb3 hb4
      exact carve_rect_get_empty att.2.2.1 att.2.2.2 a b att.1.toNat
        att.2.1.toNat m hwf hb1 (by omega) hb3 (by omega) (by omega)
        (by omega) (by omega) (by omega)
    set M := ((rangeZ att.2.2.2 att.2.1.toNat).foldl
      (fun mm ry => (rangeZ att.2.2.1 att.1.toNat).foldl
        (fun mm2 rx => mm2.set rx ry .empty) mm) m) with hMdef
    obtain ⟨hc2, hr2, hm2, hwf2, hget2⟩ := hCS
    refine ⟨hwf2 hwf, ?_, ?_, ?_⟩
    · intro r hr
      rcases List.mem_append.mp hr with hold | hnew
      · rw [hm2] at hold
        have hgr := hgeom r hold
        show roomGeomOK M.cols M.rows r
        rw [hc2, hr2]
        exact hgr
      · rw [List.mem_singleton] at hnew
        subst hnew
        show roomGeomOK M.cols M.rows _
        rw [hc2, hr2]
        have hxw : att.2.2.1 + att.1 ≤ (m.cols : ℤ) - 5 := by omega
        have hyh : att.2.2.2 + att.2.1 ≤ (m.rows : ℤ) - 5 := by omega
        exact ⟨ha1, ha2, ha3, ha4, ha5, hxw, ha7, hyh⟩
    · show List.Pairwise roomsSeparated (M.rooms ++ _)
      rw [hm2, List.pairwise_append]
      refine ⟨hpair, List.pairwise_singleton _ _, ?_⟩
      intro a ha' b hb'
      rw [List.mem_singleton] at hb'
      subst hb'
      exact overlaps_false_sep m.rooms att.2.2.1 att.2.2.2 att.1 att.2.1
        hov a ha'
    · intro r hr a b hin
      show M.get a b = TileType.empty
      rcases List.mem_append.mp hr with hold | hnew
      · rw [hm2] at hold
        rcases hget2 a b with h | h
        · rw [h]
          exact hempty r hold a b hin
        · exact h
      · rw [List.mem_singleton] at hnew
        subst hnew
        obtain ⟨hi1, hi2, hi3, hi4⟩ := hin
        exact hRect a b hi1 hi2 hi3 hi4
  · exact ⟨hwf, hgeom, hpair, hempty⟩

theorem createDoorToHallway_facts (mp : TileMapData) (room : Room) (a b : ℤ)
    (hsafe : (a, b) ∉ doorTiles room) :
    (TileMapData.createDoorToHallway mp room).1.cols = mp.cols ∧
    (TileMapData.createDoorToHallway mp room).1.rows = mp.rows ∧
    (TileMapData.createDoorToHallway mp room).1.rooms = mp.rooms ∧
    (mp.Wf → (TileMapData.createDoorToHallway mp room).1.Wf) ∧
    ((TileMapData.createDoorToHallway mp room).1.get a b = mp.get a b ∨
      (TileMapData.createDoorToHallway mp room).1.get a b = TileType.empty) ∧
    (TileMapData.createDoorToHallway mp room).2.x = room.x ∧
    (TileMapData.createDoorToHallway mp room).2.y = room.y ∧
    (TileMapData.createDoorToHallway mp room).2.w = room.w ∧
    (TileMapData.createDoorToHallway mp room).2.h = room.h := by
  simp only [doorTiles, List.mem_cons, List.not_mem_nil, or_false, not_or,
    Prod.mk.injEq] at hsafe
  obtain ⟨s1, s2, s3, s4, s5, s6, s7, s8, s9, s10, s11, s12⟩ := hsafe
  have hWideH : ∀ (mm : TileMapData) (sx sy : ℤ),
      (¬(a = sx ∧ b = sy - 1)) → (¬(a = sx ∧ b = sy)) →
      (¬(a = sx ∧ b = sy + 1)) →
      ∀ dir, dir = DoorDir.horizontal →
      (mm.cols = mp.cols ∧ mm.rows = mp.rows ∧ mm.rooms = mp.rooms ∧
        (mp.Wf → mm.Wf) ∧
        (mm.get a b = mp.get a b ∨ mm.get a b = TileType.empty)) →
      ((TileMapData.addWideDoor mm sx sy dir).cols = mp.cols ∧
        (TileMapData.addWideDoor mm sx sy dir).rows = mp.rows ∧
        (TileMapData.addWideDoor mm sx sy dir).rooms = mp.rooms ∧
        (mp.Wf → (TileMapData.addWideDoor mm sx sy dir).Wf) ∧
        ((TileMapData.addWideDoor mm sx sy dir).get a b = mp.get a b ∨
          (TileMapData.addWideDoor mm sx sy dir).get a b = TileType.empty)) := by
    intro mm sx sy n1 n2 n3 dir hdir ⟨hc, hr, hm, hwf, hget⟩
    subst hdir
    obtain ⟨m1, m2, m3, m4⟩ := addWideDoor_meta mm sx sy .horizontal
    have hgne := addWideDoor_get_ne_h mm sx sy a b n1 n2 n3
    refine ⟨m1.trans hc, m2.trans hr, m3.trans hm, fun hw => m4 (hwf hw), ?_⟩
    rcases hget with h | h
    · exact Or.inl (hgne.trans h)
    · exact Or.inr (hgne.trans h)
  have hWideV : ∀ (mm : TileMapData) (sx sy : ℤ),
      (¬(a = sx - 1 ∧ b = sy)) → (¬(a = sx ∧ b = sy)) →
      (¬(a = sx + 1 ∧ b = sy)) →
      ∀ dir, dir = DoorDir.vertical →
      (mm.cols = mp.cols ∧ mm.rows = mp.rows ∧ mm.rooms = mp.rooms ∧
        (mp.Wf → mm.Wf) ∧
        (mm.get a b = mp.get a b ∨ mm.get a b = TileType.empty)) →
      ((TileMapData.addWideDoor mm sx sy dir).cols = mp.cols ∧
        (TileMapData.addWideDoor mm sx sy dir).rows = mp.rows ∧
        (TileMapData.addWideDoor mm sx sy dir).rooms = mp.rooms ∧
        (mp.Wf → (TileMapData.addWideDoor mm sx sy dir).Wf) ∧
        ((TileMapData.addWideDoor mm sx sy dir).get a b = mp.get a b ∨
          (TileMapData.addWideDoor mm sx sy dir).get a b = TileType.empty)) := by
    intro mm sx sy n1 n2 n3 dir hdir ⟨hc, hr, hm, hwf, hget⟩
    subst hdir
    obtain ⟨m1, m2, m3, m4⟩ := addWideDoor_meta mm sx sy .vertical
    have hgne := addWideDoor_get_ne_v mm sx sy a b n1 n2 n3
    refine ⟨m1.trans hc, m2.trans hr, m3.trans hm, fun hw => m4 (hwf hw), ?_⟩
    rcases hget with h | h
    · exact Or.inl (hgne.trans h)
    · exact Or.inr (hgne.trans h)
  simp only [TileMapData.createDoorToHallway, and_true]
  refine foldl_rec
    (fun (acc : TileMapData × List Door × ℕ) =>
      acc.1.cols = mp.cols ∧ acc.1.rows = mp.rows ∧ acc.1.rooms = mp.rooms ∧
      (mp.Wf → acc.1.Wf) ∧
      (acc.1.get a b = mp.get a b ∨ acc.1.get a b = TileType.empty))
    _ _ _ ?_ ?_
  · intro acc side hside hP
    by_cases h4c : 4 ≤ acc.2.2
    · simp only [if_pos h4c]
      exact hP
    · simp only [if_neg h4c]
      split
      · rename_i found _
        obtain ⟨hc, hr, hm, hwf, hget⟩ := hP
        obtain ⟨k1, k2, k3, k4, k5⟩ :=
          carveCorridor_carveStep side.1.1 side.1.2 found.1 found.2 acc.1
        have hPmc : (TileMapData.carveCorridor acc.1 side.1.1 side.1.2
            found.1 found.2).cols = mp.cols ∧
            (TileMapData.carveCorridor acc.1 side.1.1 side.1.2
              found.1 found.2).rows = mp.rows ∧
            (TileMapData.carveCorridor acc.1 side.1.1 side.1.2
              found.1 found.2).rooms = mp.rooms ∧
            (mp.Wf → (TileMapData.carveCorridor acc.1 side.1.1 side.1.2
              found.1 found.2).Wf) ∧
            ((TileMapData.carveCorridor acc.1 side.1.1 side.1.2
              found.1 found.2).get a b = mp.get a b ∨
             (TileMapData.carveCorridor acc.1 side.1.1 side.1.2
              found.1 found.2).get a b = TileType.empty) := by
          refine ⟨k1.trans hc, k2.trans hr, k3.trans hm,
            fun hw => k4 (hwf hw), ?_⟩
          rcases k5 a b with h | h
          · rw [h]
            exact hget
          · exact Or.inr h
        simp only [TileMapData.doorSides, List.mem_cons,
          List.not_mem_nil, or_false] at hside
        rcases hside with rfl | rfl | rfl | rfl
        · exact hWideH _ (room.x - 1) (room.y + room.h / 2)
            s1 s2 s3 _ rfl hPmc
        · exact hWideH _ (room.x + room.w) (room.y + room.h / 2)
            s4 s5 s6 _ rfl hPmc
        · exact hWideV _ (room.x + room.w / 2) (room.y - 1)
            s7 s8 s9 _ rfl hPmc
        · exact hWideV _ (room.x + room.w / 2) (room.y + room.h)
            s10 s11 s12 _ rfl hPmc
      · exact hP
  · refine foldl_rec
      (fun (acc : TileMapData × List Door × ℕ) =>
        acc.1.cols = mp.cols ∧ acc.1.rows = mp.rows ∧ acc.1.rooms = mp.rooms ∧
        (mp.Wf → acc.1.Wf) ∧
        (acc.1.get a b = mp.get a b ∨ acc.1.get a b = TileType.empty))
      _ _ _ ?_ ⟨rfl, rfl, rfl, id, Or.inl rfl⟩
    intro acc side hside hP
    by_cases h4c : 4 ≤ acc.2.2
    · simp only [if_pos h4c]
      exact hP
    · simp only [if_neg h4c]
      by_cases hemp : acc.1.get side.1.1 side.1.2 = .empty
      · simp only [if_pos hemp]
        simp only [TileMapData.doorSides, List.mem_cons, List.not_mem_nil,
          or_false] at hside
        rcases hside with rfl | rfl | rfl | rfl
        · exact hWideH acc.1 (room.x - 1) (room.y + room.h / 2)
            s1 s2 s3 _ rfl hP
        · exact hWideH acc.1 (room.x + room.w) (room.y + room.h / 2)
            s4 s5 s6 _ rfl hP
        · exact hWideV acc.1 (room.x + room.w / 2) (room.y - 1)
            s7 s8 s9 _ rfl hP
        · exact hWideV acc.1 (room.x + room.w / 2) (room.y + room.h)
            s10 s11 s12 _ rfl hP
      · simp only [if_neg hemp]
        exact hP

theorem pairFst {A B : Type} (a : A) (b : B) : (a, b).1 = a := rfl

theorem pairSnd {A B : Type} (a : A) (b : B) : (a, b).2 = b := rfl

theorem Wf_rooms_update (m : TileMapData) (rs : List Room) :
    TileMapData.Wf { m with rooms := rs } ↔ m.Wf := Iff.rfl

theorem get_rooms_update (m : TileMapData) (rs : List Room) (a b : ℤ) :
    TileMapData.get { m with rooms := rs } a b = m.get a b := rfl

theorem roomsSeparated_symm : Symmetric roomsSeparated := by
  intro u v h
  unfold roomsSeparated at h ⊢
  tauto

theorem connectRoomsToHallways_facts (m : TileMapData)
    (hwf : m.Wf)
    (hgeom : ∀ r ∈ m.rooms, roomGeomOK m.cols m.rows r)
    (hpair : List.Pairwise roomsSeparated m.rooms) :
    (TileMapData.connectRoomsToHallways m).cols = m.cols ∧
    (TileMapData.connectRoomsToHallways m).rows = m.rows ∧
    (TileMapData.connectRoomsToHallways m).Wf ∧
    (∀ rr ∈ (TileMapData.connectRoomsToHallways m).rooms,
      ∃ r ∈ m.rooms, rr.x = r.x ∧ rr.y = r.y ∧ rr.w = r.w ∧ rr.h = r.h) ∧
    ((∀ r ∈ m.rooms, ∀ a b, inRoomRect r a b → m.get a b = .empty) →
      ∀ r ∈ m.rooms, ∀ a b, inRoomRect r a b →
        (TileMapData.connectRoomsToHallways m).get a b = .empty) := by
  have hall : ∀ r ∈ m.rooms, ∀ x ∈ m.rooms, r = x ∨ roomsSeparated r x := by
    intro r hr x hx
    by_cases heq : r = x
    · exact Or.inl heq
    · exact Or.inr (List.Pairwise.forall roomsSeparated_symm hpair hr hx heq)
  have hsafe0 : ∀ x ∈ m.rooms, ((0 : ℤ), (0 : ℤ)) ∉ doorTiles x := by
    intro x hx hp
    obtain ⟨gw, _, gh, _, gx1, _, gy1, _⟩ := hgeom x hx
    simp only [doorTiles, List.mem_cons, List.not_mem_nil, or_false,
      Prod.mk.injEq] at hp
    omega
  have hsafeR : ∀ x ∈ m.rooms, ∀ r ∈ m.rooms, ∀ a b, inRoomRect r a b →
      (a, b) ∉ doorTiles x := by
    intro x hx r hr a b hin
    obtain ⟨gw, _, gh, _, _, _, _, _⟩ := hgeom x hx
    exact rect_avoids_doorTiles x r a b hin (hall r hr x hx)
      (by omega) (by omega)
  simp only [TileMapData.connectRoomsToHallways, Wf_rooms_update,
    get_rooms_update]
  refine foldl_rec
    (fun (acc : TileMapData × List Room) =>
      acc.1.cols = m.cols ∧ acc.1.rows = m.rows ∧ acc.1.Wf ∧
      (∀ rr ∈ acc.2,
        ∃ r ∈ m.rooms, rr.x = r.x ∧ rr.y = r.y ∧ rr.w = r.w ∧ rr.h = r.h) ∧
      ((∀ r ∈ m.rooms, ∀ a b, inRoomRect r a b → m.get a b = .empty) →
        ∀ r ∈ m.rooms, ∀ a b, inRoomRect r a b →
          acc.1.get a b = .empty))
    _ _ _ ?_
    ⟨rfl, rfl, hwf, fun rr hrr => absurd hrr (List.not_mem_nil rr),
      fun he => he⟩
  intro acc x hx hP
  obtain ⟨hc, hr, hwfa, hcopy, hget⟩ := hP
  obtain ⟨e1, e2, _, e4, _, e6, e7, e8, e9⟩ :=
    createDoorToHallway_facts acc.1 x 0 0 (hsafe0 x hx)
  simp only [pairFst, pairSnd]
  refine ⟨e1.trans hc, e2.trans hr, e4 hwfa, ?_, ?_⟩
  · intro rr hrr
    rcases List.mem_append.mp hrr with hold | hnew
    · exact hcopy rr hold
    · rw [List.mem_singleton] at hnew
      subst hnew
      exact ⟨x, hx, e6, e7, e8, e9⟩
  · intro he r hrm a b hin
    obtain ⟨_, _, _, _, d5, _, _, _, _⟩ :=
      createDoorToHallway_facts acc.1 x a b (hsafeR x hx r hrm a b hin)
    rcases d5 with h | h
    · rw [h]
      exact hget he r hrm a b hin
    · exact h

theorem createSpawnTiles_facts (m : TileMapData) :
    (TileMapData.createSpawnTiles m).cols = m.cols ∧
    (TileMapData.createSpawnTiles m).rows = m.rows ∧
    (TileMapData.createSpawnTiles m).rooms = m.rooms ∧
    ∀ a b, (TileMapData.createSpawnTiles m).get a b = m.get a b ∨
      (TileMapData.createSpawnTiles m).get a b = TileType.spawn := by
  simp only [TileMapData.createSpawnTiles]
  refine foldl_rec
    (fun acc : TileMapData =>
      acc.cols = m.cols ∧ acc.rows = m.rows ∧ acc.rooms = m.rooms ∧
      ∀ a b, acc.get a b = m.get a b ∨ acc.get a b = TileType.spawn)
    _ _ _ ?_ ⟨rfl, rfl, rfl, fun _ _ => Or.inl rfl⟩
  intro acc r _ ⟨hc, hr, hm, hget⟩
  have hone : ∀ (sx sy : ℤ),
      (acc.set sx sy .spawn).cols = m.cols ∧
      (acc.set sx sy .spawn).rows = m.rows ∧
      (acc.set sx sy .spawn).rooms = m.rooms ∧
      ∀ a b, (acc.set sx sy .spawn).get a b = m.get a b ∨
        (acc.set sx sy .spawn).get a b = TileType.spawn := by
    intro sx sy
    obtain ⟨m1, m2, m3⟩ := set_meta acc sx sy .spawn
    refine ⟨m1.trans hc, m2.trans hr, m3.trans hm, ?_⟩
    intro a b
    rcases get_set_or acc sx sy a b .spawn with h | h
    · rw [h]
      exact hget a b
    · exact Or.inr h
  split
  · exact hone _ _
  · split
    · exact hone _ _
    · exact ⟨hc, hr, hm, hget⟩

theorem createMedbayEquipment_meta (mm : TileMapData) (r : Room) :
    (TileMapData.createMedbayEquipment mm r).cols = mm.cols ∧
    (TileMapData.createMedbayEquipment mm r).rows = mm.rows ∧
    (TileMapData.createMedbayEquipment mm r).tiles = mm.tiles ∧
    (TileMapData.createMedbayEquipment mm r).rooms = mm.rooms := by
  simp only [TileMapData.createMedbayEquipment]
  split_ifs <;>
    first
      | exact ⟨rfl, rfl, rfl, rfl⟩
      | exact foldl_rec
          (fun acc : TileMapData => acc.cols = mm.cols ∧ acc.rows = mm.rows ∧
            acc.tiles = mm.tiles ∧ acc.rooms = mm.rooms)
          _ _ _ (fun acc i _ hP => hP) ⟨rfl, rfl, rfl, rfl⟩

theorem createAnimalTestingEquipment_meta (mm : TileMapData) (r : Room) :
    (TileMapData.createAnimalTestingEquipment mm r).cols = mm.cols ∧
    (TileMapData.createAnimalTestingEquipment mm r).rows = mm.rows ∧
    (TileMapData.createAnimalTestingEquipment mm r).tiles = mm.tiles ∧
    (TileMapData.createAnimalTestingEquipment mm r).rooms = mm.rooms := by
  simp only [TileMapData.createAnimalTestingEquipment]
  split_ifs <;>
    first
      | exact ⟨rfl, rfl, rfl, rfl⟩
      | exact foldl_rec
          (fun acc : TileMapData => acc.cols = mm.cols ∧ acc.rows = mm.rows ∧
            acc.tiles = mm.tiles ∧ acc.rooms = mm.rooms)
          _ _ _ (fun acc i _ hP => hP) ⟨rfl, rfl, rfl, rfl⟩

theorem createResearchEquipment_meta (mm : TileMapData) (r : Room) :
    (TileMapData.createResearchEquipment mm r).cols = mm.cols ∧
    (TileMapData.createResearchEquipment mm r).rows = mm.rows ∧
    (TileMapData.createResearchEquipment mm r).tiles = mm.tiles ∧
    (TileMapData.createResearchEquipment mm r).rooms = mm.rooms := by
  simp only [TileMapData.createResearchEquipment]
  split_ifs <;>
    first
      | exact ⟨rfl, rfl, rfl, rfl⟩
      | exact foldl_rec
          (fun acc : TileMapData => acc.cols = mm.cols ∧ acc.rows = mm.rows ∧
            acc.tiles = mm.tiles ∧ acc.rooms = mm.rooms)
          _ _ _ (fun acc i _ hP => hP) ⟨rfl, rfl, rfl, rfl⟩

theorem createStorageEquipment_meta (mm : TileMapData) (r : Room) :
    (TileMapData.createStorageEquipment mm r).cols = mm.cols ∧
    (TileMapData.createStorageEquipment mm r).rows = mm.rows ∧
    (TileMapData.createStorageEquipment mm r).tiles = mm.tiles ∧
    (TileMapData.createStorageEquipment mm r).rooms = mm.rooms := by
  simp only [TileMapData.createStorageEquipment]
  split_ifs <;>
    first
      | exact ⟨rfl, rfl, rfl, rfl⟩
      | exact foldl_rec
          (fun acc : TileMapData => acc.cols = mm.cols ∧ acc.rows = mm.rows ∧
            acc.tiles = mm.tiles ∧ acc.rooms = mm.rooms)
          _ _ _ (fun acc i _ hP => hP) ⟨rfl, rfl, rfl, rfl⟩

theorem createSecurityEquipment_meta (mm : TileMapData) (r : Room) :
    (TileMapData.createSecurityEquipment mm r).cols = mm.cols ∧
    (TileMapData.createSecurityEquipment mm r).rows = mm.rows ∧
    (TileMapData.createSecurityEquipment mm r).tiles = mm.tiles ∧
    (TileMapData.createSecurityEquipment mm r).rooms = mm.rooms :=
  ⟨rfl, rfl, rfl, rfl⟩

theorem createCommandEquipment_meta (mm : TileMapData) (r : Room) :
    (TileMapData.createCommandEquipment mm r).cols = mm.cols ∧
    (TileMapData.createCommandEquipment mm r).rows = mm.rows ∧
    (TileMapData.createCommandEquipment mm r).tiles = mm.tiles ∧
    (TileMapData.createCommandEquipment mm r).rooms = mm.rooms :=
  ⟨rfl, rfl, rfl, rfl⟩

theorem createAllRoomEquipment_meta (m : TileMapData) :
    (TileMapData.createAllRoomEquipment m).cols = m.cols ∧
    (TileMapData.createAllRoomEquipment m).rows = m.rows ∧
    (TileMapData.createAllRoomEquipment m).tiles = m.tiles ∧
    (TileMapData.createAllRoomEquipment m).rooms = m.rooms := by
  simp only [TileMapData.createAllRoomEquipment]
  refine foldl_rec
    (fun acc : TileMapData => acc.cols = m.cols ∧ acc.rows = m.rows ∧
      acc.tiles = m.tiles ∧ acc.rooms = m.rooms)
    _ _ _ ?_ ⟨rfl, rfl, rfl, rfl⟩
  intro acc r _ hP
  obtain ⟨hc, hr, ht, hm⟩ := hP
  split
  · obtain ⟨e1, e2, e3, e4⟩ := createMedbayEquipment_meta acc r
    exact ⟨e1.trans hc, e2.trans hr, e3.trans ht, e4.trans hm⟩
  · obtain ⟨e1, e2, e3, e4⟩ := createAnimalTestingEquipment_meta acc r
    exact ⟨e1.trans hc, e2.trans hr, e3.trans ht, e4.trans hm⟩
  · obtain ⟨e1, e2, e3, e4⟩ := createResearchEquipment_meta acc r
    exact ⟨e1.trans hc, e2.trans hr, e3.trans ht, e4.trans hm⟩
  · obtain ⟨e1, e2, e3, e4⟩ := createStorageEquipment_meta acc r
    exact ⟨e1.trans hc, e2.trans hr, e3.trans ht, e4.trans hm⟩
  · obtain ⟨e1, e2, e3, e4⟩ := createSecurityEquipment_meta acc r
    exact ⟨e1.trans hc, e2.trans hr, e3.trans ht, e4.trans hm⟩
  · obtain ⟨e1, e2, e3, e4⟩ := createCommandEquipment_meta acc r
    exact ⟨e1.trans hc, e2.trans hr, e3.trans ht, e4.trans hm⟩
  · exact ⟨hc, hr, ht, hm⟩

theorem get_congr_meta (m1 m2 : TileMapData) (hc : m1.cols = m2.cols)
    (hr : m1.rows = m2.rows) (ht : m1.tiles = m2.tiles) (a b : ℤ) :
    m1.get a b = m2.get a b := by
  unfold TileMapData.get
  rw [hc, hr, ht]

theorem tryPlaceRoom_meta (m : TileMapData) (att : ℤ × ℤ × ℤ × ℤ) :
    (TileMapData.tryPlaceRoom m att).cols = m.cols ∧
    (TileMapData.tryPlaceRoom m att).rows = m.rows := by
  simp only [TileMapData.tryPlaceRoom]
  split_ifs with h14 hg
  · exact ⟨rfl, rfl⟩
  · obtain ⟨hc2, hr2, _, _, _⟩ :=
      carveStep_foldl
        (fun mm ry => (rangeZ att.2.2.1 att.1.toNat).foldl
          (fun mm2 rx => mm2.set rx ry .empty) mm)
        (rangeZ att.2.2.2 att.2.1.toNat)
        (fun ry _ mm0 =>
          carveStep_foldl _ _ (fun rx _ => carveStep_set rx ry) mm0)
        m
    exact ⟨hc2, hr2⟩
  · exact ⟨rfl, rfl⟩

theorem roomsPipeline_interiors (h0 : TileMapData)
    (attempts : List (ℤ × ℤ × ℤ × ℤ))
    (hwf : h0.Wf) (hrooms : h0.rooms = [])
    (hatts : ∀ att ∈ attempts, roomCandidateOk h0.cols h0.rows att) :
    ∀ r ∈ (TileMapData.createAllRoomEquipment (TileMapData.createSpawnTiles
        (TileMapData.connectRoomsToHallways
          (attempts.foldl TileMapData.tryPlaceRoom h0)))).rooms, ∀ tx ty,
      inRoomRect r tx ty →
      (TileMapData.createAllRoomEquipment (TileMapData.createSpawnTiles
        (TileMapData.connectRoomsToHallways
          (attempts.foldl TileMapData.tryPlaceRoom h0)))).get tx ty =
        TileType.empty ∨
      (TileMapData.createAllRoomEquipment (TileMapData.createSpawnTiles
        (TileMapData.connectRoomsToHallways
          (attempts.foldl TileMapData.tryPlaceRoom h0)))).get tx ty =
        TileType.spawn := by
  have hplace := foldl_rec
    (fun acc : TileMapData =>
      acc.cols = h0.cols ∧ acc.rows = h0.rows ∧ RoomsInv acc)
    TileMapData.tryPlaceRoom attempts h0
    (by
      intro acc att hmem hP
      obtain ⟨hcc, hrr, hinv⟩ := hP
      obtain ⟨tm1, tm2⟩ := tryPlaceRoom_meta acc att
      refine ⟨tm1.trans hcc, tm2.trans hrr, tryPlaceRoom_inv acc att ?_ hinv⟩
      rw [hcc, hrr]
      exact hatts att hmem)
    ⟨rfl, rfl, hwf,
      by rw [hrooms]; intro r hr; exact absurd hr (List.not_mem_nil r),
      by rw [hrooms]; exact List.Pairwise.nil,
      by rw [hrooms]; intro r hr; exact absurd hr (List.not_mem_nil r)⟩
  obtain ⟨hpc, hpr, hpwf, hpgeom, hppair, hpempty⟩ := hplace
  obtain ⟨hcc, hcr, hcwf, hccopy, hcget⟩ :=
    connectRoomsToHallways_facts (attempts.foldl TileMapData.tryPlaceRoom h0)
      hpwf hpgeom hppair
  have hcempty := hcget hpempty
  obtain ⟨hsc, hsr, hsm, hsget⟩ :=
    createSpawnTiles_facts (TileMapData.connectRoomsToHallways
      (attempts.foldl TileMapData.tryPlaceRoom h0))
  obtain ⟨hec, her, het, hem⟩ :=
    createAllRoomEquipment_meta (TileMapData.createSpawnTiles
      (TileMapData.connectRoomsToHallways
        (attempts.foldl TileMapData.tryPlaceRoom h0)))
  intro r hr tx ty hrect
  rw [hem, hsm] at hr
  obtain ⟨r0, hr0, hx, hy, hw, hh⟩ := hccopy r hr
  have hrect0 : inRoomRect r0 tx ty := by
    obtain ⟨a1, a2, a3, a4⟩ := hrect
    rw [hx] at a1
    rw [hx, hw] at a2
    rw [hy] at a3
    rw [hy, hh] at a4
    exact ⟨a1, a2, a3, a4⟩
  have hconn := hcempty r0 hr0 tx ty hrect0
  have hgfinal := get_congr_meta
    (TileMapData.createAllRoomEquipment (TileMapData.createSpawnTiles
      (TileMapData.connectRoomsToHallways
        (attempts.foldl TileMapData.tryPlaceRoom h0))))
    (TileMapData.createSpawnTiles (TileMapData.connectRoomsToHallways
      (attempts.foldl TileMapData.tryPlaceRoom h0)))
    hec her het tx ty
  rw [hgfinal]
  rcases hsget tx ty with h | h
  · rw [h, hconn]
    exact Or.inl rfl
  · exact Or.inr h

theorem generateLabRooms_interiors (m : TileMapData)
    (attempts : List (ℤ × ℤ × ℤ × ℤ))
    (hatts : ∀ att ∈ attempts, roomCandidateOk m.cols m.rows att) :
    ∀ r ∈ (TileMapData.generateLabRooms m attempts).rooms, ∀ tx ty,
      inRoomRect r tx ty →
      (TileMapData.generateLabRooms m attempts).get tx ty = TileType.empty ∨
      (TileMapData.generateLabRooms m attempts).get tx ty = TileType.spawn := by
  have hwf1 : TileMapData.Wf { m with
      tiles := List.replicate m.rows (List.replicate m.cols TileType.wall),
      rooms := ([] : List Room) } := by
    constructor
    · simp
    · intro row hrow
      rw [List.eq_of_mem_replicate hrow]
      simp
  obtain ⟨hc1, hr1, hm1, hwfh, _⟩ := createMainHallways_carveStep { m with
      tiles := List.replicate m.rows (List.replicate m.cols TileType.wall),
      rooms := ([] : List Room) }
  simp only [TileMapData.generateLabRooms, TileMapData.createRoomsWithHallways]
  refine roomsPipeline_interiors _ attempts (hwfh hwf1) (hm1.trans rfl) ?_
  intro att hmem
  rw [hc1, hr1]
  exact hatts att hmem

/-- Claim C7 (amended): in every facility the TileMap constructor builds,
each placed room's strict interior holds only floor tiles: every tile
strictly inside a room rectangle is either empty or the room's spawn tile
(the original claim said all-empty; the spawn pass stamps the room center,
and centers of medbay rooms standing on equipment, with spawn). -/
theorem c7_room_interiors (width height : ℤ)
    (attempts : List (ℤ × ℤ × ℤ × ℤ))
    (hatts : ∀ att ∈ attempts,
      roomCandidateOk (max 8 (width / 40).toNat) (max 6 (height / 40).toNat) att) :
    ∀ r ∈ (TileMapData.create width height attempts).rooms, ∀ tx ty,
      strictlyInsideRoom r tx ty →
      (TileMapData.create width height attempts).get tx ty = TileType.empty ∨
      (TileMapData.create width height attempts).get tx ty = TileType.spawn := by
  intro r hr tx ty hins
  have hrect : inRoomRect r tx ty := by
    obtain ⟨a1, a2, a3, a4⟩ := hins
    exact ⟨le_of_lt a1, le_of_lt a2, le_of_lt a3, le_of_lt a4⟩
  simp only [TileMapData.create] at hr ⊢
  exact generateLabRooms_interiors _ attempts hatts r hr tx ty hrect

theorem c7_room_interiors_witness :
    (∀ att ∈ ([((6:ℤ), (6:ℤ), (4:ℤ), (12:ℤ))] : List (ℤ × ℤ × ℤ × ℤ)),
      roomCandidateOk (max 8 ((600:ℤ) / 40).toNat)
        (max 6 ((1200:ℤ) / 40).toNat) att) ∧
    (∀ r ∈ (TileMapData.create 600 1200 [(6, 6, 4, 12)]).rooms, ∀ tx ty,
      strictlyInsideRoom r tx ty →
      (TileMapData.create 600 1200 [(6, 6, 4, 12)]).get tx ty =
        TileType.empty ∨
      (TileMapData.create 600 1200 [(6, 6, 4, 12)]).get tx ty =
        TileType.spawn) :=
  ⟨by decide, c7_room_interiors 600 1200 [(6, 6, 4, 12)] (by decide)⟩

theorem ReachN_snoc (m : TileMapData) :
    ∀ (k : ℕ) (u w z : ℤ × ℤ), ReachN m k u w → navStep m w z →
      ReachN m (k + 1) u z := by
  intro k
  induction k with
  | zero =>
      intro u w z hr hs
      have hu : u = w := hr
      subst hu
      exact ⟨z, hs, rfl⟩
  | succ n ih =>
      intro u w z hr hs
      obtain ⟨w1, hs1, hr1⟩ := hr
      exact ⟨w1, hs1, ih w1 w z hr1 hs⟩

theorem chainOK_reach (m : TileMapData) (start : ℤ × ℤ) :
    ∀ nd : BNode, chainOK m start nd → ReachN m nd.depth start nd.pos
  | .mk p none, h => by
      have hp : p = start := h
      subst hp
      exact rfl
  | .mk p (some par), h => by
      obtain ⟨hstep, hpar⟩ := h
      exact ReachN_snoc m par.depth start par.pos p
        (chainOK_reach m start par hpar) hstep

theorem backtrackStep_spec (m : TileMapData) (start : ℤ × ℤ) :
    ∀ nd : BNode, chainOK m start nd → tailNotStart start nd →
      ∀ k : ℕ, nd.depth = k + 1 →
      navStep m start (backtrackStep start nd) ∧
        ReachN m k (backtrackStep start nd) nd.pos
  | .mk p none, _, _, k, hd => by
      simp only [BNode.depth] at hd
      exact absurd hd (by omega)
  | .mk p (some par), hok, hts, k, hd => by
      obtain ⟨hstep, hpar⟩ := hok
      obtain ⟨hne, htspar⟩ := hts
      simp only [BNode.depth] at hd
      by_cases hps : par.pos = start
      · cases par with
        | mk pp pparent =>
          cases pparent with
          | none =>
              have hk0 : k = 0 := by
                simp only [BNode.depth] at hd
                omega
              subst hk0
              have hbt : backtrackStep start (BNode.mk p (some (BNode.mk pp none))) =
                  p := by
                rw [backtrackStep, if_pos hps]
              rw [hbt]
              refine ⟨?_, rfl⟩
              rw [hps] at hstep
              exact hstep
          | some gp =>
              exact absurd hps htspar.1
      · cases par with
        | mk pp pparent =>
          cases pparent with
          | none =>
              exact absurd hpar hps
          | some gp =>
              have hdl : (BNode.mk pp (some gp)).depth = gp.depth + 1 := rfl
              have hk : k = gp.depth + 1 := by
                rw [hdl] at hd
                omega
              obtain ⟨hs1, hr1⟩ := backtrackStep_spec m start (BNode.mk pp (some gp))
                hpar htspar gp.depth rfl
              have hbt : backtrackStep start
                  (BNode.mk p (some (BNode.mk pp (some gp)))) =
                  backtrackStep start (BNode.mk pp (some gp)) := by
                rw [backtrackStep, if_neg hps]
              rw [hbt]
              refine ⟨hs1, ?_⟩
              rw [hk]
              exact ReachN_snoc m gp.depth _ _ p hr1 hstep

theorem nav_escape (m : TileMapData) (v : List (ℤ × ℤ)) :
    ∀ (j : ℕ) (u w : ℤ × ℤ), ReachN m j u w → u ∈ v → w ∉ v →
      ∃ a b i, a ∈ v ∧ b ∉ v ∧ navStep m a b ∧ ReachN m i u a ∧ i < j := by
  intro j
  induction j with
  | zero =>
      intro u w hr hu hw
      have : u = w := hr
      subst this
      exact absurd hu hw
  | succ n ih =>
      intro u w hr hu hw
      obtain ⟨z, hz, hrest⟩ := hr
      by_cases hzv : z ∈ v
      · obtain ⟨a, b, i, ha, hb, hab, hra, hi⟩ := ih z w hrest hzv hw
        exact ⟨a, b, i + 1, ha, hb, hab, ⟨z, hz, hra⟩, by omega⟩
      · exact ⟨u, z, 0, hu, hzv, hz, rfl, by omega⟩

theorem bfsExpand_spec (m : TileMapData) (cur : BNode) :
    ∀ (ds : List (ℤ × ℤ)) (q : List BNode) (v : List (ℤ × ℤ)),
      ∃ new : List BNode,
        (bfsExpand m cur ds q v).1 = q ++ new ∧
        (∀ x ∈ v, x ∈ (bfsExpand m cur ds q v).2) ∧
        (∀ nd ∈ new, ∃ d ∈ ds,
          nd = BNode.mk (cur.pos.1 + d.1, cur.pos.2 + d.2) (some cur) ∧
          bfsInBounds m (cur.pos.1 + d.1, cur.pos.2 + d.2) = true ∧
          isOpenTile m (cur.pos.1 + d.1, cur.pos.2 + d.2) = true ∧
          (cur.pos.1 + d.1, cur.pos.2 + d.2) ∉ v) ∧
        (∀ x ∈ (bfsExpand m cur ds q v).2, x ∈ v ∨ ∃ nd ∈ new, nd.pos = x) ∧
        (∀ d ∈ ds, bfsInBounds m (cur.pos.1 + d.1, cur.pos.2 + d.2) = true →
          isOpenTile m (cur.pos.1 + d.1, cur.pos.2 + d.2) = true →
          (cur.pos.1 + d.1, cur.pos.2 + d.2) ∈ (bfsExpand m cur ds q v).2) := by
  intro ds
  induction ds with
  | nil =>
      intro q v
      refine ⟨[], by simp [bfsExpand], fun x hx => hx, ?_, fun x hx => Or.inl hx, ?_⟩
      · intro nd hnd
        exact absurd hnd (List.not_mem_nil nd)
      · intro d hd
        exact absurd hd (List.not_mem_nil d)
  | cons d ds ih =>
      intro q v
      by_cases hc : bfsInBounds m (cur.pos.1 + d.1, cur.pos.2 + d.2) = true ∧
          (cur.pos.1 + d.1, cur.pos.2 + d.2) ∉ v ∧
          isOpenTile m (cur.pos.1 + d.1, cur.pos.2 + d.2) = true
      · have hexp : bfsExpand m cur (d :: ds) q v =
            bfsExpand m cur ds
              (q ++ [BNode.mk (cur.pos.1 + d.1, cur.pos.2 + d.2) (some cur)])
              ((cur.pos.1 + d.1, cur.pos.2 + d.2) :: v) := by
          simp only [bfsExpand, if_pos hc]
        obtain ⟨new1, h1, h2, h3, h4, h5⟩ :=
          ih (q ++ [BNode.mk (cur.pos.1 + d.1, cur.pos.2 + d.2) (some cur)])
            ((cur.pos.1 + d.1, cur.pos.2 + d.2) :: v)
        rw [hexp]
        refine ⟨BNode.mk (cur.pos.1 + d.1, cur.pos.2 + d.2) (some cur) :: new1,
          ?_, ?_, ?_, ?_, ?_⟩
        · rw [h1, List.append_assoc]
          rfl
        · intro x hx
          exact h2 x (List.mem_cons_of_mem _ hx)
        · intro nd hnd
          rcases List.mem_cons.mp hnd with hh | ht
          · exact ⟨d, List.mem_cons_self d ds, hh, hc.1, hc.2.2, hc.2.1⟩
          · obtain ⟨d2, hd2, he2, hb2, ho2, hv2⟩ := h3 nd ht
            exact ⟨d2, List.mem_cons_of_mem d hd2, he2, hb2, ho2,
              fun hin => hv2 (List.mem_cons_of_mem _ hin)⟩
        · intro x hx
          rcases h4 x hx with hv | ⟨nd, hnd, hp⟩
          · rcases List.mem_cons.mp hv with hh | ht
            · exact Or.inr ⟨BNode.mk (cur.pos.1 + d.1, cur.pos.2 + d.2) (some cur),
                List.mem_cons_self _ _, hh.symm⟩
            · exact Or.inl ht
          · exact Or.inr ⟨nd, List.mem_cons_of_mem _ hnd, hp⟩
        · intro d2 hd2 hb2 ho2
          rcases List.mem_cons.mp hd2 with hh | ht
          · subst hh
            exact h2 _ (List.mem_cons_self _ _)
          · exact h5 d2 ht hb2 ho2
      · have hexp : bfsExpand m cur (d :: ds) q v = bfsExpand m cur ds q v := by
          simp only [bfsExpand, if_neg hc]
        obtain ⟨new1, h1, h2, h3, h4, h5⟩ := ih q v
        rw [hexp]
        refine ⟨new1, h1, h2, ?_, h4, ?_⟩
        · intro nd hnd
          obtain ⟨d2, hd2, he2, hb2, ho2, hv2⟩ := h3 nd hnd
          exact ⟨d2, List.mem_cons_of_mem d hd2, he2, hb2, ho2, hv2⟩
        · intro d2 hd2 hb2 ho2
          rcases List.mem_cons.mp hd2 with hh | ht
          · subst hh
            have hin : (cur.pos.1 + d2.1, cur.pos.2 + d2.2) ∈ v := by
              by_contra hnin
              exact hc ⟨hb2, hnin, ho2⟩
            exact h2 _ hin
          · exact h5 d2 ht hb2 ho2

theorem bfsInv_step (m : TileMapData) (target start : ℤ × ℤ)
    (cur : BNode) (rest : List BNode) (visited : List (ℤ × ℤ))
    (hinv : BfsInv m target start (cur :: rest) visited)
    (hnt : ¬ cur.pos = target) :
    BfsInv m target start (bfsExpand m cur bfsDirs rest visited).1
      (bfsExpand m cur bfsDirs rest visited).2 := by
  obtain ⟨hstart, hnode, hqv, hclosed, hlev, htq⟩ := hinv
  obtain ⟨new, h1, h2, h3, h4, h5⟩ := bfsExpand_spec m cur bfsDirs rest visited
  obtain ⟨hcchain, hcts, hcdist⟩ := hnode cur (List.mem_cons_self _ _)
  have hfront : ∀ nd ∈ cur :: rest, cur.depth ≤ nd.depth := by
    obtain ⟨d0, q1, q2, heq, hq1, hq2⟩ := hlev
    cases q1 with
    | nil =>
        simp only [List.nil_append] at heq
        intro nd hnd
        rw [hq2 nd (heq ▸ hnd), hq2 cur (heq ▸ List.mem_cons_self _ _)]
    | cons a q1t =>
        simp only [List.cons_append] at heq
        obtain ⟨hca, hrest⟩ := List.cons.injEq cur rest a (q1t ++ q2) ▸ heq
        intro nd hnd
        rcases List.mem_cons.mp hnd with hh | ht
        · rw [hh]
        · rw [hca, hq1 a (List.mem_cons_self _ _)]
          rw [hrest] at ht
          rcases List.mem_append.mp ht with h1t | h2t
          · rw [hq1 nd (List.mem_cons_of_mem _ h1t)]
          · rw [hq2 nd h2t]
            omega
  have hsucc : ∀ w, navStep m cur.pos w →
      w ∈ (bfsExpand m cur bfsDirs rest visited).2 := by
    intro w hw
    obtain ⟨⟨d, hd, hwe⟩, hb, ho⟩ := hw
    subst hwe
    exact h5 d hd hb ho
  have hnewfacts : ∀ nd ∈ new, chainOK m start nd ∧ tailNotStart start nd ∧
      IsDist m start nd.pos nd.depth ∧ nd.depth = cur.depth + 1 := by
    intro nd hnd
    obtain ⟨d, hd, hnde, hb, ho, hnv⟩ := h3 nd hnd
    subst hnde
    have hstep : navStep m cur.pos (cur.pos.1 + d.1, cur.pos.2 + d.2) :=
      ⟨⟨d, hd, rfl⟩, hb, ho⟩
    refine ⟨⟨hstep, hcchain⟩, ⟨fun he => hnv (he ▸ hstart), hcts⟩, ⟨?_, ?_⟩, rfl⟩
    · exact ReachN_snoc m cur.depth start cur.pos _ hcdist.1 hstep
    · intro j hj
      show cur.depth + 1 ≤ j
      obtain ⟨a, b, i, ha, hb2, hab, hra, hi⟩ :=
        nav_escape m visited j start _ hj hstart hnv
      rcases hclosed a ha with hcl | ⟨nd2, hnd2, hpos2⟩
      · exact absurd (hcl b hab) hb2
      · obtain ⟨_, _, hd2⟩ := hnode nd2 hnd2
        have hle1 : nd2.depth ≤ i := hd2.2 i (hpos2 ▸ hra)
        have hle2 : cur.depth ≤ nd2.depth := hfront nd2 hnd2
        omega
  refine ⟨h2 start hstart, ?_, ?_, ?_, ?_, ?_⟩
  · intro nd hnd
    rw [h1] at hnd
    rcases List.mem_append.mp hnd with hr | hn
    · exact hnode nd (List.mem_cons_of_mem _ hr)
    · obtain ⟨hc1, hc2, hc3, _⟩ := hnewfacts nd hn
      exact ⟨hc1, hc2, hc3⟩
  · intro nd hnd
    rw [h1] at hnd
    rcases List.mem_append.mp hnd with hr | hn
    · exact h2 nd.pos (hqv nd (List.mem_cons_of_mem _ hr))
    · obtain ⟨d, hd, hnde, hb, ho, _⟩ := h3 nd hn
      subst hnde
      exact h5 d hd hb ho
  · intro z hz
    rcases h4 z hz with hv | ⟨nd, hnd, hpos⟩
    · rcases hclosed z hv with hcl | ⟨nd2, hnd2, hpos2⟩
      · exact Or.inl fun w hw => h2 w (hcl w hw)
      · rcases List.mem_cons.mp hnd2 with hh | ht
        · subst hh
          rw [← hpos2]
          exact Or.inl hsucc
        · exact Or.inr ⟨nd2, by rw [h1]; exact List.mem_append_left _ ht, hpos2⟩
    · exact Or.inr ⟨nd, by rw [h1]; exact List.mem_append_right _ hnd, hpos⟩
  · obtain ⟨d0, q1, q2, heq, hq1, hq2⟩ := hlev
    cases q1 with
    | nil =>
        simp only [List.nil_append] at heq
        have hcd : cur.depth = d0 + 1 := hq2 cur (heq ▸ List.mem_cons_self _ _)
        refine ⟨d0 + 1, rest, new, h1, ?_, ?_⟩
        · intro nd hnd
          exact hq2 nd (heq ▸ List.mem_cons_of_mem _ hnd)
        · intro nd hnd
          rw [(hnewfacts nd hnd).2.2.2, hcd]
    | cons a q1t =>
        simp only [List.cons_append] at heq
        obtain ⟨hca, hrest⟩ := List.cons.injEq cur rest a (q1t ++ q2) ▸ heq
        have hcd : cur.depth = d0 := by
          rw [hca]
          exact hq1 a (List.mem_cons_self _ _)
        refine ⟨d0, q1t, q2 ++ new, by rw [h1, hrest, List.append_assoc], ?_, ?_⟩
        · intro nd hnd
          exact hq1 nd (List.mem_cons_of_mem _ hnd)
        · intro nd hnd
          rcases List.mem_append.mp hnd with h2t | hn
          · exact hq2 nd h2t
          · rw [(hnewfacts nd hn).2.2.2, hcd]
  · intro ht
    rcases h4 target ht with hv | ⟨nd, hnd, hpos⟩
    · obtain ⟨nd2, hnd2, hpos2⟩ := htq hv
      rcases List.mem_cons.mp hnd2 with hh | hrt
      · exact absurd (hh ▸ hpos2) hnt
      · exact ⟨nd2, by rw [h1]; exact List.mem_append_left _ hrt, hpos2⟩
    · exact ⟨nd, by rw [h1]; exact List.mem_append_right _ hnd, hpos⟩

theorem bfsInv_init (m : TileMapData) (target start : ℤ × ℤ)
    (hne : start ≠ target) :
    BfsInv m target start [BNode.mk start none] [start] := by
  refine ⟨List.mem_cons_self _ _, ?_, ?_, ?_, ?_, ?_⟩
  · intro nd hnd
    rw [List.mem_singleton.mp hnd]
    exact ⟨rfl, trivial, rfl, fun j _ => Nat.zero_le j⟩
  · intro nd hnd
    rw [List.mem_singleton.mp hnd]
    exact List.mem_cons_self _ _
  · intro z hz
    rw [List.mem_singleton.mp hz]
    exact Or.inr ⟨BNode.mk start none, List.mem_cons_self _ _, rfl⟩
  · exact ⟨0, [BNode.mk start none], [], rfl,
      fun nd hnd => by rw [List.mem_singleton.mp hnd]; rfl,
      fun nd hnd => absurd hnd (List.not_mem_nil nd)⟩
  · intro ht
    exact absurd (List.mem_singleton.mp ht).symm hne

theorem bfsInv_nil_unreachable (m : TileMapData) (target start : ℤ × ℤ)
    (v : List (ℤ × ℤ)) (hinv : BfsInv m target start [] v) :
    ¬ NavReachable m start target := by
  obtain ⟨hstart, _, _, hclosed, _, htq⟩ := hinv
  rintro ⟨n, hr⟩
  have hall : ∀ n, ∀ u ∈ v, ReachN m n u target → target ∈ v := by
    intro n
    induction n with
    | zero =>
        intro u hu hr0
        have : u = target := hr0
        rwa [← this]
    | succ k ih =>
        intro u hu hr0
        obtain ⟨z, hz, hrest⟩ := hr0
        have hzv : z ∈ v := by
          rcases hclosed u hu with hcl | ⟨nd, hnd, _⟩
          · exact hcl z hz
          · exact absurd hnd (List.not_mem_nil nd)
        exact ih z hzv hrest
  obtain ⟨nd, hnd, _⟩ := htq (hall n start hstart hr)
  exact absurd hnd (List.not_mem_nil nd)

theorem bfsLoop_correct (m : TileMapData) (target start : ℤ × ℤ) :
    ∀ (q : List BNode) (v : List (ℤ × ℤ)), BfsInv m target start q v →
      (bfsLoop m target q v = none → ¬ NavReachable m start target) ∧
      (∀ found, bfsLoop m target q v = some found →
        found.pos = target ∧ chainOK m start found ∧ tailNotStart start found ∧
        IsDist m start target found.depth) := by
  intro q v
  induction q, v using bfsLoop.induct m target with
  | case1 v =>
      intro hinv
      refine ⟨fun _ => bfsInv_nil_unreachable m target start v hinv, ?_⟩
      intro found hf
      rw [bfsLoop] at hf
      exact absurd hf (by simp)
  | case2 cur rest visited hp =>
      intro hinv
      have heq : bfsLoop m target (cur :: rest) visited = some cur := by
        rw [bfsLoop, if_pos hp]
      constructor
      · intro hn
        rw [heq] at hn
        exact absurd hn (by simp)
      · intro found hf
        rw [heq] at hf
        have hfc : cur = found := Option.some.inj hf
        obtain ⟨hc1, hc2, hc3⟩ := hinv.2.1 cur (List.mem_cons_self _ _)
        rw [← hfc]
        exact ⟨hp, hc1, hc2, hp ▸ hc3⟩
  | case3 cur rest visited hp qv ih =>
      intro hinv
      have hinv2 := bfsInv_step m target start cur rest visited hinv hp
      have heq : bfsLoop m target (cur :: rest) visited =
          bfsLoop m target (bfsExpand m cur bfsDirs rest visited).1
            (bfsExpand m cur bfsDirs rest visited).2 := by
        rw [bfsLoop, if_neg hp]
      obtain ⟨ihn, ihs⟩ := ih hinv2
      rw [heq]
      exact ⟨ihn, ihs⟩

/-- Claim C3: Game.findNextStep returns null exactly when the start tile
equals the target tile or no 4-connected path over empty/door tiles reaches
the target; otherwise it returns a tile that is one BFS-graph step from the
start (4-adjacent, in bounds, of type empty or door) and is the first step
of a shortest path: the start's shortest-path distance to the target is
k + 1 and the returned tile's distance is k. -/
theorem c3_findNextStep_correct (m : TileMapData) (fromX fromY toX toY : ℤ) :
    (findNextStep m fromX fromY toX toY = none ↔
      ((fromX, fromY) = ((toX, toY) : ℤ × ℤ) ∨
        ¬ NavReachable m (fromX, fromY) (toX, toY))) ∧
    ∀ s, findNextStep m fromX fromY toX toY = some s →
      navStep m (fromX, fromY) s ∧
      ∃ k, IsDist m (fromX, fromY) (toX, toY) (k + 1) ∧
        IsDist m s (toX, toY) k := by
  by_cases he : fromX = toX ∧ fromY = toY
  · have hval : findNextStep m fromX fromY toX toY = none := by
      rw [findNextStep, if_pos he]
    constructor
    · rw [hval]
      refine ⟨fun _ => Or.inl ?_, fun _ => rfl⟩
      rw [he.1, he.2]
    · intro s hs
      rw [hval] at hs
      exact absurd hs (by simp)
  · have hne : ((fromX, fromY) : ℤ × ℤ) ≠ (toX, toY) := by
      intro hcontra
      rw [Prod.mk.injEq] at hcontra
      exact he hcontra
    obtain ⟨hnonec, hsomec⟩ := bfsLoop_correct m (toX, toY) (fromX, fromY)
      [BNode.mk (fromX, fromY) none] [(fromX, fromY)]
      (bfsInv_init m (toX, toY) (fromX, fromY) hne)
    cases hbl : bfsLoop m (toX, toY) [BNode.mk (fromX, fromY) none]
        [(fromX, fromY)] with
    | none =>
        have hval : findNextStep m fromX fromY toX toY = none := by
          rw [findNextStep, if_neg he, hbl]
        constructor
        · rw [hval]
          exact ⟨fun _ => Or.inr (hnonec hbl), fun _ => rfl⟩
        · intro s hs
          rw [hval] at hs
          exact absurd hs (by simp)
    | some found =>
        obtain ⟨hpos, hchain, hts, hdist⟩ := hsomec found hbl
        have hval : findNextStep m fromX fromY toX toY =
            some (backtrackStep (fromX, fromY) found) := by
          rw [findNextStep, if_neg he, hbl]
        constructor
        · rw [hval]
          constructor
          · intro hcontra
            exact absurd hcontra (by simp)
          · rintro (h | h)
            · exact absurd h hne
            · exact absurd ⟨found.depth, hpos ▸ chainOK_reach m _ found hchain⟩ h
        · intro s hs
          rw [hval] at hs
          obtain rfl : backtrackStep (fromX, fromY) found = s := Option.some.inj hs
          have hd1 : found.depth ≠ 0 := by
            intro h0
            cases found with
            | mk p par =>
              cases par with
              | none =>
                  have hps : p = (fromX, fromY) := hchain
                  have hpt : p = ((toX, toY) : ℤ × ℤ) := hpos
                  exact hne (hps ▸ hpt)
              | some gp => simp [BNode.depth] at h0
          obtain ⟨k, hk⟩ : ∃ k, found.depth = k + 1 := ⟨found.depth - 1, by omega⟩
          obtain ⟨hstep, hreach⟩ :=
            backtrackStep_spec m (fromX, fromY) found hchain hts k hk
          refine ⟨hstep, k, ?_, ?_, ?_⟩
          · rw [← hk]
            exact hdist
          · rw [← hpos]
            exact hreach
          · intro j hj
            have hj1 : ReachN m (j + 1) (fromX, fromY) (toX, toY) :=
              ⟨backtrackStep (fromX, fromY) found, hstep, hj⟩
            have := hdist.2 (j + 1) hj1
            omega

set_option maxRecDepth 8000 in
theorem c3_findNextStep_correct_witness :
    findNextStep emptyMapFixture 0 0 0 1 = some ((0 : ℤ), (1 : ℤ)) ∧
    (navStep emptyMapFixture ((0 : ℤ), (0 : ℤ)) ((0 : ℤ), (1 : ℤ)) ∧
      ∃ k, IsDist emptyMapFixture ((0 : ℤ), (0 : ℤ)) ((0 : ℤ), (1 : ℤ)) (k + 1) ∧
        IsDist emptyMapFixture ((0 : ℤ), (1 : ℤ)) ((0 : ℤ), (1 : ℤ)) k) := by
  have h : findNextStep emptyMapFixture 0 0 0 1 = some ((0 : ℤ), (1 : ℤ)) := by
    simp +decide [findNextStep, bfsLoop, bfsExpand, bfsDirs, bfsInBounds,
      isOpenTile, emptyMapFixture, TileMapData.get, backtrackStep, BNode.pos]
  exact ⟨h, (c3_findNextStep_correct emptyMapFixture 0 0 0 1).2 (0, 1) h⟩

end CB
